import Mathlib

/-!
# ColorSeekerGUI: the detection-and-matching engine of `automation/worker.go`

A shallow embedding of the colour sampler, the template matcher and the polling
loop, followed by the properties proved about them.

Modelling conventions.

* Go `int` is `Int`. Where a value of the configuration enters a sum or a product
  that can leave the 64-bit range (the row counter of the sampler, the window of
  `refineSearch`, the delay of a cycle), the result is reduced by `wrap64`; screen
  coordinates and image sizes stay far below `2^63`, and so does the cycle counter
  of `Run`, which grows by one per cycle. `uint8` and `uint32` values are
  `Nat`, reduced where the source converts (`uint8(v >> 8)`).
* `float64` is `F64`: an exact rational, the two infinities, or NaN. The
  comparisons follow IEEE 754 (every comparison with NaN is false); rounding
  and the sign of zero are not modelled.
* A Go `for` loop is `forLoop`, which takes a bound on the number of passes
  (`fuel`) and yields `none` when the bound is reached before the loop
  condition fails. A cycle of `Run` whose loops do not end within the fuel keeps
  the effects it has had so far and is marked as not finished.
* `image.Image` is its `Bounds()` together with its `At` as a total function;
  a colour is the triple that `RGBA()` returns (alpha is never read).
-/

namespace ColorSeeker

/-! ## Data model -/

/-- Go `image.Point`. -/
structure Point where
  X : Int
  Y : Int
  deriving DecidableEq, Repr

/-- Go `image.Rectangle`. -/
structure Rectangle where
  Min : Point
  Max : Point
  deriving DecidableEq, Repr

/-- Go `Rectangle.Dx`. -/
def Rectangle.Dx (r : Rectangle) : Int := r.Max.X - r.Min.X

/-- Go `Rectangle.Dy`. -/
def Rectangle.Dy (r : Rectangle) : Int := r.Max.Y - r.Min.Y

/-- The red, green and blue values returned by `color.Color.RGBA()`. -/
structure Color where
  r : Nat
  g : Nat
  b : Nat
  deriving DecidableEq, Repr

/-- Go `image.Image`: the bounds and the pixel function. -/
structure Image where
  Bounds : Rectangle
  At : Int → Int → Color

/-- The conversion `uint8(v >> 8)` of a channel value. -/
def chan8 (v : Nat) : Nat := (v >>> 8) % 256

/-- The Go `int` (64-bit two's complement) that the exact result `n` of an addition,
subtraction or multiplication of two Go `int`s wraps around to. -/
def wrap64 (n : Int) : Int := (n + 9223372036854775808) % 18446744073709551616 - 9223372036854775808

/-- Go `float64`, without rounding: NaN, the infinities, or an exact rational. -/
inductive F64 where
  | nan : F64
  | ninf : F64
  | fin : ℚ → F64
  | pinf : F64
  deriving DecidableEq

namespace F64

/-- The conversion `float64(n)` of an integer. -/
def ofInt (n : Int) : F64 := fin (n : ℚ)

/-- Negation. -/
def neg : F64 → F64
  | nan => nan
  | ninf => pinf
  | fin q => fin (-q)
  | pinf => ninf

/-- Addition `a + b`. -/
def add : F64 → F64 → F64
  | nan, _ => nan
  | _, nan => nan
  | pinf, ninf => nan
  | ninf, pinf => nan
  | pinf, _ => pinf
  | _, pinf => pinf
  | ninf, _ => ninf
  | _, ninf => ninf
  | fin a, fin b => fin (a + b)

/-- Subtraction `a - b`. -/
def sub (a b : F64) : F64 := add a (neg b)

/-- Division `a / b`; `0 / 0` is NaN, a non-zero value over zero is infinite, and an
infinity over a finite value keeps its sign unless the divisor is negative. -/
def div : F64 → F64 → F64
  | nan, _ => nan
  | _, nan => nan
  | fin a, fin b =>
      if b = 0 then (if a = 0 then nan else if 0 < a then pinf else ninf) else fin (a / b)
  | fin _, _ => fin 0
  | pinf, fin b => if 0 ≤ b then pinf else ninf
  | ninf, fin b => if 0 ≤ b then ninf else pinf
  | _, _ => nan

/-- The comparison `a < b`: false when either side is NaN. -/
def lt : F64 → F64 → Bool
  | nan, _ => false
  | _, nan => false
  | ninf, ninf => false
  | ninf, _ => true
  | _, ninf => false
  | pinf, _ => false
  | fin _, pinf => true
  | fin a, fin b => decide (a < b)

/-- The comparison `a > b`. -/
def gt (a b : F64) : Bool := lt b a

/-- The comparison `a <= b`: false when either side is NaN. -/
def le : F64 → F64 → Bool
  | nan, _ => false
  | _, nan => false
  | ninf, _ => true
  | _, pinf => true
  | pinf, _ => false
  | fin _, ninf => false
  | fin a, fin b => decide (a ≤ b)

/-- The comparison `a >= b`. -/
def ge (a b : F64) : Bool := le b a

end F64

/-! ## Loops -/

/-- The loop `for i := i0; cond(i); i += step { body }` over a state `σ`, run for at most
`fuel` tests of the condition. The body may fail to finish (an inner loop). -/
def forLoop {σ : Type} (cond : Int → Bool) (step : Int) (body : Int → σ → Option σ) :
    Nat → Int → σ → Option σ
  | 0, _, _ => none
  | fuel + 1, i, st =>
      if cond i then (body i st).bind (forLoop cond step body fuel (i + step)) else some st

/-! ## Helpers of `worker.go` -/

/-- Go `abs`. -/
def abs (x : Int) : Int := if x < 0 then -x else x

/-- Go `min`. -/
def min (a b : Int) : Int := if a < b then a else b

/-- Go `max`. -/
def max (a b : Int) : Int := if a > b then a else b

/-- Go `hexToRGB`: the three bytes of a 24-bit colour. -/
def hexToRGB (hex : Nat) : Nat × Nat × Nat :=
  (((hex >>> 16) &&& 0xFF) % 256, ((hex >>> 8) &&& 0xFF) % 256, (hex &&& 0xFF) % 256)

/-- Go `colorMatch`: every channel differs by at most `tolerance`. -/
def colorMatch (r1 g1 b1 r2 g2 b2 : Nat) (tolerance : Int) : Bool :=
  decide (abs ((r1 : Int) - (r2 : Int)) ≤ tolerance) &&
  decide (abs ((g1 : Int) - (g2 : Int)) ≤ tolerance) &&
  decide (abs ((b1 : Int) - (b2 : Int)) ≤ tolerance)

/-! ## Template matcher -/

/-- The body of the inner loop of `compareRegion`: the three channel differences of one
pixel are added to `totalDiff`. -/
def pixelStep (img template : Image) (startX startY ty tx : Int) (totalDiff : F64) : F64 :=
  let tmplBounds := template.Bounds
  let imgColor := img.At (startX + tx) (startY + ty)
  let tmplColor := template.At (tmplBounds.Min.X + tx) (tmplBounds.Min.Y + ty)
  let ir8 := chan8 imgColor.r
  let ig8 := chan8 imgColor.g
  let ib8 := chan8 imgColor.b
  let tr8 := chan8 tmplColor.r
  let tg8 := chan8 tmplColor.g
  let tb8 := chan8 tmplColor.b
  let totalDiff := F64.add totalDiff (F64.ofInt (abs ((ir8 : Int) - (tr8 : Int))))
  let totalDiff := F64.add totalDiff (F64.ofInt (abs ((ig8 : Int) - (tg8 : Int))))
  let totalDiff := F64.add totalDiff (F64.ofInt (abs ((ib8 : Int) - (tb8 : Int))))
  totalDiff

/-- Go `compareRegion`. -/
def compareRegion (fuel : Nat) (img template : Image) (startX startY : Int) : Option F64 :=
  let tmplBounds := template.Bounds
  let width := tmplBounds.Dx
  let height := tmplBounds.Dy
  let maxDiff : F64 := F64.ofInt (width * height * 255 * 3)
  (forLoop (fun ty => decide (ty < height)) 1
    (fun ty totalDiff =>
      forLoop (fun tx => decide (tx < width)) 1
        (fun tx totalDiff => some (pixelStep img template startX startY ty tx totalDiff))
        fuel 0 totalDiff)
    fuel 0 (F64.fin 0)).map
    fun totalDiff => F64.sub (F64.fin 1) (F64.div totalDiff maxDiff)

/-- The state of a best-position search: the two variables `bestLoc` and `bestScore` of
the source, and a record `evals` of the positions at which `compareRegion` has been
called, in call order (`evals` is not a variable of the source). -/
structure Search where
  bestLoc : Point
  bestScore : F64
  evals : List Point

/-- The body of the inner search loops: score the position `(x, y)` and keep it when it
is strictly better than the best so far. -/
def scoreStep (fuel : Nat) (img template : Image) (y x : Int) (st : Search) : Option Search :=
  (compareRegion fuel img template x y).map fun score =>
    if F64.gt score st.bestScore then
      { bestLoc := { X := x, Y := y }, bestScore := score, evals := st.evals ++ [{ X := x, Y := y }] }
    else
      { st with evals := st.evals ++ [{ X := x, Y := y }] }

/-- The coarse pass of Go `templateMatch` (the two loops with stride `searchScale`). -/
def coarsePass (fuel : Nat) (img template : Image) (searchScale : Int) : Option Search :=
  let imgBounds := img.Bounds
  let tmplBounds := template.Bounds
  forLoop (fun y => decide (y ≤ imgBounds.Max.Y - tmplBounds.Dy)) searchScale
    (fun y st =>
      forLoop (fun x => decide (x ≤ imgBounds.Max.X - tmplBounds.Dx)) searchScale
        (scoreStep fuel img template y) fuel imgBounds.Min.X st)
    fuel imgBounds.Min.Y { bestLoc := { X := 0, Y := 0 }, bestScore := F64.fin (-1), evals := [] }

/-- Go `refineSearch`; the window `center ± radius` is computed in Go `int`. -/
def refineSearch (fuel : Nat) (img template : Image) (center : Point) (radius : Int) :
    Option Search :=
  let imgBounds := img.Bounds
  let tmplBounds := template.Bounds
  let minY := max imgBounds.Min.Y (wrap64 (center.Y - radius))
  let maxY := min (imgBounds.Max.Y - tmplBounds.Dy) (wrap64 (center.Y + radius))
  let minX := max imgBounds.Min.X (wrap64 (center.X - radius))
  let maxX := min (imgBounds.Max.X - tmplBounds.Dx) (wrap64 (center.X + radius))
  forLoop (fun y => decide (y ≤ maxY)) 1
    (fun y st => forLoop (fun x => decide (x ≤ maxX)) 1 (scoreStep fuel img template y) fuel minX st)
    fuel minY { bestLoc := center, bestScore := F64.fin (-1), evals := [] }

/-- Go `templateMatch`: the coarse pass, then the refinement around its best position;
`evals` lists the `compareRegion` calls of both passes. -/
def templateMatch (fuel : Nat) (img template : Image) (searchScale refineRadius : Int) :
    Option Search :=
  (coarsePass fuel img template searchScale).bind fun coarse =>
    (refineSearch fuel img template coarse.bestLoc refineRadius).map fun refine =>
      if F64.gt refine.bestScore coarse.bestScore then
        { bestLoc := refine.bestLoc, bestScore := refine.bestScore,
          evals := coarse.evals ++ refine.evals }
      else
        { bestLoc := coarse.bestLoc, bestScore := coarse.bestScore,
          evals := coarse.evals ++ refine.evals }

/-! ## Configuration, status events and the outside world -/

/-- Go `Config`. -/
structure Config where
  ColorX1 : Int
  ColorY1 : Int
  ColorX2 : Int
  ColorY2 : Int
  TargetColor : Nat
  ShadeVariation : Int
  GoodImagePath : String
  BadImagePath : String
  LoopDelay : Int
  MatchThreshold : F64
  SearchScale : Int
  RefineRadius : Int

/-- Go `DefaultConfig`. -/
def DefaultConfig : Config :=
  { ColorX1 := 11, ColorY1 := 420, ColorX2 := 11, ColorY2 := 440,
    TargetColor := 0x77604B, ShadeVariation := 10,
    GoodImagePath := "Good.png", BadImagePath := "bad.png",
    LoopDelay := 1, MatchThreshold := F64.fin (80 / 100),
    SearchScale := 16, RefineRadius := 24 }

/-- Go `Status`, without the timestamp. -/
structure Status where
  Message : String
  Level : String
  deriving DecidableEq, Repr

/-- What a run does to the outside, in order. -/
inductive Effect where
  | status : Status → Effect
  | logPrintf : String → Effect
  | move : Int → Int → Effect
  | click : Effect
  | sleep : Int → Effect
  deriving DecidableEq

/-- One use of the display: the result of `screenshot.GetDisplayBounds(0)` and of
`screenshot.CaptureRect` (an image or the text of the error). -/
structure Screen where
  bounds : Rectangle
  capture : Except String Image

/-- The verb `%06X` of a `uint32`: upper-case hexadecimal, zero-padded to six digits. -/
def fmt06X (n : Nat) : String :=
  let ds := (Nat.toDigits 16 n).map Char.toUpper
  String.mk (List.replicate (6 - ds.length) '0' ++ ds)

/-- The nearest integer, halves to the even side. -/
def roundHalfEven (q : ℚ) : Int :=
  let f := Rat.floor q
  let d := q - (f : ℚ)
  if d < 1 / 2 then f else if 1 / 2 < d then f + 1 else if f % 2 = 0 then f else f + 1

/-- Multiplication `a * b` of two finite values or with NaN; an infinite factor gives an
infinity of the product sign, and NaN against zero. -/
def F64.mul : F64 → F64 → F64
  | F64.nan, _ => F64.nan
  | _, F64.nan => F64.nan
  | F64.fin a, F64.fin b => F64.fin (a * b)
  | F64.fin a, F64.pinf => if a = 0 then F64.nan else if 0 < a then F64.pinf else F64.ninf
  | F64.fin a, F64.ninf => if a = 0 then F64.nan else if 0 < a then F64.ninf else F64.pinf
  | F64.pinf, F64.fin b => if b = 0 then F64.nan else if 0 < b then F64.pinf else F64.ninf
  | F64.ninf, F64.fin b => if b = 0 then F64.nan else if 0 < b then F64.ninf else F64.pinf
  | F64.pinf, F64.pinf => F64.pinf
  | F64.ninf, F64.ninf => F64.pinf
  | F64.pinf, F64.ninf => F64.ninf
  | F64.ninf, F64.pinf => F64.ninf

/-- The verb `%.0f` of a `float64`. -/
def fmtF0 : F64 → String
  | F64.nan => "NaN"
  | F64.pinf => "+Inf"
  | F64.ninf => "-Inf"
  | F64.fin q => toString (roundHalfEven q)

/-! ## Colour sampler -/

/-- The loop of Go `findColorInArea` over the rows `y`, with its early return; `y++`
is an increment of a Go `int`. -/
def findColorLoop (config : Config) (bounds : Rectangle) (img : Image) (targetR targetG targetB : Nat) :
    Nat → Int → Option (Bool × Int)
  | 0, _ => none
  | fuel + 1, y =>
      if y ≤ config.ColorY2 then
        let x := config.ColorX1
        if x < bounds.Min.X ∨ x ≥ bounds.Max.X ∨ y < bounds.Min.Y ∨ y ≥ bounds.Max.Y then
          findColorLoop config bounds img targetR targetG targetB fuel (wrap64 (y + 1))
        else
          let pixelColor := img.At x y
          let r8 := chan8 pixelColor.r
          let g8 := chan8 pixelColor.g
          let b8 := chan8 pixelColor.b
          if colorMatch r8 g8 b8 targetR targetG targetB config.ShadeVariation then
            some (true, y)
          else
            findColorLoop config bounds img targetR targetG targetB fuel (wrap64 (y + 1))
      else
        some (false, 0)

/-- Go `findColorInArea`: the status events sent, and the pair returned. -/
def findColorInArea (fuel : Nat) (config : Config) (scr : Screen) :
    Option (List Effect × (Bool × Int)) :=
  let bounds := scr.bounds
  match scr.capture with
  | Except.error err =>
      some ([Effect.status { Message := "Ошибка захвата экрана: " ++ err, Level := "error" }],
        (false, 0))
  | Except.ok img =>
      let (targetR, targetG, targetB) := hexToRGB config.TargetColor
      (findColorLoop config bounds img targetR targetG targetB fuel config.ColorY1).map
        fun res => ([], res)

/-! ## Image lookup and click -/

/-- Go `findAndClickImage`; `load` stands for `loadImage` on the files present. The
division of the centre is Go's, which truncates towards zero. -/
def findAndClickImage (fuel : Nat) (imagePath : String) (config : Config) (scr : Screen)
    (load : String → Except String Image) : Option (List Effect × Bool) :=
  match scr.capture with
  | Except.error err => some ([Effect.logPrintf ("Ошибка захвата экрана: " ++ err ++ "\n")], false)
  | Except.ok screen =>
      match load imagePath with
      | Except.error err =>
          some ([Effect.logPrintf
            ("Ошибка загрузки изображения " ++ imagePath ++ ": " ++ err ++ "\n")], false)
      | Except.ok template =>
          (templateMatch fuel screen template config.SearchScale config.RefineRadius).map
            fun res =>
              let loc := res.bestLoc
              let confidence := res.bestScore
              if F64.ge confidence config.MatchThreshold then
                let centerX := loc.X + Int.tdiv template.Bounds.Dx 2
                let centerY := loc.Y + Int.tdiv template.Bounds.Dy 2
                ([Effect.move centerX centerY, Effect.sleep (50 * 1000000), Effect.click,
                  Effect.status
                    { Message := "  Клик: X=" ++ toString centerX ++ ", Y=" ++ toString centerY ++
                        " (точность: " ++ fmtF0 (F64.mul confidence (F64.fin 100)) ++ "%)",
                      Level := "info" }], true)
              else
                ([], false)

/-! ## Polling loop -/

/-- What one cycle meets outside: the display at the colour sampling, the display at the
image lookup, and the image files. -/
structure CycleEnv where
  sampleScreen : Screen
  matchScreen : Screen
  load : String → Except String Image

/-- What a cycle of `Run` has done when it is observed: its effects so far, in order, and
whether it has reached its end. It has not when a loop of the sampler or of the matcher
has not ended within the fuel; nothing is sent while those loops run. -/
structure Cycle where
  effects : List Effect
  finished : Bool
  deriving DecidableEq

/-- The `default` branch of the `select` of Go `Run`, from the increment of `iteration`
to the `time.Sleep` that ends it. The delay is the `time.Duration` product
`LoopDelay * time.Second`, a 64-bit count of nanoseconds. -/
def runCycle (fuel : Nat) (config : Config) (env : CycleEnv) (iteration : Int) : Cycle :=
  let announce := [Effect.status
    { Message := "=== Итерация #" ++ toString iteration ++ " ===", Level := "info" }]
  let sleep := [Effect.sleep (wrap64 (config.LoopDelay * 1000000000))]
  match findColorInArea fuel config env.sampleScreen with
  | none => { effects := announce, finished := false }
  | some (sampleEffects, (foundColor, foundY)) =>
    if foundColor then
      let sent := announce ++ sampleEffects ++
        [Effect.status
          { Message := "✓ Цвет #" ++ fmt06X config.TargetColor ++ " найден на Y=" ++
              toString foundY, Level := "success" },
         Effect.status
          { Message := "→ Ищу изображение: " ++ config.GoodImagePath, Level := "info" }]
      match findAndClickImage fuel config.GoodImagePath config env.matchScreen env.load with
      | none => { effects := sent, finished := false }
      | some (clickEffects, clicked) =>
        { effects := sent ++ clickEffects ++
            (if clicked then
              [Effect.status
                { Message := "✓ Изображение " ++ config.GoodImagePath ++ " найдено и кликнуто",
                  Level := "success" }]
            else
              [Effect.status
                { Message := "✗ Изображение " ++ config.GoodImagePath ++ " не найдено",
                  Level := "error" }]) ++ sleep,
          finished := true }
    else
      let sent := announce ++ sampleEffects ++
        [Effect.status
          { Message := "✗ Цвет #" ++ fmt06X config.TargetColor ++ " не найден",
            Level := "warning" },
         Effect.status
          { Message := "→ Ищу изображение: " ++ config.BadImagePath, Level := "info" }]
      match findAndClickImage fuel config.BadImagePath config env.matchScreen env.load with
      | none => { effects := sent, finished := false }
      | some (clickEffects, clicked) =>
        { effects := sent ++ clickEffects ++
            (if clicked then
              [Effect.status
                { Message := "✓ Изображение " ++ config.BadImagePath ++ " найдено и кликнуто",
                  Level := "success" }]
            else
              [Effect.status
                { Message := "✗ Изображение " ++ config.BadImagePath ++ " не найдено",
                  Level := "error" }]) ++ sleep,
          finished := true }

/-- The outside of a whole run: whether `ctx.Done()` is ready at the `k`-th `select`
(counted from 0), and what the cycle started there meets. -/
structure World where
  done : Nat → Bool
  env : Nat → CycleEnv

/-- The state of Go `Run` when it is observed: the number of `select`s made, the counter
`iteration`, the effects so far, whether `Run` has returned, and whether it is inside a
cycle that has not finished (`stuck`). -/
structure RunState where
  pass : Nat
  iteration : Int
  effects : List Effect
  returned : Bool
  stuck : Bool
  deriving DecidableEq

/-- One pass of the `for` loop of Go `Run`: the `select` and the branch taken. A run that
has returned, or that is inside a cycle that does not finish, makes no further pass. -/
def runPass (fuel : Nat) (config : Config) (w : World) (st : RunState) : RunState :=
  if st.returned || st.stuck then st
  else if w.done st.pass then
    { st with
      pass := st.pass + 1
      effects := st.effects ++
        [Effect.status { Message := "Автоматизация остановлена", Level := "info" }]
      returned := true }
  else
    let iteration := st.iteration + 1
    let cycle := runCycle fuel config (w.env st.pass) iteration
    { pass := st.pass + 1, iteration := iteration, effects := st.effects ++ cycle.effects,
      returned := false, stuck := !cycle.finished }

/-- Go `Run`, observed for `passes` passes of its `for` loop. -/
def Run (fuel : Nat) (config : Config) (w : World) : Nat → RunState
  | 0 => { pass := 0, iteration := 0, effects := [], returned := false, stuck := false }
  | passes + 1 => runPass fuel config w (Run fuel config w passes)

/-! ## Definitions used to state the properties -/

/-- The sum of the absolute channel differences of one pixel pair, as an integer. -/
def pixelDiff (img template : Image) (startX startY ty tx : Int) : Int :=
  let imgColor := img.At (startX + tx) (startY + ty)
  let tmplColor := template.At (template.Bounds.Min.X + tx) (template.Bounds.Min.Y + ty)
  |(chan8 imgColor.r : Int) - (chan8 tmplColor.r : Int)| +
  |(chan8 imgColor.g : Int) - (chan8 tmplColor.g : Int)| +
  |(chan8 imgColor.b : Int) - (chan8 tmplColor.b : Int)|

/-- The sum `S` of the similarity score: the channel differences over every pixel of the
template placed at `(startX, startY)`. -/
def diffSum (img template : Image) (startX startY : Int) : Int :=
  ∑ ty in Finset.range template.Bounds.Dy.toNat,
    ∑ tx in Finset.range template.Bounds.Dx.toNat,
      pixelDiff img template startX startY (ty : Int) (tx : Int)

/-- The value that `compareRegion` computes from `S` and the template size. -/
def regionScore (img template : Image) (startX startY : Int) : F64 :=
  F64.sub (F64.fin 1)
    (F64.div (F64.fin (diffSum img template startX startY))
      (F64.ofInt (template.Bounds.Dx * template.Bounds.Dy * 255 * 3)))

/-- The score at a point. -/
def scoreAt (img template : Image) (p : Point) : F64 := regionScore img template p.X p.Y

/-- The frame region at `p` and the template agree in the three 8-bit channels of every
pixel. -/
def RegionIdentical (img template : Image) (p : Point) : Prop :=
  ∀ ty tx : Nat, (ty : Int) < template.Bounds.Dy → (tx : Int) < template.Bounds.Dx →
    chan8 (img.At (p.X + tx) (p.Y + ty)).r =
      chan8 (template.At (template.Bounds.Min.X + tx) (template.Bounds.Min.Y + ty)).r ∧
    chan8 (img.At (p.X + tx) (p.Y + ty)).g =
      chan8 (template.At (template.Bounds.Min.X + tx) (template.Bounds.Min.Y + ty)).g ∧
    chan8 (img.At (p.X + tx) (p.Y + ty)).b =
      chan8 (template.At (template.Bounds.Min.X + tx) (template.Bounds.Min.Y + ty)).b

/-- The template placed at `p` lies entirely inside the bounds of the frame. -/
def Fits (img template : Image) (p : Point) : Prop :=
  img.Bounds.Min.X ≤ p.X ∧ p.X + template.Bounds.Dx ≤ img.Bounds.Max.X ∧
  img.Bounds.Min.Y ≤ p.Y ∧ p.Y + template.Bounds.Dy ≤ img.Bounds.Max.Y

instance (img template : Image) (p : Point) : Decidable (Fits img template p) := by
  unfold Fits
  infer_instance

/-- Strict row-major order of positions: smaller `Y` first, then smaller `X`. -/
def RowMajorLT (p q : Point) : Prop := p.Y < q.Y ∨ (p.Y = q.Y ∧ p.X < q.X)

/-- Row-major order of positions. -/
def RowMajorLE (p q : Point) : Prop := p.Y < q.Y ∨ (p.Y = q.Y ∧ p.X ≤ q.X)

instance (p q : Point) : Decidable (RowMajorLT p q) := by
  unfold RowMajorLT
  infer_instance

instance (p q : Point) : Decidable (RowMajorLE p q) := by
  unfold RowMajorLE
  infer_instance

/-- A loop body run over a list of counter values. -/
def runList {σ : Type} (body : Int → σ → Option σ) : List Int → σ → Option σ
  | [], st => some st
  | i :: is, st => (body i st).bind (runList body is)

/-- The counter values `i, i + step, ...` up to `hi`, at most `n` of them. -/
def strideAux (hi step : Int) : Nat → Int → List Int
  | 0, _ => []
  | n + 1, i => if i ≤ hi then i :: strideAux hi step n (i + step) else []

/-- The counter values of the loop `for i := lo; i <= hi; i += step`, for `step >= 1`. -/
def stride (lo hi step : Int) : List Int := strideAux hi step (hi - lo + 1).toNat lo

/-- The step of a best-position search for a given score function. -/
def pick (score : Point → F64) (st : Search) (p : Point) : Search :=
  if F64.gt (score p) st.bestScore then
    { bestLoc := p, bestScore := score p, evals := st.evals ++ [p] }
  else
    { st with evals := st.evals ++ [p] }

/-- The positions of the rows `ys` and the columns `xs` in row-major order. -/
def grid (ys xs : List Int) : List Point :=
  ys.flatMap fun y => xs.map fun x => { X := x, Y := y }

/-- A number of loop passes that no loop of `templateMatch` with a stride of at least one
exceeds on the given frame and template. -/
def fuelBound (img template : Image) : Nat :=
  (img.Bounds.Max.Y - template.Bounds.Dy - img.Bounds.Min.Y + 1).toNat +
  (img.Bounds.Max.X - template.Bounds.Dx - img.Bounds.Min.X + 1).toNat +
  template.Bounds.Dx.toNat + template.Bounds.Dy.toNat

/-- The number of error-level status events among the effects. -/
def errorEvents (effects : List Effect) : Nat :=
  (effects.filter fun e =>
    match e with
    | Effect.status s => s.Level == "error"
    | _ => false).length

/-- The positions of the coarse pass in the order of its loops. -/
def coarseGrid (img template : Image) (searchScale : Int) : List Point :=
  grid (stride img.Bounds.Min.Y (img.Bounds.Max.Y - template.Bounds.Dy) searchScale)
    (stride img.Bounds.Min.X (img.Bounds.Max.X - template.Bounds.Dx) searchScale)

/-- The positions of the refinement pass in the order of its loops. -/
def refineGrid (img template : Image) (center : Point) (radius : Int) : List Point :=
  grid
    (stride (max img.Bounds.Min.Y (wrap64 (center.Y - radius)))
      (min (img.Bounds.Max.Y - template.Bounds.Dy) (wrap64 (center.Y + radius))) 1)
    (stride (max img.Bounds.Min.X (wrap64 (center.X - radius)))
      (min (img.Bounds.Max.X - template.Bounds.Dx) (wrap64 (center.X + radius))) 1)

/-- The score of a non-empty template at a point, as a rational. -/
def scoreQ (img template : Image) (p : Point) : ℚ :=
  1 - (diffSum img template p.X p.Y : ℚ) /
    ((template.Bounds.Dx * template.Bounds.Dy * 255 * 3 : Int) : ℚ)

/-- The integer `n` is a value of a Go `int`. -/
def InInt64 (n : Int) : Prop := -9223372036854775808 ≤ n ∧ n < 9223372036854775808

instance (n : Int) : Decidable (InInt64 n) := by
  unfold InInt64
  infer_instance

/-- The row `y` of the sampled column is a match: it lies in the configured range, the
pixel `(ColorX1, y)` lies inside the display bounds, and its colour matches the target
under `colorMatch`. -/
def ColumnMatch (config : Config) (bounds : Rectangle) (img : Image) (y : Int) : Prop :=
  config.ColorY1 ≤ y ∧ y ≤ config.ColorY2 ∧
  bounds.Min.X ≤ config.ColorX1 ∧ config.ColorX1 < bounds.Max.X ∧
  bounds.Min.Y ≤ y ∧ y < bounds.Max.Y ∧
  colorMatch (chan8 (img.At config.ColorX1 y).r) (chan8 (img.At config.ColorX1 y).g)
    (chan8 (img.At config.ColorX1 y).b) (hexToRGB config.TargetColor).1
    (hexToRGB config.TargetColor).2.1 (hexToRGB config.TargetColor).2.2
    config.ShadeVariation = true

/-! ## Sample inputs -/

/-- A 4x4 frame; the high byte of the red channel of pixel `(x, y)` is `x + 4 * y`. -/
def sampleFrame : Image :=
  { Bounds := { Min := { X := 0, Y := 0 }, Max := { X := 4, Y := 4 } },
    At := fun x y => { r := (x.toNat + 4 * y.toNat) * 256, g := 0, b := 0 } }

/-- A 2x2 template equal to the region of `sampleFrame` at `(1, 1)`. -/
def sampleTemplate : Image :=
  { Bounds := { Min := { X := 0, Y := 0 }, Max := { X := 2, Y := 2 } },
    At := fun x y => { r := (x.toNat + 4 * y.toNat + 5) * 256, g := 0, b := 0 } }

/-- A template without pixels. -/
def emptyTemplate : Image :=
  { Bounds := { Min := { X := 0, Y := 0 }, Max := { X := 0, Y := 0 } },
    At := fun _ _ => { r := 0, g := 0, b := 0 } }

/-- A frame one pixel wide and 20 high whose rows 5, 9 and 12 carry the default target
colour `0x77604B`; every other pixel is black. -/
def columnFrame : Image :=
  { Bounds := { Min := { X := 0, Y := 0 }, Max := { X := 1, Y := 20 } },
    At := fun _ y =>
      if y = 5 ∨ y = 9 ∨ y = 12 then { r := 0x7777, g := 0x6060, b := 0x4B4B }
      else { r := 0, g := 0, b := 0 } }

/-- The display showing `columnFrame`. -/
def columnScreen : Screen :=
  { bounds := { Min := { X := 0, Y := 0 }, Max := { X := 1, Y := 20 } },
    capture := Except.ok columnFrame }

/-- The default configuration, sampling column 0 over the rows 0 to 15. -/
def columnConfig : Config :=
  { DefaultConfig with ColorX1 := 0, ColorY1 := 0, ColorX2 := 0, ColorY2 := 15 }

/-- A black frame of 41 by 61 pixels. -/
def blackFrame : Image :=
  { Bounds := { Min := { X := 0, Y := 0 }, Max := { X := 41, Y := 61 } },
    At := fun _ _ => { r := 0, g := 0, b := 0 } }

/-- A frame of 41 by 61 pixels, black except for the white pixel `(40, 60)`. -/
def dotFrame : Image :=
  { Bounds := { Min := { X := 0, Y := 0 }, Max := { X := 41, Y := 61 } },
    At := fun x y =>
      if x = 40 ∧ y = 60 then { r := 0xFFFF, g := 0xFFFF, b := 0xFFFF }
      else { r := 0, g := 0, b := 0 } }

/-- A template of one white pixel. -/
def whiteDot : Image :=
  { Bounds := { Min := { X := 0, Y := 0 }, Max := { X := 1, Y := 1 } },
    At := fun _ _ => { r := 0xFFFF, g := 0xFFFF, b := 0xFFFF } }

/-- A template of one black pixel. -/
def blackDot : Image :=
  { Bounds := { Min := { X := 0, Y := 0 }, Max := { X := 1, Y := 1 } },
    At := fun _ _ => { r := 0, g := 0, b := 0 } }

/-- A frame of one pixel. -/
def tinyFrame : Image :=
  { Bounds := { Min := { X := 0, Y := 0 }, Max := { X := 1, Y := 1 } },
    At := fun _ _ => { r := 0, g := 0, b := 0 } }

/-- A template 5 wide and 2 high: wider than `sampleFrame`, not taller. -/
def wideTemplate : Image :=
  { Bounds := { Min := { X := 0, Y := 0 }, Max := { X := 5, Y := 2 } },
    At := fun _ _ => { r := 0, g := 0, b := 0 } }

/-- A display whose capture fails. -/
def failedScreen : Screen :=
  { bounds := { Min := { X := 0, Y := 0 }, Max := { X := 4, Y := 4 } },
    capture := Except.error "no display" }

/-- A cycle in which both captures fail and no image file can be read. -/
def failedEnv : CycleEnv :=
  { sampleScreen := failedScreen, matchScreen := failedScreen,
    load := fun _ => Except.error "no file" }

/-- A cycle in which the capture of the colour sampling fails and the capture of the image
lookup, made right after it, succeeds on the one-pixel black display; every image file
holds the one-pixel black template. -/
def flickerEnv : CycleEnv :=
  { sampleScreen := failedScreen,
    matchScreen := { bounds := tinyFrame.Bounds, capture := Except.ok tinyFrame },
    load := fun _ => Except.ok blackDot }

/-- A run that is never cancelled and in which every cycle meets `failedEnv`. -/
def failedWorld : World := { done := fun _ => false, env := fun _ => failedEnv }

/-- The state of `Run` on entry. -/
def RunState.start : RunState :=
  { pass := 0, iteration := 0, effects := [], returned := false, stuck := false }

/-- The result of the coarse pass as a fold over its positions. -/
def coarseResult (img template : Image) (searchScale : Int) : Search :=
  (coarseGrid img template searchScale).foldl (pick (scoreAt img template))
    { bestLoc := { X := 0, Y := 0 }, bestScore := F64.fin (-1), evals := [] }

/-- The result of the refinement pass as a fold over its positions. -/
def refineResult (img template : Image) (center : Point) (radius : Int) : Search :=
  (refineGrid img template center radius).foldl (pick (scoreAt img template))
    { bestLoc := center, bestScore := F64.fin (-1), evals := [] }

/-- The result of `templateMatch` from the results of its two passes. -/
def matchResult (img template : Image) (searchScale refineRadius : Int) : Search :=
  if F64.gt (refineResult img template (coarseResult img template searchScale).bestLoc
      refineRadius).bestScore (coarseResult img template searchScale).bestScore then
    { bestLoc := (refineResult img template (coarseResult img template searchScale).bestLoc
        refineRadius).bestLoc,
      bestScore := (refineResult img template (coarseResult img template searchScale).bestLoc
        refineRadius).bestScore,
      evals := (coarseResult img template searchScale).evals ++
        (refineResult img template (coarseResult img template searchScale).bestLoc
          refineRadius).evals }
  else
    { bestLoc := (coarseResult img template searchScale).bestLoc,
      bestScore := (coarseResult img template searchScale).bestScore,
      evals := (coarseResult img template searchScale).evals ++
        (refineResult img template (coarseResult img template searchScale).bestLoc
          refineRadius).evals }

/-- Enough fuel for one cycle: more than the number of sampled rows, and more than
`fuelBound` for every frame and template that the image lookup of the cycle can meet. -/
def EnoughFuel (fuel : Nat) (config : Config) (env : CycleEnv) : Prop :=
  (config.ColorY2 - config.ColorY1 + 1).toNat < fuel ∧
  ∀ (path : String) (screen template : Image), env.matchScreen.capture = Except.ok screen →
    env.load path = Except.ok template → fuelBound screen template < fuel

/-- The display showing the one-pixel black frame. -/
def tinyScreen : Screen := { bounds := tinyFrame.Bounds, capture := Except.ok tinyFrame }

/-- The default configuration with the one-row range at the last row of a Go `int`. -/
def maxRowConfig : Config :=
  { DefaultConfig with ColorY1 := 9223372036854775807, ColorY2 := 9223372036854775807 }

/-- A cycle on the one-pixel black display in which every image file holds the one-pixel
black template. -/
def clickEnv : CycleEnv :=
  { sampleScreen := tinyScreen, matchScreen := tinyScreen, load := fun _ => Except.ok blackDot }

/-- A frame of 1920 by 1080 pixels, black except for the pixel `(11, 430)`, whose 8-bit
colour is `(0x78, 0x61, 0x4C)`. -/
def scenarioFrame : Image :=
  { Bounds := { Min := { X := 0, Y := 0 }, Max := { X := 1920, Y := 1080 } },
    At := fun x y =>
      if x = 11 ∧ y = 430 then { r := 0x7878, g := 0x6161, b := 0x4C4C }
      else { r := 0, g := 0, b := 0 } }

/-- A cycle on the display showing `scenarioFrame`, with no image file to read. -/
def scenarioEnv : CycleEnv :=
  { sampleScreen := { bounds := scenarioFrame.Bounds, capture := Except.ok scenarioFrame },
    matchScreen := { bounds := scenarioFrame.Bounds, capture := Except.ok scenarioFrame },
    load := fun _ => Except.error "no file" }

/-- A run whose context is cancelled during its first cycle: not done at the first
`select`, done from the second on; every capture fails. -/
def cancelWorld : World := { done := fun k => decide (1 ≤ k), env := fun _ => failedEnv }

/-- The cycle of `scenarioEnv` in which the file "Good.png" holds the one-pixel black
template and no other file can be read. -/
def goodEnv : CycleEnv :=
  { sampleScreen := scenarioEnv.sampleScreen,
    matchScreen := scenarioEnv.matchScreen,
    load := fun path => if path = "Good.png" then Except.ok blackDot else Except.error "no file" }

/-- A run that is never cancelled and in which every cycle meets `goodEnv`. -/
def goodWorld : World := { done := fun _ => false, env := fun _ => goodEnv }

/-- The scenario run, cancelled during the delay of its first cycle: not done at the
first `select`, done from the second on. -/
def stopWorld : World := { done := fun k => decide (1 ≤ k), env := fun _ => goodEnv }

/-! ## Controller: `gui/app.go` -/

/-- What the settings editors yield when START is handled: the results of `strconv.Atoi`,
`strconv.ParseUint` and `strconv.ParseFloat` on their texts (`none` for a parse error),
and the error of `config.Save`, if any. -/
structure Editors where
  colorX1 : Option Int
  colorX2 : Option Int
  colorY1 : Option Int
  colorY2 : Option Int
  targetColor : Option Nat
  loopDelay : Option Int
  matchThreshold : Option F64
  saveError : Option String

/-- A goroutine started by `go automation.Run(ctx, a.config, a.statusChan)`: the
configuration it was given, and whether its context has been cancelled. -/
structure Launched where
  config : Config
  cancelled : Bool

/-- What the controller does to the outside: a send on `statusChan`, a call of
`config.Save`, a line of the log. -/
inductive AppEvent where
  | status : Status → AppEvent
  | save : Config → AppEvent
  | logLine : String → AppEvent

/-- The fields of Go `App` that the START and STOP handlers read or write. A context is
named by the position of its goroutine in `runs`; `none` is the `nil` cancel function. -/
structure App where
  config : Config
  running : Bool
  cancelFn : Option Nat
  statusCtx : Option Nat
  runs : List Launched
  events : List AppEvent

/-- Go `NewApp`, on the result of `automation.LoadConfig`. -/
def NewApp (loaded : Except String Config) : App :=
  match loaded with
  | Except.ok config =>
      { config := config, running := false, cancelFn := none, statusCtx := none, runs := [],
        events := [] }
  | Except.error err =>
      { config := DefaultConfig, running := false, cancelFn := none, statusCtx := none,
        runs := [],
        events := [AppEvent.logLine
          ("Не удалось загрузить конфиг, использую значения по умолчанию: " ++ err)] }

/-- Go `App.applySettings`. -/
def App.applySettings (a : App) (ed : Editors) : App :=
  let c := a.config
  let c := match ed.colorX1 with
    | some colorX1 => { c with ColorX1 := colorX1 }
    | none => c
  let c := match ed.colorX2 with
    | some colorX2 => { c with ColorX2 := colorX2 }
    | none => c
  let c := match ed.colorY1 with
    | some colorY1 => { c with ColorY1 := colorY1 }
    | none => c
  let c := match ed.colorY2 with
    | some colorY2 => { c with ColorY2 := colorY2 }
    | none => c
  let c := match ed.targetColor with
    | some color => { c with TargetColor := color % 2 ^ 32 }
    | none => c
  let c := match ed.loopDelay with
    | some loopDelay => if 0 < loopDelay then { c with LoopDelay := loopDelay } else c
    | none => c
  let c := match ed.matchThreshold with
    | some threshold =>
        let c1 := { c with MatchThreshold := F64.div threshold (F64.fin 100) }
        let c2 := if F64.gt c1.MatchThreshold (F64.fin 1) then
          { c1 with MatchThreshold := F64.fin 1 } else c1
        if F64.lt c2.MatchThreshold (F64.fin 0) then
          { c2 with MatchThreshold := F64.fin 0 } else c2
    | none => c
  { a with
    config := c
    events := a.events ++ [AppEvent.save c] ++
      match ed.saveError with
      | some err => [AppEvent.logLine ("Ошибка сохранения конфигурации: " ++ err)]
      | none => [] }

/-- Go `App.startAutomation`. -/
def App.startAutomation (a : App) : App :=
  let ctx := a.runs.length
  { a with
    running := true
    statusCtx := some ctx
    cancelFn := some ctx
    runs := a.runs ++ [{ config := a.config, cancelled := false }]
    events := a.events ++
      [AppEvent.status { Message := "=== ЗАПУСК АВТОМАТИЗАЦИИ ===", Level := "info" },
       AppEvent.status
        { Message := "Область поиска: X=" ++ toString a.config.ColorX1 ++ "-" ++
            toString a.config.ColorX2 ++ ", Y=" ++ toString a.config.ColorY1 ++ "-" ++
            toString a.config.ColorY2, Level := "info" },
       AppEvent.status
        { Message := "Целевой цвет: #" ++ fmt06X a.config.TargetColor ++ " (допуск: ±" ++
            toString a.config.ShadeVariation ++ ")", Level := "info" },
       AppEvent.status
        { Message := "Изображения: Good=" ++ a.config.GoodImagePath ++ ", Bad=" ++
            a.config.BadImagePath, Level := "info" },
       AppEvent.status
        { Message := "Интервал проверки: " ++ toString a.config.LoopDelay ++
            " сек, Порог совпад.: " ++
            fmtF0 (F64.mul a.config.MatchThreshold (F64.fin 100)) ++ "%", Level := "info" },
       AppEvent.logLine "Автоматизация запущена"] }

/-- The call of the cancel function of the context of the goroutine at position `ctx`. -/
def cancel : Nat → List Launched → List Launched
  | _, [] => []
  | 0, r :: rs => { r with cancelled := true } :: rs
  | ctx + 1, r :: rs => r :: cancel ctx rs

/-- Go `App.stopAutomation`. -/
def App.stopAutomation (a : App) : App :=
  { a with
    runs := match a.cancelFn with
      | some ctx => cancel ctx a.runs
      | none => a.runs
    cancelFn := none
    running := false
    events := a.events ++
      [AppEvent.status { Message := "=== ОСТАНОВКА АВТОМАТИЗАЦИИ ===", Level := "info" },
       AppEvent.logLine "Автоматизация остановлена"] }

/-- The click handlers of Go `App.controls` in one frame: first the START button, then
the STOP button. -/
def App.controls (a : App) (startClicked stopClicked : Bool) (ed : Editors) : App :=
  let a := if startClicked && !a.running then (a.applySettings ed).startAutomation else a
  if stopClicked && a.running then a.stopAutomation else a

/-- One frame of the window: which buttons report a click, and what the editors yield. -/
structure Frame where
  startClicked : Bool
  stopClicked : Bool
  editors : Editors

/-- The controller after a sequence of frames. -/
def App.frames (a : App) (fs : List Frame) : App :=
  fs.foldl (fun a f => a.controls f.startClicked f.stopClicked f.editors) a

/-- The number of goroutines of `Run` whose context has not been cancelled. -/
def activeRuns (a : App) : Nat :=
  (a.runs.filter fun r => !r.cancelled).length

/-- Whether an event is the start announcement sent on `statusChan`. -/
def isStartAnnouncement : AppEvent → Bool
  | AppEvent.status s => decide (s.Message = "=== ЗАПУСК АВТОМАТИЗАЦИИ ===")
  | _ => false

/-- The number of start announcements among the events. -/
def startAnnouncements (events : List AppEvent) : Nat :=
  events.countP isStartAnnouncement

/-- Editors whose texts all fail to parse, with a successful save. -/
def noEdits : Editors :=
  { colorX1 := none, colorX2 := none, colorY1 := none, colorY2 := none, targetColor := none,
    loopDelay := none, matchThreshold := none, saveError := none }

/-- Editors holding a new column, target colour, delay and threshold. -/
def someEdits : Editors :=
  { colorX1 := some 12, colorX2 := some 12, colorY1 := none, colorY2 := none,
    targetColor := some 0x102030, loopDelay := some 2, matchThreshold := some (F64.fin 90),
    saveError := some "read-only file system" }

/-- The running flag and the cancel function agree with the goroutines: the number of
goroutines with a live context is 1 when running and 0 when idle, and when running the
cancel function is that of a live context. -/
def App.Tracked (a : App) : Prop :=
  activeRuns a = (if a.running then 1 else 0) ∧
  (a.running = true →
    ∃ (ctx : Nat) (r : Launched), a.cancelFn = some ctx ∧ a.runs[ctx]? = some r ∧
      r.cancelled = false)

/-! # Properties -/

/-! ## Go `int` -/

theorem wrap64_eq (n : Int) (h : InInt64 n) : wrap64 n = n := by
  unfold InInt64 at h
  unfold wrap64
  omega

theorem wrap64_inInt64 (n : Int) : InInt64 (wrap64 n) := by
  unfold InInt64 wrap64
  omega

/-! ## Loops -/

theorem forLoop_le_eq_runList {σ : Type} (hi step : Int) (body : Int → σ → Option σ)
    (hstep : 1 ≤ step) :
    ∀ (n fuel : Nat) (i : Int) (st : σ), (hi - i + 1).toNat ≤ n → n < fuel →
      forLoop (fun y => decide (y ≤ hi)) step body fuel i st =
        runList body (strideAux hi step n i) st := by
  intro n
  induction n with
  | zero =>
    intro fuel i st h1 h2
    obtain ⟨f, rfl⟩ : ∃ f, fuel = f + 1 := ⟨fuel - 1, by omega⟩
    have hi' : ¬ i ≤ hi := by omega
    simp [forLoop, strideAux, runList, hi']
  | succ n ih =>
    intro fuel i st h1 h2
    obtain ⟨f, rfl⟩ : ∃ f, fuel = f + 1 := ⟨fuel - 1, by omega⟩
    by_cases hc : i ≤ hi
    · simp only [forLoop, strideAux, runList, hc, decide_True, if_true]
      congr 1
      funext st'
      exact ih f (i + step) st' (by omega) (by omega)
    · simp [forLoop, strideAux, runList, hc]

theorem forLoop_lt_eq_le {σ : Type} (w step : Int) (body : Int → σ → Option σ) :
    forLoop (fun t => decide (t < w)) step body =
      forLoop (fun t => decide (t ≤ w - 1)) step body := by
  have : (fun t : Int => decide (t < w)) = (fun t : Int => decide (t ≤ w - 1)) := by
    funext t
    exact decide_eq_decide.mpr (by omega)
  rw [this]

theorem mem_strideAux (hi step : Int) (hstep : 1 ≤ step) :
    ∀ (n : Nat) (i x : Int), (hi - i + 1).toNat ≤ n →
      (x ∈ strideAux hi step n i ↔ ∃ k : Nat, x = i + k * step ∧ x ≤ hi) := by
  intro n
  induction n with
  | zero =>
    intro i x h
    simp only [strideAux, List.not_mem_nil, false_iff]
    rintro ⟨k, rfl, hk⟩
    have : 0 ≤ (k : Int) * step := by positivity
    omega
  | succ n ih =>
    intro i x h
    by_cases hc : i ≤ hi
    · simp only [strideAux, hc, if_true, List.mem_cons]
      rw [ih (i + step) x (by omega)]
      constructor
      · rintro (rfl | ⟨k, rfl, hk⟩)
        · exact ⟨0, by simp, hc⟩
        · exact ⟨k + 1, by push_cast; ring, hk⟩
      · rintro ⟨k, rfl, hk⟩
        cases k with
        | zero => left; simp
        | succ k => right; exact ⟨k, by push_cast; ring, hk⟩
    · simp only [strideAux, hc, if_false, List.not_mem_nil, false_iff]
      rintro ⟨k, rfl, hk⟩
      have : 0 ≤ (k : Int) * step := by positivity
      omega

theorem strideAux_lower (hi step : Int) (hstep : 1 ≤ step) :
    ∀ (n : Nat) (i x : Int), x ∈ strideAux hi step n i → i ≤ x := by
  intro n
  induction n with
  | zero => intro i x h; simp [strideAux] at h
  | succ n ih =>
    intro i x h
    by_cases hc : i ≤ hi
    · simp only [strideAux, hc, if_true, List.mem_cons] at h
      rcases h with rfl | h
      · exact le_refl _
      · have := ih (i + step) x h
        omega
    · simp [strideAux, hc] at h

theorem strideAux_sorted (hi step : Int) (hstep : 1 ≤ step) :
    ∀ (n : Nat) (i : Int), (strideAux hi step n i).Pairwise (· < ·) := by
  intro n
  induction n with
  | zero => intro i; simp [strideAux]
  | succ n ih =>
    intro i
    by_cases hc : i ≤ hi
    · simp only [strideAux, hc, if_true, List.pairwise_cons]
      refine ⟨fun x hx => ?_, ih (i + step)⟩
      have := strideAux_lower hi step hstep n (i + step) x hx
      omega
    · simp [strideAux, hc]

theorem mem_stride (lo hi step : Int) (hstep : 1 ≤ step) (x : Int) :
    x ∈ stride lo hi step ↔ ∃ k : Nat, x = lo + k * step ∧ x ≤ hi :=
  mem_strideAux hi step hstep _ lo x (le_refl _)

theorem stride_sorted (lo hi step : Int) (hstep : 1 ≤ step) :
    (stride lo hi step).Pairwise (· < ·) :=
  strideAux_sorted hi step hstep _ lo

theorem stride_eq_nil (lo hi step : Int) (h : hi < lo) : stride lo hi step = [] := by
  have : (hi - lo + 1).toNat = 0 := by omega
  simp [stride, this, strideAux]

theorem forLoop_eq_stride {σ : Type} (lo hi step : Int) (body : Int → σ → Option σ)
    (hstep : 1 ≤ step) (fuel : Nat) (st : σ) (hfuel : (hi - lo + 1).toNat < fuel) :
    forLoop (fun y => decide (y ≤ hi)) step body fuel lo st =
      runList body (stride lo hi step) st :=
  forLoop_le_eq_runList hi step body hstep _ fuel lo st (le_refl _) hfuel

/-! ## The similarity score -/

theorem abs_eq_abs (x : Int) : abs x = |x| := by
  unfold abs
  split
  · next h => exact (abs_of_neg h).symm
  · next h => exact (abs_of_nonneg (not_lt.mp h)).symm

theorem pixelStep_fin (img template : Image) (startX startY ty tx : Int) (a : ℚ) :
    pixelStep img template startX startY ty tx (F64.fin a) =
      F64.fin (a + (pixelDiff img template startX startY ty tx : ℚ)) := by
  simp only [pixelStep, F64.add, F64.ofInt, pixelDiff, abs_eq_abs]
  congr 1
  push_cast
  ring

theorem forLoop_sum (w : Int) (body : Int → F64 → Option F64) (g : Int → ℚ)
    (hbody : ∀ t a, body t (F64.fin a) = some (F64.fin (a + g t))) :
    ∀ (fuel : Nat) (i : Int) (a : ℚ), (w - i).toNat < fuel →
      forLoop (fun t => decide (t < w)) 1 body fuel i (F64.fin a) =
        some (F64.fin (a + ∑ k in Finset.range (w - i).toNat, g (i + k))) := by
  intro fuel
  induction fuel with
  | zero => intro i a h; omega
  | succ f ih =>
    intro i a h
    by_cases hc : i < w
    · have hn : (w - i).toNat = (w - (i + 1)).toNat + 1 := by omega
      simp only [forLoop, hc, decide_True, if_true, hbody, Option.some_bind]
      rw [ih (i + 1) (a + g i) (by omega), hn, Finset.sum_range_succ']
      congr 2
      have : ∀ k : Nat, g (i + 1 + (k : Int)) = g (i + ((k + 1 : Nat) : Int)) := by
        intro k
        congr 1
        push_cast
        ring
      simp only [this]
      simp only [Nat.cast_zero, add_zero]
      ring
    · have hn : (w - i).toNat = 0 := by omega
      simp [forLoop, hc, hn]

theorem compareRegion_eq (fuel : Nat) (img template : Image) (startX startY : Int)
    (hx : template.Bounds.Dx.toNat < fuel) (hy : template.Bounds.Dy.toNat < fuel) :
    compareRegion fuel img template startX startY =
      some (regionScore img template startX startY) := by
  have inner : ∀ (ty : Int) (a : ℚ),
      forLoop (fun tx => decide (tx < template.Bounds.Dx)) 1
        (fun tx totalDiff => some (pixelStep img template startX startY ty tx totalDiff))
        fuel 0 (F64.fin a) =
      some (F64.fin (a + ∑ k in Finset.range template.Bounds.Dx.toNat,
        (pixelDiff img template startX startY ty (k : Int) : ℚ))) := by
    intro ty a
    have h := forLoop_sum template.Bounds.Dx
      (fun tx totalDiff => some (pixelStep img template startX startY ty tx totalDiff))
      (fun tx => (pixelDiff img template startX startY ty tx : ℚ))
      (fun t a => by simp only [pixelStep_fin]) fuel 0 a (by simpa using hx)
    simpa using h
  have outer := forLoop_sum template.Bounds.Dy
    (fun ty totalDiff =>
      forLoop (fun tx => decide (tx < template.Bounds.Dx)) 1
        (fun tx totalDiff => some (pixelStep img template startX startY ty tx totalDiff))
        fuel 0 totalDiff)
    (fun ty => ∑ k in Finset.range template.Bounds.Dx.toNat,
        (pixelDiff img template startX startY ty (k : Int) : ℚ))
    (fun t a => inner t a) fuel 0 0 (by simpa using hy)
  simp only [compareRegion, regionScore]
  rw [outer]
  simp only [Option.map_some', sub_zero, zero_add, diffSum]
  push_cast
  rfl

theorem chan8_lt (v : Nat) : chan8 v < 256 := Nat.mod_lt _ (by decide)

theorem pixelDiff_nonneg (img template : Image) (startX startY ty tx : Int) :
    0 ≤ pixelDiff img template startX startY ty tx := by
  unfold pixelDiff
  positivity

theorem pixelDiff_le (img template : Image) (startX startY ty tx : Int) :
    pixelDiff img template startX startY ty tx ≤ 765 := by
  have key : ∀ a b : Nat, a < 256 → b < 256 → |(a : Int) - (b : Int)| ≤ 255 := by
    intro a b ha hb
    rw [abs_le]
    constructor <;> omega
  unfold pixelDiff
  have h1 := key _ _ (chan8_lt (img.At (startX + tx) (startY + ty)).r)
    (chan8_lt (template.At (template.Bounds.Min.X + tx) (template.Bounds.Min.Y + ty)).r)
  have h2 := key _ _ (chan8_lt (img.At (startX + tx) (startY + ty)).g)
    (chan8_lt (template.At (template.Bounds.Min.X + tx) (template.Bounds.Min.Y + ty)).g)
  have h3 := key _ _ (chan8_lt (img.At (startX + tx) (startY + ty)).b)
    (chan8_lt (template.At (template.Bounds.Min.X + tx) (template.Bounds.Min.Y + ty)).b)
  simp only
  omega

theorem pixelDiff_eq_zero_iff (img template : Image) (startX startY ty tx : Int) :
    pixelDiff img template startX startY ty tx = 0 ↔
      chan8 (img.At (startX + tx) (startY + ty)).r =
        chan8 (template.At (template.Bounds.Min.X + tx) (template.Bounds.Min.Y + ty)).r ∧
      chan8 (img.At (startX + tx) (startY + ty)).g =
        chan8 (template.At (template.Bounds.Min.X + tx) (template.Bounds.Min.Y + ty)).g ∧
      chan8 (img.At (startX + tx) (startY + ty)).b =
        chan8 (template.At (template.Bounds.Min.X + tx) (template.Bounds.Min.Y + ty)).b := by
  have key : ∀ a b : Nat, |(a : Int) - (b : Int)| = 0 ↔ a = b := by
    intro a b
    rw [abs_eq_zero]
    omega
  unfold pixelDiff
  simp only
  constructor
  · intro h
    have h1 := abs_nonneg ((chan8 (img.At (startX + tx) (startY + ty)).r : Int) -
      (chan8 (template.At (template.Bounds.Min.X + tx) (template.Bounds.Min.Y + ty)).r : Int))
    have h2 := abs_nonneg ((chan8 (img.At (startX + tx) (startY + ty)).g : Int) -
      (chan8 (template.At (template.Bounds.Min.X + tx) (template.Bounds.Min.Y + ty)).g : Int))
    have h3 := abs_nonneg ((chan8 (img.At (startX + tx) (startY + ty)).b : Int) -
      (chan8 (template.At (template.Bounds.Min.X + tx) (template.Bounds.Min.Y + ty)).b : Int))
    exact ⟨(key _ _).mp (by omega), (key _ _).mp (by omega), (key _ _).mp (by omega)⟩
  · rintro ⟨h1, h2, h3⟩
    rw [(key _ _).mpr h1, (key _ _).mpr h2, (key _ _).mpr h3]
    rfl

theorem diffSum_nonneg (img template : Image) (startX startY : Int) :
    0 ≤ diffSum img template startX startY := by
  unfold diffSum
  exact Finset.sum_nonneg fun _ _ => Finset.sum_nonneg fun _ _ => pixelDiff_nonneg _ _ _ _ _ _

theorem diffSum_le (img template : Image) (startX startY : Int)
    (hx : 0 < template.Bounds.Dx) (hy : 0 < template.Bounds.Dy) :
    diffSum img template startX startY ≤ template.Bounds.Dx * template.Bounds.Dy * 255 * 3 := by
  unfold diffSum
  have h1 : ∀ ty ∈ Finset.range template.Bounds.Dy.toNat,
      (∑ tx in Finset.range template.Bounds.Dx.toNat,
        pixelDiff img template startX startY (ty : Int) (tx : Int)) ≤
        template.Bounds.Dx * 765 := by
    intro ty _
    calc (∑ tx in Finset.range template.Bounds.Dx.toNat,
          pixelDiff img template startX startY (ty : Int) (tx : Int))
        ≤ ∑ _tx in Finset.range template.Bounds.Dx.toNat, (765 : Int) :=
          Finset.sum_le_sum fun _ _ => pixelDiff_le _ _ _ _ _ _
      _ = template.Bounds.Dx * 765 := by
          rw [Finset.sum_const, Finset.card_range, nsmul_eq_mul, Int.toNat_of_nonneg hx.le]
  calc (∑ ty in Finset.range template.Bounds.Dy.toNat,
        ∑ tx in Finset.range template.Bounds.Dx.toNat,
          pixelDiff img template startX startY (ty : Int) (tx : Int))
      ≤ ∑ _ty in Finset.range template.Bounds.Dy.toNat, template.Bounds.Dx * 765 :=
        Finset.sum_le_sum h1
    _ = template.Bounds.Dx * template.Bounds.Dy * 255 * 3 := by
        rw [Finset.sum_const, Finset.card_range, nsmul_eq_mul, Int.toNat_of_nonneg hy.le]
        ring

theorem diffSum_eq_zero_iff (img template : Image) (p : Point) :
    diffSum img template p.X p.Y = 0 ↔ RegionIdentical img template p := by
  unfold diffSum RegionIdentical
  rw [Finset.sum_eq_zero_iff_of_nonneg
    (fun _ _ => Finset.sum_nonneg fun _ _ => pixelDiff_nonneg _ _ _ _ _ _)]
  constructor
  · intro h ty tx hty htx
    have h1 := h ty (Finset.mem_range.mpr (by omega))
    rw [Finset.sum_eq_zero_iff_of_nonneg (fun _ _ => pixelDiff_nonneg _ _ _ _ _ _)] at h1
    exact (pixelDiff_eq_zero_iff _ _ _ _ _ _).mp (h1 tx (Finset.mem_range.mpr (by omega)))
  · intro h ty hty
    rw [Finset.sum_eq_zero_iff_of_nonneg (fun _ _ => pixelDiff_nonneg _ _ _ _ _ _)]
    intro tx htx
    rw [Finset.mem_range] at hty htx
    exact (pixelDiff_eq_zero_iff _ _ _ _ _ _).mpr (h ty tx (by omega) (by omega))

/-- The score of a non-empty template as a rational. -/
theorem regionScore_fin (img template : Image) (startX startY : Int)
    (hx : 0 < template.Bounds.Dx) (hy : 0 < template.Bounds.Dy) :
    regionScore img template startX startY =
      F64.fin (1 - (diffSum img template startX startY : ℚ) /
        ((template.Bounds.Dx * template.Bounds.Dy * 255 * 3 : Int) : ℚ)) := by
  have hpos : (0 : Int) < template.Bounds.Dx * template.Bounds.Dy * 255 * 3 := by positivity
  have hne : ((template.Bounds.Dx * template.Bounds.Dy * 255 * 3 : Int) : ℚ) ≠ 0 := by
    exact_mod_cast hpos.ne'
  simp only [regionScore, F64.ofInt, F64.div, hne, if_false, F64.sub, F64.neg, F64.add]
  congr 1
  ring

theorem scoreQ_bounds (img template : Image) (startX startY : Int)
    (hx : 0 < template.Bounds.Dx) (hy : 0 < template.Bounds.Dy) :
    0 ≤ 1 - (diffSum img template startX startY : ℚ) /
        ((template.Bounds.Dx * template.Bounds.Dy * 255 * 3 : Int) : ℚ) ∧
    1 - (diffSum img template startX startY : ℚ) /
        ((template.Bounds.Dx * template.Bounds.Dy * 255 * 3 : Int) : ℚ) ≤ 1 := by
  have hpos : (0 : Int) < template.Bounds.Dx * template.Bounds.Dy * 255 * 3 := by positivity
  have hposq : (0 : ℚ) < ((template.Bounds.Dx * template.Bounds.Dy * 255 * 3 : Int) : ℚ) := by
    exact_mod_cast hpos
  have h0 : (0 : ℚ) ≤ (diffSum img template startX startY : ℚ) := by
    exact_mod_cast diffSum_nonneg img template startX startY
  have h1 : (diffSum img template startX startY : ℚ) ≤
      ((template.Bounds.Dx * template.Bounds.Dy * 255 * 3 : Int) : ℚ) := by
    exact_mod_cast diffSum_le img template startX startY hx hy
  constructor
  · rw [sub_nonneg, div_le_one hposq]
    exact h1
  · rw [sub_le_self_iff]
    exact div_nonneg h0 hposq.le

theorem scoreQ_eq_one_iff (img template : Image) (p : Point)
    (hx : 0 < template.Bounds.Dx) (hy : 0 < template.Bounds.Dy) :
    1 - (diffSum img template p.X p.Y : ℚ) /
        ((template.Bounds.Dx * template.Bounds.Dy * 255 * 3 : Int) : ℚ) = 1 ↔
      RegionIdentical img template p := by
  have hpos : (0 : Int) < template.Bounds.Dx * template.Bounds.Dy * 255 * 3 := by positivity
  have hne : ((template.Bounds.Dx * template.Bounds.Dy * 255 * 3 : Int) : ℚ) ≠ 0 := by
    exact_mod_cast hpos.ne'
  rw [← diffSum_eq_zero_iff, sub_eq_self, div_eq_zero_iff]
  constructor
  · rintro (h | h)
    · exact_mod_cast h
    · exact absurd h hne
  · intro h
    left
    exact_mod_cast h

/-! ## Best-position search -/

theorem runList_pure {σ : Type} (body : Int → σ → Option σ) (g : σ → Int → σ)
    (hbody : ∀ i st, body i st = some (g st i)) :
    ∀ (is : List Int) (st : σ), runList body is st = some (is.foldl g st) := by
  intro is
  induction is with
  | nil => intro st; rfl
  | cons i is ih => intro st; simp [runList, hbody, ih]

theorem scoreStep_eq (fuel : Nat) (img template : Image) (y x : Int) (st : Search)
    (hx : template.Bounds.Dx.toNat < fuel) (hy : template.Bounds.Dy.toNat < fuel) :
    scoreStep fuel img template y x st =
      some (pick (scoreAt img template) st { X := x, Y := y }) := by
  simp only [scoreStep, compareRegion_eq fuel img template x y hx hy, Option.map_some', pick,
    scoreAt]

theorem foldl_grid (f : Search → Point → Search) :
    ∀ (ys xs : List Int) (st : Search),
      ys.foldl (fun st y => xs.foldl (fun st x => f st { X := x, Y := y }) st) st =
        (grid ys xs).foldl f st := by
  intro ys
  induction ys with
  | nil => intro xs st; rfl
  | cons y ys ih =>
    intro xs st
    simp only [List.foldl_cons, grid, List.flatMap_cons, List.foldl_append, List.foldl_map]
    exact ih xs _

/-- The two nested search loops, given enough fuel, fold `pick` over the grid of their
counter values. -/
theorem searchLoops_eq (fuel : Nat) (img template : Image) (loY hiY loX hiX step : Int)
    (init : Search) (hstep : 1 ≤ step)
    (hfy : (hiY - loY + 1).toNat < fuel) (hfx : (hiX - loX + 1).toNat < fuel)
    (hx : template.Bounds.Dx.toNat < fuel) (hy : template.Bounds.Dy.toNat < fuel) :
    forLoop (fun y => decide (y ≤ hiY)) step
      (fun y st => forLoop (fun x => decide (x ≤ hiX)) step (scoreStep fuel img template y)
        fuel loX st) fuel loY init =
      some ((grid (stride loY hiY step) (stride loX hiX step)).foldl
        (pick (scoreAt img template)) init) := by
  rw [forLoop_eq_stride loY hiY step _ hstep fuel init hfy]
  have hrow : ∀ (y : Int) (st : Search),
      forLoop (fun x => decide (x ≤ hiX)) step (scoreStep fuel img template y) fuel loX st =
        some ((stride loX hiX step).foldl
          (fun st x => pick (scoreAt img template) st { X := x, Y := y }) st) := by
    intro y st
    rw [forLoop_eq_stride loX hiX step _ hstep fuel st hfx]
    exact runList_pure _ _ (fun x st => scoreStep_eq fuel img template y x st hx hy) _ st
  rw [runList_pure _ _ hrow]
  rw [foldl_grid]

theorem mem_grid (ys xs : List Int) (p : Point) : p ∈ grid ys xs ↔ p.Y ∈ ys ∧ p.X ∈ xs := by
  simp only [grid, List.mem_flatMap, List.mem_map]
  constructor
  · rintro ⟨y, hy, x, hx, rfl⟩
    exact ⟨hy, hx⟩
  · rintro ⟨hy, hx⟩
    exact ⟨p.Y, hy, p.X, hx, rfl⟩

theorem grid_sorted (ys xs : List Int) (hys : ys.Pairwise (· < ·)) (hxs : xs.Pairwise (· < ·)) :
    (grid ys xs).Pairwise RowMajorLT := by
  unfold grid
  rw [List.pairwise_flatMap]
  constructor
  · intro y _
    rw [List.pairwise_map]
    exact hxs.imp fun h => Or.inr ⟨rfl, h⟩
  · refine hys.imp ?_
    intro a b hab p hp q hq
    simp only [List.mem_map] at hp hq
    obtain ⟨_, _, rfl⟩ := hp
    obtain ⟨_, _, rfl⟩ := hq
    exact Or.inl hab

theorem RowMajorLT.irrefl (p : Point) : ¬ RowMajorLT p p := by
  rintro (h | ⟨_, h⟩) <;> exact lt_irrefl _ h

theorem grid_nodup (ys xs : List Int) (hys : ys.Pairwise (· < ·)) (hxs : xs.Pairwise (· < ·)) :
    (grid ys xs).Nodup := by
  have h := grid_sorted ys xs hys hxs
  refine List.Pairwise.imp ?_ h
  intro a b hab heq
  subst heq
  exact RowMajorLT.irrefl a hab

theorem foldl_pick_evals (sc : Point → F64) :
    ∀ (pts : List Point) (init : Search),
      (pts.foldl (pick sc) init).evals = init.evals ++ pts := by
  intro pts
  induction pts with
  | nil => intro init; simp
  | cons p pts ih =>
    intro init
    rw [List.foldl_cons, ih]
    unfold pick
    split <;> simp

theorem foldl_pick_nil (sc : Point → F64) (init : Search) :
    ([] : List Point).foldl (pick sc) init = init := rfl

theorem F64.gt_ne_nan {a b : F64} (h : F64.gt a b = true) : a ≠ F64.nan := by
  rintro rfl
  cases b <;> simp [F64.gt, F64.lt] at h

theorem foldl_pick_ne_nan (sc : Point → F64) :
    ∀ (pts : List Point) (init : Search), init.bestScore ≠ F64.nan →
      (pts.foldl (pick sc) init).bestScore ≠ F64.nan := by
  intro pts
  induction pts with
  | nil => intro init h; exact h
  | cons p pts ih =>
    intro init h
    rw [List.foldl_cons]
    apply ih
    unfold pick
    split
    · next hgt => exact F64.gt_ne_nan hgt
    · exact h

/-- The result of a search over positions with finite scores `q`, started from a finite
best score `b`: the best score bounds every score; either nothing beat `b`, or the best
position is the first one in the list that attains the best score. -/
theorem foldl_pick_fin (q : Point → ℚ) (sc : Point → F64) :
    ∀ (pts : List Point) (init : Search) (b : ℚ),
      (∀ p ∈ pts, sc p = F64.fin (q p)) → init.bestScore = F64.fin b →
      ∃ rb : ℚ, (pts.foldl (pick sc) init).bestScore = F64.fin rb ∧ b ≤ rb ∧
        (∀ p ∈ pts, q p ≤ rb) ∧
        ((rb = b ∧ (pts.foldl (pick sc) init).bestLoc = init.bestLoc) ∨
         (∃ pre post, pts = pre ++ (pts.foldl (pick sc) init).bestLoc :: post ∧
            rb = q (pts.foldl (pick sc) init).bestLoc ∧ b < rb ∧ ∀ p ∈ pre, q p < rb)) := by
  intro pts
  induction pts with
  | nil =>
    intro init b _ hb
    exact ⟨b, hb, le_refl _, by simp, Or.inl ⟨rfl, rfl⟩⟩
  | cons p pts ih =>
    intro init b hsc hb
    have hp : sc p = F64.fin (q p) := hsc p (List.mem_cons_self _ _)
    have hrest : ∀ p' ∈ pts, sc p' = F64.fin (q p') :=
      fun p' h => hsc p' (List.mem_cons_of_mem _ h)
    rw [List.foldl_cons]
    by_cases hlt : b < q p
    · have hpick : pick sc init p =
          { bestLoc := p, bestScore := F64.fin (q p), evals := init.evals ++ [p] } := by
        simp [pick, hp, hb, F64.gt, F64.lt, hlt]
      rw [hpick]
      obtain ⟨rb, h1, h2, h3, h4⟩ := ih
        { bestLoc := p, bestScore := F64.fin (q p), evals := init.evals ++ [p] } (q p) hrest rfl
      refine ⟨rb, h1, le_trans hlt.le h2, ?_, Or.inr ?_⟩
      · intro p' hp'
        rcases List.mem_cons.mp hp' with rfl | hp'
        · exact h2
        · exact h3 p' hp'
      · rcases h4 with ⟨h5, h6⟩ | ⟨pre, post, h5, h6, h7, h8⟩
        · refine ⟨[], pts, ?_, ?_, ?_, by simp⟩
          · rw [h6]; rfl
          · rw [h6]; exact h5
          · rw [h5]; exact hlt
        · refine ⟨p :: pre, post, ?_, h6, lt_trans hlt h7, ?_⟩
          · rw [List.cons_append, ← h5]
          · intro p' hp'
            rcases List.mem_cons.mp hp' with rfl | hp'
            · exact h7
            · exact h8 p' hp'
    · have hpick : pick sc init p = { init with evals := init.evals ++ [p] } := by
        simp [pick, hp, hb, F64.gt, F64.lt, hlt]
      rw [hpick]
      obtain ⟨rb, h1, h2, h3, h4⟩ := ih { init with evals := init.evals ++ [p] } b hrest hb
      refine ⟨rb, h1, h2, ?_, ?_⟩
      · intro p' hp'
        rcases List.mem_cons.mp hp' with rfl | hp'
        · exact le_trans (not_lt.mp hlt) h2
        · exact h3 p' hp'
      · rcases h4 with ⟨h5, h6⟩ | ⟨pre, post, h5, h6, h7, h8⟩
        · exact Or.inl ⟨h5, h6⟩
        · refine Or.inr ⟨p :: pre, post, ?_, h6, h7, ?_⟩
          · rw [List.cons_append, ← h5]
          · intro p' hp'
            rcases List.mem_cons.mp hp' with rfl | hp'
            · exact lt_of_le_of_lt (not_lt.mp hlt) h7
            · exact h8 p' hp'

/-- In a row-major sorted list, the first position that attains the best score comes
before every other position that attains it. -/
theorem first_is_rowMajor_least (q : Point → ℚ) (pts pre post : List Point) (loc p : Point)
    (rb : ℚ) (hsorted : pts.Pairwise RowMajorLT) (hsplit : pts = pre ++ loc :: post)
    (hpre : ∀ p' ∈ pre, q p' < rb) (hp : p ∈ pts) (hq : q p = rb) : RowMajorLE loc p := by
  rw [hsplit] at hp hsorted
  rcases List.mem_append.mp hp with h | h
  · exact absurd hq (ne_of_lt (hpre p h))
  · rcases List.mem_cons.mp h with rfl | h
    · exact Or.inr ⟨rfl, le_refl _⟩
    · have h2 := (List.pairwise_append.mp hsorted).2.1
      have h3 := (List.pairwise_cons.mp h2).1 p h
      rcases h3 with h3 | ⟨h3, h4⟩
      · exact Or.inl h3
      · exact Or.inr ⟨h3, h4.le⟩

theorem min_le_left (a b : Int) : min a b ≤ a := by unfold min; split <;> omega

theorem min_le_right (a b : Int) : min a b ≤ b := by unfold min; split <;> omega

theorem le_min_iff (a b c : Int) : c ≤ min a b ↔ c ≤ a ∧ c ≤ b := by
  unfold min; split <;> omega

theorem le_max_left (a b : Int) : a ≤ max a b := by unfold max; split <;> omega

theorem max_le_iff (a b c : Int) : max a b ≤ c ↔ a ≤ c ∧ b ≤ c := by
  unfold max; split <;> omega

theorem mem_stride_one (lo hi x : Int) : x ∈ stride lo hi 1 ↔ lo ≤ x ∧ x ≤ hi := by
  rw [mem_stride lo hi 1 (le_refl _)]
  constructor
  · rintro ⟨k, rfl, hk⟩
    exact ⟨by omega, hk⟩
  · rintro ⟨h1, h2⟩
    exact ⟨(x - lo).toNat, by omega, h2⟩

theorem scoreAt_fin (img template : Image) (p : Point)
    (hx : 0 < template.Bounds.Dx) (hy : 0 < template.Bounds.Dy) :
    scoreAt img template p = F64.fin (scoreQ img template p) :=
  regionScore_fin img template p.X p.Y hx hy

theorem coarsePass_eq (fuel : Nat) (img template : Image) (searchScale : Int)
    (hstep : 1 ≤ searchScale) (hfuel : fuelBound img template < fuel) :
    coarsePass fuel img template searchScale =
      some ((coarseGrid img template searchScale).foldl (pick (scoreAt img template))
        { bestLoc := { X := 0, Y := 0 }, bestScore := F64.fin (-1), evals := [] }) := by
  unfold fuelBound at hfuel
  unfold coarsePass coarseGrid
  exact searchLoops_eq fuel img template _ _ _ _ searchScale _ hstep
    (by omega) (by omega) (by omega) (by omega)

theorem refineSearch_eq (fuel : Nat) (img template : Image) (center : Point) (radius : Int)
    (hfuel : fuelBound img template < fuel) :
    refineSearch fuel img template center radius =
      some ((refineGrid img template center radius).foldl (pick (scoreAt img template))
        { bestLoc := center, bestScore := F64.fin (-1), evals := [] }) := by
  unfold fuelBound at hfuel
  unfold refineSearch refineGrid
  have h1 := min_le_left (img.Bounds.Max.Y - template.Bounds.Dy) (wrap64 (center.Y + radius))
  have h2 := le_max_left img.Bounds.Min.Y (wrap64 (center.Y - radius))
  have h3 := min_le_left (img.Bounds.Max.X - template.Bounds.Dx) (wrap64 (center.X + radius))
  have h4 := le_max_left img.Bounds.Min.X (wrap64 (center.X - radius))
  exact searchLoops_eq fuel img template _ _ _ _ 1 _ (le_refl _)
    (by omega) (by omega) (by omega) (by omega)

theorem coarseGrid_sorted (img template : Image) (searchScale : Int) (hstep : 1 ≤ searchScale) :
    (coarseGrid img template searchScale).Pairwise RowMajorLT :=
  grid_sorted _ _ (stride_sorted _ _ _ hstep) (stride_sorted _ _ _ hstep)

theorem refineGrid_sorted (img template : Image) (center : Point) (radius : Int) :
    (refineGrid img template center radius).Pairwise RowMajorLT :=
  grid_sorted _ _ (stride_sorted _ _ _ (le_refl _)) (stride_sorted _ _ _ (le_refl _))

theorem mem_coarseGrid (img template : Image) (searchScale : Int) (hstep : 1 ≤ searchScale)
    (p : Point) :
    p ∈ coarseGrid img template searchScale ↔
      (∃ i j : Nat, p.X = img.Bounds.Min.X + i * searchScale ∧
        p.Y = img.Bounds.Min.Y + j * searchScale) ∧ Fits img template p := by
  unfold coarseGrid Fits
  rw [mem_grid, mem_stride _ _ _ hstep, mem_stride _ _ _ hstep]
  constructor
  · rintro ⟨⟨j, hj, hj'⟩, ⟨i, hi, hi'⟩⟩
    have h1 : 0 ≤ (i : Int) * searchScale := by positivity
    have h2 : 0 ≤ (j : Int) * searchScale := by positivity
    exact ⟨⟨i, j, hi, hj⟩, by omega, by omega, by omega, by omega⟩
  · rintro ⟨⟨i, j, hi, hj⟩, h1, h2, h3, h4⟩
    exact ⟨⟨j, hj, by omega⟩, ⟨i, hi, by omega⟩⟩

theorem refineGrid_fits (img template : Image) (center : Point) (radius : Int) (p : Point)
    (h : p ∈ refineGrid img template center radius) : Fits img template p := by
  unfold refineGrid at h
  unfold Fits
  rw [mem_grid, mem_stride_one, mem_stride_one, max_le_iff, max_le_iff, le_min_iff,
    le_min_iff] at h
  obtain ⟨⟨⟨h1, _⟩, h3, _⟩, ⟨h5, _⟩, h7, _⟩ := h
  exact ⟨h5, by omega, h1, by omega⟩

/-- The positions of the refinement pass when `center ± radius` does not leave the range
of a Go `int`. -/
theorem mem_refineGrid (img template : Image) (center : Point) (radius : Int) (p : Point)
    (hx1 : InInt64 (center.X - radius)) (hx2 : InInt64 (center.X + radius))
    (hy1 : InInt64 (center.Y - radius)) (hy2 : InInt64 (center.Y + radius)) :
    p ∈ refineGrid img template center radius ↔
      |p.X - center.X| ≤ radius ∧ |p.Y - center.Y| ≤ radius ∧ Fits img template p := by
  unfold refineGrid Fits
  rw [wrap64_eq _ hx1, wrap64_eq _ hx2, wrap64_eq _ hy1, wrap64_eq _ hy2]
  rw [mem_grid, mem_stride_one, mem_stride_one, max_le_iff, max_le_iff, le_min_iff, le_min_iff,
    abs_le, abs_le]
  constructor
  · rintro ⟨⟨⟨h1, h2⟩, h3, h4⟩, ⟨h5, h6⟩, h7, h8⟩
    exact ⟨⟨by omega, by omega⟩, ⟨by omega, by omega⟩, h5, by omega, h1, by omega⟩
  · rintro ⟨⟨h1, h2⟩, ⟨h3, h4⟩, h5, h6, h7, h8⟩
    exact ⟨⟨⟨h7, by omega⟩, by omega, by omega⟩, ⟨h5, by omega⟩, by omega, by omega⟩

/-- The result of a search over a row-major sorted list of positions for a non-empty
template, started from the score `-1`. -/
theorem search_spec (img template : Image) (hx : 0 < template.Bounds.Dx)
    (hy : 0 < template.Bounds.Dy) (pts : List Point) (init : Search)
    (hinit : init.bestScore = F64.fin (-1)) (hev : init.evals = [])
    (hsorted : pts.Pairwise RowMajorLT) :
    (pts.foldl (pick (scoreAt img template)) init).evals = pts ∧
    (pts = [] → (pts.foldl (pick (scoreAt img template)) init).bestLoc = init.bestLoc ∧
      (pts.foldl (pick (scoreAt img template)) init).bestScore = F64.fin (-1)) ∧
    (pts ≠ [] → (pts.foldl (pick (scoreAt img template)) init).bestLoc ∈ pts ∧
      (pts.foldl (pick (scoreAt img template)) init).bestScore =
        F64.fin (scoreQ img template (pts.foldl (pick (scoreAt img template)) init).bestLoc) ∧
      ∀ p ∈ pts, scoreQ img template p ≤
          scoreQ img template (pts.foldl (pick (scoreAt img template)) init).bestLoc ∧
        (scoreQ img template p =
          scoreQ img template (pts.foldl (pick (scoreAt img template)) init).bestLoc →
          RowMajorLE (pts.foldl (pick (scoreAt img template)) init).bestLoc p)) := by
  refine ⟨by rw [foldl_pick_evals, hev, List.nil_append], ?_, ?_⟩
  · rintro rfl
    exact ⟨rfl, hinit⟩
  · intro hne
    obtain ⟨rb, h1, h2, h3, h4⟩ := foldl_pick_fin (scoreQ img template) (scoreAt img template)
      pts init (-1) (fun p _ => scoreAt_fin img template p hx hy) hinit
    obtain ⟨p0, hp0⟩ := List.exists_mem_of_ne_nil pts hne
    have hp0' := (scoreQ_bounds img template p0.X p0.Y hx hy).1
    have hrb : (0 : ℚ) ≤ rb := le_trans hp0' (h3 p0 hp0)
    rcases h4 with ⟨h5, _⟩ | ⟨pre, post, h5, h6, _, h8⟩
    · rw [h5] at hrb
      norm_num at hrb
    · refine ⟨?_, ?_, ?_⟩
      · have hmem : ∀ (l : List Point) (a : Point), l = pre ++ a :: post → a ∈ l := by
          rintro _ a rfl
          simp
        exact hmem pts _ h5
      · rw [h1, h6]
      · intro p hp
        refine ⟨h6 ▸ h3 p hp, fun heq => ?_⟩
        exact first_is_rowMajor_least (scoreQ img template) pts pre post _ p rb hsorted h5 h8 hp
          (heq.trans h6.symm)

/-! ## Colour sampler -/

theorem findColorLoop_spec (config : Config) (bounds : Rectangle) (img : Image)
    (hlow : -9223372036854775808 ≤ config.ColorY1)
    (hhigh : config.ColorY2 < 9223372036854775807) :
    ∀ (fuel : Nat) (y0 : Int), config.ColorY1 ≤ y0 → (config.ColorY2 - y0 + 1).toNat < fuel →
      (∃ y, y0 ≤ y ∧ ColumnMatch config bounds img y ∧
          (∀ y', y0 ≤ y' → ColumnMatch config bounds img y' → y ≤ y') ∧
          findColorLoop config bounds img (hexToRGB config.TargetColor).1
            (hexToRGB config.TargetColor).2.1 (hexToRGB config.TargetColor).2.2 fuel y0 =
            some (true, y)) ∨
      ((∀ y', y0 ≤ y' → ¬ ColumnMatch config bounds img y') ∧
          findColorLoop config bounds img (hexToRGB config.TargetColor).1
            (hexToRGB config.TargetColor).2.1 (hexToRGB config.TargetColor).2.2 fuel y0 =
            some (false, 0)) := by
  intro fuel
  induction fuel with
  | zero => intro y0 _ h; omega
  | succ f ih =>
    intro y0 hlo hfuel
    by_cases hc : y0 ≤ config.ColorY2
    · have hrec := ih (y0 + 1) (by omega) (by omega)
      have hw : wrap64 (y0 + 1) = y0 + 1 := wrap64_eq _ ⟨by omega, by omega⟩
      have step : ¬ ColumnMatch config bounds img y0 →
          findColorLoop config bounds img (hexToRGB config.TargetColor).1
            (hexToRGB config.TargetColor).2.1 (hexToRGB config.TargetColor).2.2 (f + 1) y0 =
          findColorLoop config bounds img (hexToRGB config.TargetColor).1
            (hexToRGB config.TargetColor).2.1 (hexToRGB config.TargetColor).2.2 f (y0 + 1) →
          ((∃ y, y0 ≤ y ∧ ColumnMatch config bounds img y ∧
              (∀ y', y0 ≤ y' → ColumnMatch config bounds img y' → y ≤ y') ∧
              findColorLoop config bounds img (hexToRGB config.TargetColor).1
                (hexToRGB config.TargetColor).2.1 (hexToRGB config.TargetColor).2.2 (f + 1) y0 =
                some (true, y)) ∨
            ((∀ y', y0 ≤ y' → ¬ ColumnMatch config bounds img y') ∧
              findColorLoop config bounds img (hexToRGB config.TargetColor).1
                (hexToRGB config.TargetColor).2.1 (hexToRGB config.TargetColor).2.2 (f + 1) y0 =
                some (false, 0))) := by
        intro hno heq
        rw [heq]
        rcases hrec with ⟨y, h1, h2, h3, h4⟩ | ⟨h1, h2⟩
        · refine Or.inl ⟨y, by omega, h2, ?_, h4⟩
          intro y' hy' hm
          rcases eq_or_lt_of_le hy' with rfl | hlt
          · exact absurd hm hno
          · exact h3 y' (by omega) hm
        · refine Or.inr ⟨?_, h2⟩
          intro y' hy' hm
          rcases eq_or_lt_of_le hy' with rfl | hlt
          · exact absurd hm hno
          · exact h1 y' (by omega) hm
      by_cases hout : config.ColorX1 < bounds.Min.X ∨ config.ColorX1 ≥ bounds.Max.X ∨
          y0 < bounds.Min.Y ∨ y0 ≥ bounds.Max.Y
      · apply step
        · rintro ⟨_, _, h3, h4, h5, h6, _⟩
          omega
        · simp only [findColorLoop, hc, if_true, hout, hw]
      · by_cases hm : colorMatch (chan8 (img.At config.ColorX1 y0).r)
            (chan8 (img.At config.ColorX1 y0).g) (chan8 (img.At config.ColorX1 y0).b)
            (hexToRGB config.TargetColor).1 (hexToRGB config.TargetColor).2.1
            (hexToRGB config.TargetColor).2.2 config.ShadeVariation = true
        · refine Or.inl ⟨y0, le_refl _, ⟨hlo, hc, by omega, by omega, by omega, by omega, hm⟩,
            fun y' hy' _ => hy', ?_⟩
          simp only [findColorLoop, hc, if_true, hout, if_false, hm]
        · apply step
          · rintro ⟨_, _, _, _, _, _, h7⟩
            exact hm h7
          · simp only [findColorLoop, hc, if_true, hout, if_false, hm, hw]
            rfl
    · refine Or.inr ⟨?_, ?_⟩
      · rintro y' hy' ⟨_, h2, _⟩
        omega
      · simp only [findColorLoop, hc, if_false]

/-- The column scan below the last row of a Go `int`: with a captured frame, a range
`ColorY1..ColorY2` inside the Go `int`s with `ColorY2` below the largest one, and enough
fuel for its rows, `findColorInArea` returns, without sending a status event, `(true, y)`
exactly when `y` is the least row of the range whose pixel `(ColorX1, y)` lies inside the
display bounds and matches the target under `colorMatch`, and `(false, 0)` exactly when
there is no such row. -/
theorem findColorInArea_first_match (fuel : Nat) (config : Config) (scr : Screen)
    (img : Image) (hcap : scr.capture = Except.ok img)
    (hlow : -9223372036854775808 ≤ config.ColorY1)
    (hhigh : config.ColorY2 < 9223372036854775807)
    (hfuel : (config.ColorY2 - config.ColorY1 + 1).toNat < fuel) :
    ∃ res : Bool × Int, findColorInArea fuel config scr = some ([], res) ∧
      (∀ y, res = (true, y) ↔
        (ColumnMatch config scr.bounds img y ∧
          ∀ y', ColumnMatch config scr.bounds img y' → y ≤ y')) ∧
      (res = (false, 0) ↔ ¬ ∃ y, ColumnMatch config scr.bounds img y) := by
  have hfun : findColorInArea fuel config scr =
      (findColorLoop config scr.bounds img (hexToRGB config.TargetColor).1
        (hexToRGB config.TargetColor).2.1 (hexToRGB config.TargetColor).2.2 fuel
        config.ColorY1).map fun res => ([], res) := by
    simp only [findColorInArea, hcap]
  rcases findColorLoop_spec config scr.bounds img hlow hhigh fuel config.ColorY1 (le_refl _)
    hfuel with ⟨y, _, h2, h3, h4⟩ | ⟨h1, h2⟩
  · refine ⟨(true, y), by rw [hfun, h4]; rfl, ?_, ?_⟩
    · intro y'
      constructor
      · intro h
        have : y = y' := by injection h.symm with _ h; exact h.symm
        subst this
        exact ⟨h2, fun y'' hm => h3 y'' hm.1 hm⟩
      · rintro ⟨hm, hleast⟩
        have : y = y' := le_antisymm (h3 y' hm.1 hm) (hleast y h2)
        rw [this]
    · constructor
      · intro h
        simp at h
      · intro h
        exact absurd ⟨y, h2⟩ h
  · refine ⟨(false, 0), by rw [hfun, h2]; rfl, ?_, ?_⟩
    · intro y
      constructor
      · intro h
        simp at h
      · rintro ⟨hm, _⟩
        exact absurd hm (h1 y hm.1)
    · constructor
      · rintro _ ⟨y, hm⟩
        exact h1 y hm.1 hm
      · intro _
        rfl

theorem findColorInArea_columnFrame :
    findColorInArea 20 columnConfig columnScreen = some ([], (true, 5)) := by
  decide

/-- The sample column: matches at the rows 5, 9 and 12 and the range 0 to 15 give row 5. -/
theorem findColorInArea_first_match_sample :
    columnScreen.capture = Except.ok columnFrame ∧
    (columnConfig.ColorY2 - columnConfig.ColorY1 + 1).toNat < 20 ∧
    findColorInArea 20 columnConfig columnScreen = some ([], (true, 5)) ∧
    ∃ res : Bool × Int, findColorInArea 20 columnConfig columnScreen = some ([], res) ∧
      (∀ y, res = (true, y) ↔
        (ColumnMatch columnConfig columnScreen.bounds columnFrame y ∧
          ∀ y', ColumnMatch columnConfig columnScreen.bounds columnFrame y' → y ≤ y')) ∧
      (res = (false, 0) ↔ ¬ ∃ y, ColumnMatch columnConfig columnScreen.bounds columnFrame y) :=
  ⟨rfl, by decide, findColorInArea_columnFrame,
    findColorInArea_first_match 20 columnConfig columnScreen columnFrame rfl (by decide)
      (by decide) (by decide)⟩

theorem findColorLoop_maxRow (targetR targetG targetB : Nat) :
    ∀ (fuel : Nat) (y : Int), y ≤ 9223372036854775807 →
      findColorLoop maxRowConfig tinyScreen.bounds tinyFrame targetR targetG targetB fuel y =
        none := by
  intro fuel
  induction fuel with
  | zero =>
    intro y _
    rfl
  | succ f ih =>
    intro y hy
    have hc : y ≤ maxRowConfig.ColorY2 := hy
    have hout : maxRowConfig.ColorX1 < tinyScreen.bounds.Min.X ∨
        maxRowConfig.ColorX1 ≥ tinyScreen.bounds.Max.X ∨ y < tinyScreen.bounds.Min.Y ∨
        y ≥ tinyScreen.bounds.Max.Y := Or.inr (Or.inl (by decide))
    have hw : wrap64 (y + 1) ≤ 9223372036854775807 := by
      have := (wrap64_inInt64 (y + 1)).2
      omega
    simp only [findColorLoop, hc, if_true, hout]
    exact ih _ hw

/-- C1 fails at the last row of a Go `int`: with `ColorY1 = ColorY2 = 2^63 - 1` on the
one-pixel display, no row of the range is a match (column 11 lies outside the display),
so the claimed result is `(false, 0)`; but the increment `y++` wraps around to `-2^63`,
the loop condition `y <= ColorY2` never fails, and `findColorInArea` yields no result
for any amount of fuel. -/
theorem findColorInArea_last_row_diverges :
    (¬ ∃ y, ColumnMatch maxRowConfig tinyScreen.bounds tinyFrame y) ∧
    ∀ fuel : Nat, findColorInArea fuel maxRowConfig tinyScreen = none := by
  constructor
  · rintro ⟨y, _, _, _, h, _⟩
    exact absurd h (by decide)
  · intro fuel
    have hfun : findColorInArea fuel maxRowConfig tinyScreen =
        (findColorLoop maxRowConfig tinyScreen.bounds tinyFrame
          (hexToRGB maxRowConfig.TargetColor).1 (hexToRGB maxRowConfig.TargetColor).2.1
          (hexToRGB maxRowConfig.TargetColor).2.2 fuel maxRowConfig.ColorY1).map
          fun res => ([], res) := rfl
    rw [hfun, findColorLoop_maxRow _ _ _ fuel _ (by decide)]
    rfl

/-- The sampler reads the single column `ColorX1`: the field `ColorX2`, which the start
announcement of the controller prints as the right edge of the search area, has no
influence on `findColorInArea`. -/
theorem findColorInArea_ignores_ColorX2 (fuel : Nat) (config : Config) (scr : Screen)
    (x2 : Int) :
    findColorInArea fuel { config with ColorX2 := x2 } scr = findColorInArea fuel config scr := by
  have hloop : ∀ (bounds : Rectangle) (img : Image) (targetR targetG targetB : Nat)
      (fuel : Nat) (y : Int),
      findColorLoop { config with ColorX2 := x2 } bounds img targetR targetG targetB fuel y =
        findColorLoop config bounds img targetR targetG targetB fuel y := by
    intro bounds img targetR targetG targetB fuel
    induction fuel with
    | zero =>
      intro y
      rfl
    | succ f ih =>
      intro y
      simp only [findColorLoop, ih]
  simp only [findColorInArea, hloop]

/-- C2: `colorMatch` holds exactly when each of the three channel differences is at most
the tolerance, and it is symmetric in the two pixels. -/
theorem colorMatch_iff_and_symm (r1 g1 b1 r2 g2 b2 : Nat) (t : Int) :
    (colorMatch r1 g1 b1 r2 g2 b2 t = true ↔
      |(r1 : Int) - (r2 : Int)| ≤ t ∧ |(g1 : Int) - (g2 : Int)| ≤ t ∧
        |(b1 : Int) - (b2 : Int)| ≤ t) ∧
    colorMatch r1 g1 b1 r2 g2 b2 t = colorMatch r2 g2 b2 r1 g1 b1 t := by
  constructor
  · simp only [colorMatch, abs_eq_abs, Bool.and_eq_true, decide_eq_true_eq, and_assoc]
  · simp only [colorMatch, abs_eq_abs, abs_sub_comm (r1 : Int), abs_sub_comm (g1 : Int),
      abs_sub_comm (b1 : Int)]

/-! ## The similarity score: claims -/

/-- C5: for a non-empty template and enough fuel for its width and height,
`compareRegion` returns `1 - S / (width * height * 3 * 255)`, where `S` sums the three
absolute 8-bit channel differences over every pixel of the template. -/
theorem compareRegion_formula (fuel : Nat) (img template : Image) (x y : Int)
    (hx : 0 < template.Bounds.Dx) (hy : 0 < template.Bounds.Dy)
    (hfx : template.Bounds.Dx.toNat < fuel) (hfy : template.Bounds.Dy.toNat < fuel) :
    compareRegion fuel img template x y =
      some (F64.fin (1 - (diffSum img template x y : ℚ) /
        ((template.Bounds.Dx * template.Bounds.Dy * 3 * 255 : Int) : ℚ))) := by
  rw [compareRegion_eq fuel img template x y hfx hfy, regionScore_fin img template x y hx hy]
  have : template.Bounds.Dx * template.Bounds.Dy * 3 * 255 =
      template.Bounds.Dx * template.Bounds.Dy * 255 * 3 := by ring
  rw [this]

/-- C5, on the sample frame and template at position `(0, 0)`. -/
theorem compareRegion_formula_witness :
    0 < sampleTemplate.Bounds.Dx ∧ 0 < sampleTemplate.Bounds.Dy ∧
    sampleTemplate.Bounds.Dx.toNat < 3 ∧ sampleTemplate.Bounds.Dy.toNat < 3 ∧
    compareRegion 3 sampleFrame sampleTemplate 0 0 =
      some (F64.fin (1 - (diffSum sampleFrame sampleTemplate 0 0 : ℚ) /
        ((sampleTemplate.Bounds.Dx * sampleTemplate.Bounds.Dy * 3 * 255 : Int) : ℚ))) :=
  ⟨by decide, by decide, by decide, by decide,
    compareRegion_formula 3 sampleFrame sampleTemplate 0 0 (by decide) (by decide) (by decide)
      (by decide)⟩

/-- C6, as amended: for a non-empty template and enough fuel, the score of `compareRegion`
is a number in `[0, 1]`, and it is `1` exactly when the frame region at the position and
the template agree in the three 8-bit channels of every pixel. -/
theorem compareRegion_range (fuel : Nat) (img template : Image) (p : Point)
    (hx : 0 < template.Bounds.Dx) (hy : 0 < template.Bounds.Dy)
    (hfx : template.Bounds.Dx.toNat < fuel) (hfy : template.Bounds.Dy.toNat < fuel) :
    ∃ q : ℚ, compareRegion fuel img template p.X p.Y = some (F64.fin q) ∧ 0 ≤ q ∧ q ≤ 1 ∧
      (q = 1 ↔ RegionIdentical img template p) := by
  refine ⟨scoreQ img template p, ?_, (scoreQ_bounds img template p.X p.Y hx hy).1,
    (scoreQ_bounds img template p.X p.Y hx hy).2, scoreQ_eq_one_iff img template p hx hy⟩
  rw [compareRegion_eq fuel img template p.X p.Y hfx hfy, regionScore_fin img template _ _ hx hy]
  rfl

/-- C6, as amended, on the sample frame and template at position `(1, 1)`. -/
theorem compareRegion_range_witness :
    0 < sampleTemplate.Bounds.Dx ∧ 0 < sampleTemplate.Bounds.Dy ∧
    sampleTemplate.Bounds.Dx.toNat < 3 ∧ sampleTemplate.Bounds.Dy.toNat < 3 ∧
    ∃ q : ℚ, compareRegion 3 sampleFrame sampleTemplate 1 1 = some (F64.fin q) ∧ 0 ≤ q ∧
      q ≤ 1 ∧ (q = 1 ↔ RegionIdentical sampleFrame sampleTemplate { X := 1, Y := 1 }) :=
  ⟨by decide, by decide, by decide, by decide,
    compareRegion_range 3 sampleFrame sampleTemplate { X := 1, Y := 1 } (by decide) (by decide)
      (by decide) (by decide)⟩

/-- C6 fails for a template without pixels: the region and the template are identical
(there is no pixel to differ), and the score is NaN, which is neither `>= 0` nor `<= 1`
nor equal to `1`. -/
theorem compareRegion_empty_template_nan :
    compareRegion 1 sampleFrame emptyTemplate 0 0 = some F64.nan ∧
    RegionIdentical sampleFrame emptyTemplate { X := 0, Y := 0 } ∧
    F64.ge F64.nan (F64.fin 0) = false ∧ F64.le F64.nan (F64.fin 1) = false ∧
    F64.nan ≠ F64.fin 1 := by
  refine ⟨?_, ?_, rfl, rfl, by simp⟩
  · simp [compareRegion, forLoop, emptyTemplate, Rectangle.Dx, Rectangle.Dy, F64.div,
      F64.ofInt, F64.sub, F64.neg, F64.add]
  · intro ty tx hty _
    simp [emptyTemplate, Rectangle.Dy] at hty
    omega

/-! ## Template matcher: claims -/

theorem fuelBound_dx (img template : Image) (fuel : Nat) (h : fuelBound img template < fuel) :
    template.Bounds.Dx.toNat < fuel := by
  unfold fuelBound at h; omega

theorem fuelBound_dy (img template : Image) (fuel : Nat) (h : fuelBound img template < fuel) :
    template.Bounds.Dy.toNat < fuel := by
  unfold fuelBound at h; omega

/-- The result of a search over a row-major sorted list of positions, in terms of the
values of `compareRegion`. -/
theorem search_result (fuel : Nat) (img template : Image) (hx : 0 < template.Bounds.Dx)
    (hy : 0 < template.Bounds.Dy) (hfx : template.Bounds.Dx.toNat < fuel)
    (hfy : template.Bounds.Dy.toNat < fuel) (pts : List Point) (init res : Search)
    (hinit : init.bestScore = F64.fin (-1)) (hev : init.evals = [])
    (hsorted : pts.Pairwise RowMajorLT)
    (hres : res = pts.foldl (pick (scoreAt img template)) init) :
    res.evals = pts ∧
    (pts = [] → res.bestLoc = init.bestLoc ∧ res.bestScore = F64.fin (-1)) ∧
    (pts ≠ [] → res.bestLoc ∈ pts ∧
      compareRegion fuel img template res.bestLoc.X res.bestLoc.Y = some res.bestScore ∧
      ∀ p ∈ pts, ∃ sc, compareRegion fuel img template p.X p.Y = some sc ∧
        F64.le sc res.bestScore = true ∧ (sc = res.bestScore → RowMajorLE res.bestLoc p)) := by
  subst hres
  obtain ⟨h1, h2, h3⟩ := search_spec img template hx hy pts init hinit hev hsorted
  refine ⟨h1, h2, fun hne => ?_⟩
  obtain ⟨h4, h5, h6⟩ := h3 hne
  have hcr : ∀ p : Point, compareRegion fuel img template p.X p.Y =
      some (F64.fin (scoreQ img template p)) := by
    intro p
    rw [compareRegion_eq fuel img template p.X p.Y hfx hfy]
    exact congrArg some (scoreAt_fin img template p hx hy)
  refine ⟨h4, by rw [hcr, h5], fun p hp => ⟨_, hcr p, ?_, ?_⟩⟩
  · rw [h5]
    simp only [F64.le, decide_eq_true_eq]
    exact (h6 p hp).1
  · rw [h5]
    intro heq
    exact (h6 p hp).2 (F64.fin.inj heq)

/-- The refinement pass when `center ± radius` stays inside the Go `int`s: for a
non-empty template and enough fuel, `refineSearch` calls `compareRegion` exactly once at
each integer position within `radius` of the centre in both axes at which the template
lies inside the frame; it returns the highest of these scores together with the first
position in row-major order that attains it, and the centre with score `-1` when there is
no such position. -/
theorem refineSearch_window_best (fuel : Nat) (img template : Image) (center : Point)
    (radius : Int) (hx : 0 < template.Bounds.Dx) (hy : 0 < template.Bounds.Dy)
    (hx1 : InInt64 (center.X - radius)) (hx2 : InInt64 (center.X + radius))
    (hy1 : InInt64 (center.Y - radius)) (hy2 : InInt64 (center.Y + radius))
    (hfuel : fuelBound img template < fuel) :
    ∃ res : Search, refineSearch fuel img template center radius = some res ∧
      (∀ p, p ∈ res.evals ↔
        |p.X - center.X| ≤ radius ∧ |p.Y - center.Y| ≤ radius ∧ Fits img template p) ∧
      res.evals.Nodup ∧
      (res.evals = [] → res.bestLoc = center ∧ res.bestScore = F64.fin (-1)) ∧
      (res.evals ≠ [] → res.bestLoc ∈ res.evals ∧
        compareRegion fuel img template res.bestLoc.X res.bestLoc.Y = some res.bestScore ∧
        ∀ p ∈ res.evals, ∃ sc, compareRegion fuel img template p.X p.Y = some sc ∧
          F64.le sc res.bestScore = true ∧
          (sc = res.bestScore → RowMajorLE res.bestLoc p)) := by
  refine ⟨_, refineSearch_eq fuel img template center radius hfuel, ?_⟩
  obtain ⟨h1, h2, h3⟩ := search_result fuel img template hx hy
    (fuelBound_dx img template fuel hfuel) (fuelBound_dy img template fuel hfuel)
    (refineGrid img template center radius)
    { bestLoc := center, bestScore := F64.fin (-1), evals := [] } _ rfl rfl
    (refineGrid_sorted img template center radius) rfl
  rw [h1]
  refine ⟨fun p => mem_refineGrid img template center radius p hx1 hx2 hy1 hy2, ?_, h2, h3⟩
  exact grid_nodup _ _ (stride_sorted _ _ _ (le_refl _)) (stride_sorted _ _ _ (le_refl _))

/-- The refinement pass on the sample frame and template, around `(1, 1)` with radius 1. -/
theorem refineSearch_window_best_sample :
    0 < sampleTemplate.Bounds.Dx ∧ 0 < sampleTemplate.Bounds.Dy ∧
    fuelBound sampleFrame sampleTemplate < 11 ∧
    ∃ res : Search, refineSearch 11 sampleFrame sampleTemplate { X := 1, Y := 1 } 1 = some res ∧
      (∀ p, p ∈ res.evals ↔
        |p.X - 1| ≤ 1 ∧ |p.Y - 1| ≤ 1 ∧ Fits sampleFrame sampleTemplate p) ∧
      res.evals.Nodup ∧
      (res.evals = [] → res.bestLoc = { X := 1, Y := 1 } ∧ res.bestScore = F64.fin (-1)) ∧
      (res.evals ≠ [] → res.bestLoc ∈ res.evals ∧
        compareRegion 11 sampleFrame sampleTemplate res.bestLoc.X res.bestLoc.Y =
          some res.bestScore ∧
        ∀ p ∈ res.evals, ∃ sc, compareRegion 11 sampleFrame sampleTemplate p.X p.Y = some sc ∧
          F64.le sc res.bestScore = true ∧
          (sc = res.bestScore → RowMajorLE res.bestLoc p)) :=
  ⟨by decide, by decide, by decide,
    refineSearch_window_best 11 sampleFrame sampleTemplate { X := 1, Y := 1 } 1 (by decide)
      (by decide) (by decide) (by decide) (by decide) (by decide) (by decide)⟩

/-- C9: for a non-empty template that fits in the frame, a stride of at least one and
enough fuel, the coarse pass calls `compareRegion` exactly once at each position
`(minX + i * s, minY + j * s)` at which the template lies inside the frame; its best
position is one of them, its best score is the score there and the highest of all, and
among the positions with that score the best position is the first in row-major order. -/
theorem coarsePass_grid_best (fuel : Nat) (img template : Image) (s : Int)
    (hx : 0 < template.Bounds.Dx) (hy : 0 < template.Bounds.Dy)
    (hfitx : template.Bounds.Dx ≤ img.Bounds.Dx) (hfity : template.Bounds.Dy ≤ img.Bounds.Dy)
    (hs : 1 ≤ s) (hfuel : fuelBound img template < fuel) :
    ∃ res : Search, coarsePass fuel img template s = some res ∧
      (∀ p, p ∈ res.evals ↔
        (∃ i j : Nat, p.X = img.Bounds.Min.X + i * s ∧ p.Y = img.Bounds.Min.Y + j * s) ∧
          Fits img template p) ∧
      res.evals.Nodup ∧ res.bestLoc ∈ res.evals ∧
      compareRegion fuel img template res.bestLoc.X res.bestLoc.Y = some res.bestScore ∧
      ∀ p ∈ res.evals, ∃ sc, compareRegion fuel img template p.X p.Y = some sc ∧
        F64.le sc res.bestScore = true ∧
        (sc = res.bestScore → RowMajorLE res.bestLoc p) := by
  refine ⟨_, coarsePass_eq fuel img template s hs hfuel, ?_⟩
  obtain ⟨h1, _, h3⟩ := search_result fuel img template hx hy
    (fuelBound_dx img template fuel hfuel) (fuelBound_dy img template fuel hfuel)
    (coarseGrid img template s)
    { bestLoc := { X := 0, Y := 0 }, bestScore := F64.fin (-1), evals := [] } _ rfl rfl
    (coarseGrid_sorted img template s hs) rfl
  have hne : coarseGrid img template s ≠ [] := by
    have hmem : img.Bounds.Min ∈ coarseGrid img template s := by
      rw [mem_coarseGrid img template s hs]
      refine ⟨⟨0, 0, by simp, by simp⟩, le_refl _, ?_, le_refl _, ?_⟩
      · unfold Rectangle.Dx at hfitx ⊢; omega
      · unfold Rectangle.Dy at hfity ⊢; omega
    exact List.ne_nil_of_mem hmem
  obtain ⟨h4, h5, h6⟩ := h3 hne
  rw [h1]
  exact ⟨fun p => mem_coarseGrid img template s hs p,
    grid_nodup _ _ (stride_sorted _ _ _ hs) (stride_sorted _ _ _ hs), h4, h5, h6⟩

/-- C9, on the sample frame and template with stride 2. -/
theorem coarsePass_grid_best_witness :
    0 < sampleTemplate.Bounds.Dx ∧ 0 < sampleTemplate.Bounds.Dy ∧
    sampleTemplate.Bounds.Dx ≤ sampleFrame.Bounds.Dx ∧
    sampleTemplate.Bounds.Dy ≤ sampleFrame.Bounds.Dy ∧ (1 : Int) ≤ 2 ∧
    fuelBound sampleFrame sampleTemplate < 11 ∧
    ∃ res : Search, coarsePass 11 sampleFrame sampleTemplate 2 = some res ∧
      (∀ p, p ∈ res.evals ↔
        (∃ i j : Nat, p.X = sampleFrame.Bounds.Min.X + i * 2 ∧
          p.Y = sampleFrame.Bounds.Min.Y + j * 2) ∧ Fits sampleFrame sampleTemplate p) ∧
      res.evals.Nodup ∧ res.bestLoc ∈ res.evals ∧
      compareRegion 11 sampleFrame sampleTemplate res.bestLoc.X res.bestLoc.Y =
        some res.bestScore ∧
      ∀ p ∈ res.evals, ∃ sc, compareRegion 11 sampleFrame sampleTemplate p.X p.Y = some sc ∧
        F64.le sc res.bestScore = true ∧
        (sc = res.bestScore → RowMajorLE res.bestLoc p) :=
  ⟨by decide, by decide, by decide, by decide, by decide, by decide,
    coarsePass_grid_best 11 sampleFrame sampleTemplate 2 (by decide) (by decide) (by decide)
      (by decide) (by decide) (by decide)⟩

theorem F64.ge_of_gt {a b : F64} (h : F64.gt a b = true) : F64.ge a b = true := by
  cases a <;> cases b <;> simp_all [F64.gt, F64.ge, F64.lt, F64.le]
  exact le_of_lt h

theorem F64.ge_self {a : F64} (h : a ≠ F64.nan) : F64.ge a a = true := by
  cases a <;> simp_all [F64.ge, F64.le]

theorem templateMatch_eq (fuel : Nat) (img template : Image) (s r : Int) (coarse refine : Search)
    (hc : coarsePass fuel img template s = some coarse)
    (hr : refineSearch fuel img template coarse.bestLoc r = some refine) :
    templateMatch fuel img template s r =
      some (if F64.gt refine.bestScore coarse.bestScore then
        { bestLoc := refine.bestLoc, bestScore := refine.bestScore,
          evals := coarse.evals ++ refine.evals }
      else
        { bestLoc := coarse.bestLoc, bestScore := coarse.bestScore,
          evals := coarse.evals ++ refine.evals }) := by
  simp only [templateMatch, hc, Option.some_bind, hr, Option.map_some']

/-- C8: for a stride of at least one and enough fuel, `templateMatch` returns a score that
is `>=` the best score of its coarse pass; it returns the refinement result when the
refinement score is strictly higher than the coarse best, and the coarse result
otherwise. -/
theorem templateMatch_no_regression (fuel : Nat) (img template : Image) (s r : Int)
    (hs : 1 ≤ s) (hfuel : fuelBound img template < fuel) :
    ∃ coarse refine res : Search, coarsePass fuel img template s = some coarse ∧
      refineSearch fuel img template coarse.bestLoc r = some refine ∧
      templateMatch fuel img template s r = some res ∧
      F64.ge res.bestScore coarse.bestScore = true ∧
      (F64.gt refine.bestScore coarse.bestScore = true →
        res.bestLoc = refine.bestLoc ∧ res.bestScore = refine.bestScore) ∧
      (F64.gt refine.bestScore coarse.bestScore = false →
        res.bestLoc = coarse.bestLoc ∧ res.bestScore = coarse.bestScore) := by
  have hc := coarsePass_eq fuel img template s hs hfuel
  have hr := refineSearch_eq fuel img template
    ((coarseGrid img template s).foldl (pick (scoreAt img template))
      { bestLoc := { X := 0, Y := 0 }, bestScore := F64.fin (-1), evals := [] }).bestLoc r hfuel
  have hnan : ((coarseGrid img template s).foldl (pick (scoreAt img template))
      { bestLoc := { X := 0, Y := 0 }, bestScore := F64.fin (-1), evals := [] }).bestScore ≠
      F64.nan := foldl_pick_ne_nan _ _ _ (by simp)
  refine ⟨_, _, _, hc, hr, templateMatch_eq fuel img template s r _ _ hc hr, ?_, ?_, ?_⟩
  · split
    · next h => exact F64.ge_of_gt h
    · exact F64.ge_self hnan
  · intro h
    rw [if_pos h]
    exact ⟨rfl, rfl⟩
  · intro h
    rw [if_neg (by simp [h])]
    exact ⟨rfl, rfl⟩

/-- C8, on the sample frame and template with stride 2 and radius 1. -/
theorem templateMatch_no_regression_witness :
    (1 : Int) ≤ 2 ∧ fuelBound sampleFrame sampleTemplate < 11 ∧
    ∃ coarse refine res : Search, coarsePass 11 sampleFrame sampleTemplate 2 = some coarse ∧
      refineSearch 11 sampleFrame sampleTemplate coarse.bestLoc 1 = some refine ∧
      templateMatch 11 sampleFrame sampleTemplate 2 1 = some res ∧
      F64.ge res.bestScore coarse.bestScore = true ∧
      (F64.gt refine.bestScore coarse.bestScore = true →
        res.bestLoc = refine.bestLoc ∧ res.bestScore = refine.bestScore) ∧
      (F64.gt refine.bestScore coarse.bestScore = false →
        res.bestLoc = coarse.bestLoc ∧ res.bestScore = coarse.bestScore) :=
  ⟨by decide, by decide,
    templateMatch_no_regression 11 sampleFrame sampleTemplate 2 1 (by decide) (by decide)⟩

theorem grid_nil_left (xs : List Int) : grid [] xs = [] := rfl

theorem grid_nil_right (ys : List Int) : grid ys [] = [] := by
  induction ys with
  | nil => rfl
  | cons y ys ih =>
    simp only [grid, List.flatMap_cons, List.map_nil, List.nil_append] at ih ⊢
    exact ih

theorem RowMajorLE.eq_or_lt {p q : Point} (h : RowMajorLE p q) : p = q ∨ RowMajorLT p q := by
  rcases h with h | ⟨h1, h2⟩
  · exact Or.inr (Or.inl h)
  · rcases eq_or_lt_of_le h2 with h3 | h3
    · left
      cases p; cases q
      simp only [Point.mk.injEq]
      exact ⟨h3, h1⟩
    · exact Or.inr (Or.inr ⟨h1, h3⟩)

/-- When a position `p0` of the coarse grid holds an identical copy of a non-empty
template, `templateMatch` returns the score 1 at the first position of the coarse grid,
in row-major order, that holds an identical copy. -/
theorem templateMatch_copy (fuel : Nat) (img template : Image) (s r : Int) (p0 : Point)
    (hx : 0 < template.Bounds.Dx) (hy : 0 < template.Bounds.Dy) (hs : 1 ≤ s)
    (hfuel : fuelBound img template < fuel)
    (hp0 : p0 ∈ coarseGrid img template s) (hid : RegionIdentical img template p0) :
    ∃ res : Search, templateMatch fuel img template s r = some res ∧
      res.bestScore = F64.fin 1 ∧ res.bestLoc ∈ coarseGrid img template s ∧
      RegionIdentical img template res.bestLoc ∧
      ∀ p ∈ coarseGrid img template s, RegionIdentical img template p →
        RowMajorLE res.bestLoc p := by
  have hc := coarsePass_eq fuel img template s hs hfuel
  obtain ⟨_, _, h3⟩ := search_spec img template hx hy (coarseGrid img template s)
    { bestLoc := { X := 0, Y := 0 }, bestScore := F64.fin (-1), evals := [] } rfl rfl
    (coarseGrid_sorted img template s hs)
  obtain ⟨h4, h5, h6⟩ := h3 (List.ne_nil_of_mem hp0)
  generalize hcoarse : (coarseGrid img template s).foldl (pick (scoreAt img template))
    { bestLoc := { X := 0, Y := 0 }, bestScore := F64.fin (-1), evals := [] } = coarse
    at hc h4 h5 h6
  have hone : ∀ p, RegionIdentical img template p → scoreQ img template p = 1 :=
    fun p hp => (scoreQ_eq_one_iff img template p hx hy).mpr hp
  have hle : ∀ p, scoreQ img template p ≤ 1 :=
    fun p => (scoreQ_bounds img template p.X p.Y hx hy).2
  have hbest : scoreQ img template coarse.bestLoc = 1 :=
    le_antisymm (hle _) (hone p0 hid ▸ (h6 p0 hp0).1)
  have hr := refineSearch_eq fuel img template coarse.bestLoc r hfuel
  obtain ⟨rb, h7, _, h9, h10⟩ := foldl_pick_fin (scoreQ img template) (scoreAt img template)
    (refineGrid img template coarse.bestLoc r)
    { bestLoc := coarse.bestLoc, bestScore := F64.fin (-1), evals := [] } (-1)
    (fun p _ => scoreAt_fin img template p hx hy) rfl
  generalize hrefine : (refineGrid img template coarse.bestLoc r).foldl
    (pick (scoreAt img template))
    { bestLoc := coarse.bestLoc, bestScore := F64.fin (-1), evals := [] } = refine
    at hr h7 h9 h10
  have hrb : rb ≤ 1 := by
    rcases h10 with ⟨h, _⟩ | ⟨_, _, _, h, _⟩
    · rw [h]; norm_num
    · rw [h]; exact hle _
  have hgt : F64.gt refine.bestScore coarse.bestScore = false := by
    rw [h7, h5, hbest]
    simp only [F64.gt, F64.lt, decide_eq_false_iff_not, not_lt]
    exact hrb
  refine ⟨_, templateMatch_eq fuel img template s r coarse refine hc hr, ?_⟩
  rw [hgt]
  simp only [Bool.false_eq_true, if_false]
  refine ⟨by rw [h5, hbest], h4, (scoreQ_eq_one_iff img template _ hx hy).mp hbest, ?_⟩
  intro p hp hidp
  exact (h6 p hp).2 ((hone p hidp).trans hbest.symm)

/-- C3, as amended: for a frame with origin `(0, 0)` that holds an identical copy of a
non-empty template at `(40, 60)`, a stride `s >= 1` dividing 40 and 60, a radius
`r >= s` and enough fuel, `templateMatch` returns the score 1 and a position of the
coarse grid that holds an identical copy, the first such position in row-major order;
this position is `(40, 60)` when no position of the coarse grid before `(40, 60)` in
row-major order holds an identical copy. -/
theorem templateMatch_recovers_copy (fuel : Nat) (img template : Image) (s r : Int)
    (horigin : img.Bounds.Min = { X := 0, Y := 0 })
    (hx : 0 < template.Bounds.Dx) (hy : 0 < template.Bounds.Dy)
    (hfit : Fits img template { X := 40, Y := 60 })
    (hid : RegionIdentical img template { X := 40, Y := 60 })
    (hs : 1 ≤ s) (h40 : s ∣ 40) (h60 : s ∣ 60) (_hr : s ≤ r)
    (hfuel : fuelBound img template < fuel) :
    ∃ res : Search, templateMatch fuel img template s r = some res ∧
      res.bestScore = F64.fin 1 ∧
      ((∃ i j : Nat, res.bestLoc.X = i * s ∧ res.bestLoc.Y = j * s) ∧
        Fits img template res.bestLoc) ∧
      RegionIdentical img template res.bestLoc ∧
      (∀ p : Point, (∃ i j : Nat, p.X = i * s ∧ p.Y = j * s) → Fits img template p →
        RegionIdentical img template p → RowMajorLE res.bestLoc p) ∧
      ((∀ p : Point, (∃ i j : Nat, p.X = i * s ∧ p.Y = j * s) → Fits img template p →
        RowMajorLT p { X := 40, Y := 60 } → ¬ RegionIdentical img template p) →
        res.bestLoc = { X := 40, Y := 60 }) := by
  have hmem : ∀ p : Point, p ∈ coarseGrid img template s ↔
      (∃ i j : Nat, p.X = i * s ∧ p.Y = j * s) ∧ Fits img template p := by
    intro p
    rw [mem_coarseGrid img template s hs, horigin]
    simp only [zero_add]
  have hp0 : ({ X := 40, Y := 60 } : Point) ∈ coarseGrid img template s := by
    rw [hmem]
    obtain ⟨a, ha⟩ := h40
    obtain ⟨b, hb⟩ := h60
    have ha0 : 0 ≤ a := by nlinarith
    have hb0 : 0 ≤ b := by nlinarith
    refine ⟨⟨a.toNat, b.toNat, ?_, ?_⟩, hfit⟩
    · rw [Int.toNat_of_nonneg ha0, mul_comm]; exact ha
    · rw [Int.toNat_of_nonneg hb0, mul_comm]; exact hb
  obtain ⟨res, h1, h2, h3, h4, h5⟩ :=
    templateMatch_copy fuel img template s r _ hx hy hs hfuel hp0 hid
  refine ⟨res, h1, h2, (hmem _).mp h3, h4, ?_, ?_⟩
  · intro p hp hfitp hidp
    exact h5 p ((hmem p).mpr ⟨hp, hfitp⟩) hidp
  · intro hnone
    rcases (h5 _ hp0 hid).eq_or_lt with h | h
    · exact h
    · exact absurd h4 (hnone res.bestLoc ((hmem _).mp h3).1 ((hmem _).mp h3).2 h)

theorem dotFrame_copy : RegionIdentical dotFrame whiteDot { X := 40, Y := 60 } := by
  intro ty tx hty htx
  have hty0 : ty = 0 := by
    have h : (ty : Int) < 1 := hty
    omega
  have htx0 : tx = 0 := by
    have h : (tx : Int) < 1 := htx
    omega
  subst hty0 htx0
  decide

theorem dotFrame_no_earlier_copy (p : Point) (hlt : RowMajorLT p { X := 40, Y := 60 }) :
    ¬ RegionIdentical dotFrame whiteDot p := by
  intro hid
  have h := (hid 0 0 (by decide) (by decide)).1
  have hne : ¬ (p.X + ((0 : Nat) : Int) = 40 ∧ p.Y + ((0 : Nat) : Int) = 60) := by
    rintro ⟨hx, hy⟩
    rcases hlt with h1 | ⟨h1, h2⟩
    · simp only at h1
      omega
    · simp only at h1 h2
      omega
  simp only [dotFrame, whiteDot, hne, if_false] at h
  exact absurd h (by decide)

/-- C3, as amended, on the black frame with one white pixel at `(40, 60)` and the white
one-pixel template, with stride 20 and radius 20: no position before `(40, 60)` holds a
copy, and `templateMatch` returns `(40, 60)` with score 1. -/
theorem templateMatch_recovers_copy_witness :
    dotFrame.Bounds.Min = { X := 0, Y := 0 } ∧
    0 < whiteDot.Bounds.Dx ∧ 0 < whiteDot.Bounds.Dy ∧
    Fits dotFrame whiteDot { X := 40, Y := 60 } ∧
    RegionIdentical dotFrame whiteDot { X := 40, Y := 60 } ∧
    (1 : Int) ≤ 20 ∧ (20 : Int) ∣ 40 ∧ (20 : Int) ∣ 60 ∧ (20 : Int) ≤ 20 ∧
    fuelBound dotFrame whiteDot < 105 ∧
    (∀ p : Point, (∃ i j : Nat, p.X = i * 20 ∧ p.Y = j * 20) → Fits dotFrame whiteDot p →
      RowMajorLT p { X := 40, Y := 60 } → ¬ RegionIdentical dotFrame whiteDot p) ∧
    ∃ res : Search, templateMatch 105 dotFrame whiteDot 20 20 = some res ∧
      res.bestScore = F64.fin 1 ∧ res.bestLoc = { X := 40, Y := 60 } := by
  obtain ⟨res, h1, h2, _, _, _, h6⟩ :=
    templateMatch_recovers_copy 105 dotFrame whiteDot 20 20 rfl (by decide) (by decide)
      (by decide) dotFrame_copy (by decide) (by decide) (by decide) (by decide) (by decide)
  exact ⟨rfl, by decide, by decide, by decide, dotFrame_copy, by decide, by decide, by decide,
    by decide, by decide, fun p _ _ hlt => dotFrame_no_earlier_copy p hlt,
    res, h1, h2, h6 fun p _ _ hlt => dotFrame_no_earlier_copy p hlt⟩

/-- C3 fails when the frame holds a second copy earlier on the coarse grid: the black
frame holds a copy of the black one-pixel template at `(40, 60)`, and with stride 20 and
radius 20 `templateMatch` returns the position `(0, 0)`. -/
theorem templateMatch_returns_earlier_copy :
    blackFrame.Bounds.Min = { X := 0, Y := 0 } ∧
    0 < blackDot.Bounds.Dx ∧ 0 < blackDot.Bounds.Dy ∧
    Fits blackFrame blackDot { X := 40, Y := 60 } ∧
    RegionIdentical blackFrame blackDot { X := 40, Y := 60 } ∧
    (1 : Int) ≤ 20 ∧ (20 : Int) ∣ 40 ∧ (20 : Int) ∣ 60 ∧ (20 : Int) ≤ 20 ∧
    ∃ res : Search, templateMatch 105 blackFrame blackDot 20 20 = some res ∧
      res.bestLoc = { X := 0, Y := 0 } ∧ res.bestLoc ≠ { X := 40, Y := 60 } := by
  have hid : ∀ p : Point, RegionIdentical blackFrame blackDot p :=
    fun _ _ _ _ _ => ⟨rfl, rfl, rfl⟩
  have hmem : ∀ p : Point, p ∈ coarseGrid blackFrame blackDot 20 ↔
      (∃ i j : Nat, p.X = blackFrame.Bounds.Min.X + i * 20 ∧
        p.Y = blackFrame.Bounds.Min.Y + j * 20) ∧ Fits blackFrame blackDot p :=
    fun p => mem_coarseGrid blackFrame blackDot 20 (by decide) p
  have hp0 : ({ X := 40, Y := 60 } : Point) ∈ coarseGrid blackFrame blackDot 20 :=
    (hmem _).mpr ⟨⟨2, 3, by decide, by decide⟩, by decide⟩
  have h00 : ({ X := 0, Y := 0 } : Point) ∈ coarseGrid blackFrame blackDot 20 :=
    (hmem _).mpr ⟨⟨0, 0, by decide, by decide⟩, by decide⟩
  obtain ⟨res, h1, _, h3, _, h5⟩ := templateMatch_copy 105 blackFrame blackDot 20 20 _
    (by decide) (by decide) (by decide) (by decide) hp0 (hid _)
  have hloc : res.bestLoc = { X := 0, Y := 0 } := by
    obtain ⟨⟨i, j, hi, hj⟩, _⟩ := (hmem _).mp h3
    have hxi : (0 : Int) ≤ res.bestLoc.X := by
      rw [hi]; simp only [blackFrame]; positivity
    have hyj : (0 : Int) ≤ res.bestLoc.Y := by
      rw [hj]; simp only [blackFrame]; positivity
    rcases h5 _ h00 (hid _) with h | ⟨h, h'⟩
    · simp only at h; omega
    · simp only at h h'
      cases hres : res.bestLoc with
      | mk X Y =>
        rw [hres] at h h' hxi
        simp only at h h' hxi
        simp only [Point.mk.injEq]
        omega
  refine ⟨rfl, by decide, by decide, by decide, hid _, by decide, by decide, by decide,
    by decide, res, h1, hloc, ?_⟩
  rw [hloc]
  decide

/-- When the template is wider or taller than the frame, neither pass has a position to
score: `templateMatch` returns its initial best, `(0, 0)` with score `-1`. -/
theorem templateMatch_oversized (fuel : Nat) (img template : Image) (s r : Int) (hs : 1 ≤ s)
    (hfuel : fuelBound img template < fuel)
    (hbig : img.Bounds.Dx < template.Bounds.Dx ∨ img.Bounds.Dy < template.Bounds.Dy) :
    templateMatch fuel img template s r =
      some { bestLoc := { X := 0, Y := 0 }, bestScore := F64.fin (-1), evals := [] } := by
  have hcg : coarseGrid img template s = [] := by
    unfold coarseGrid
    rcases hbig with h | h
    · rw [stride_eq_nil img.Bounds.Min.X _ s (by unfold Rectangle.Dx at *; omega)]
      exact grid_nil_right _
    · rw [stride_eq_nil img.Bounds.Min.Y _ s (by unfold Rectangle.Dy at *; omega)]
      exact grid_nil_left _
  have hrg : refineGrid img template { X := 0, Y := 0 } r = [] := by
    unfold refineGrid
    rcases hbig with h | h
    · have hlt : min (img.Bounds.Max.X - template.Bounds.Dx)
            (wrap64 (({ X := 0, Y := 0 } : Point).X + r)) <
          max img.Bounds.Min.X (wrap64 (({ X := 0, Y := 0 } : Point).X - r)) := by
        have h1 := min_le_left (img.Bounds.Max.X - template.Bounds.Dx)
          (wrap64 (({ X := 0, Y := 0 } : Point).X + r))
        have h2 := le_max_left img.Bounds.Min.X (wrap64 (({ X := 0, Y := 0 } : Point).X - r))
        unfold Rectangle.Dx at *
        omega
      rw [stride_eq_nil _ _ 1 hlt]
      exact grid_nil_right _
    · have hlt : min (img.Bounds.Max.Y - template.Bounds.Dy)
            (wrap64 (({ X := 0, Y := 0 } : Point).Y + r)) <
          max img.Bounds.Min.Y (wrap64 (({ X := 0, Y := 0 } : Point).Y - r)) := by
        have h1 := min_le_left (img.Bounds.Max.Y - template.Bounds.Dy)
          (wrap64 (({ X := 0, Y := 0 } : Point).Y + r))
        have h2 := le_max_left img.Bounds.Min.Y (wrap64 (({ X := 0, Y := 0 } : Point).Y - r))
        unfold Rectangle.Dy at *
        omega
      rw [stride_eq_nil _ _ 1 hlt]
      exact grid_nil_left _
  have hc := coarsePass_eq fuel img template s hs hfuel
  rw [hcg, foldl_pick_nil] at hc
  have hr := refineSearch_eq fuel img template { X := 0, Y := 0 } r hfuel
  rw [hrg, foldl_pick_nil] at hr
  rw [templateMatch_eq fuel img template s r _ _ hc hr]
  simp [F64.gt, F64.lt]

/-- C4, as amended: for a template wider or taller than the frame, a stride of at least
one, any radius and enough fuel, `templateMatch` returns the position `(0, 0)` with the
score `-1` (no error value exists), and calls `compareRegion` at no position. -/
theorem templateMatch_template_too_large (fuel : Nat) (img template : Image) (s r : Int)
    (hs : 1 ≤ s) (hfuel : fuelBound img template < fuel)
    (hbig : img.Bounds.Dx < template.Bounds.Dx ∨ img.Bounds.Dy < template.Bounds.Dy) :
    ∃ res : Search, templateMatch fuel img template s r = some res ∧
      res.bestLoc = { X := 0, Y := 0 } ∧ res.bestScore = F64.fin (-1) ∧ res.evals = [] :=
  ⟨_, templateMatch_oversized fuel img template s r hs hfuel hbig, rfl, rfl, rfl⟩

/-- C4, as amended, on the one-pixel frame and the 2x2 sample template. -/
theorem templateMatch_template_too_large_witness :
    (1 : Int) ≤ 16 ∧ fuelBound tinyFrame sampleTemplate < 5 ∧
    (tinyFrame.Bounds.Dx < sampleTemplate.Bounds.Dx ∨
      tinyFrame.Bounds.Dy < sampleTemplate.Bounds.Dy) ∧
    ∃ res : Search, templateMatch 5 tinyFrame sampleTemplate 16 24 = some res ∧
      res.bestLoc = { X := 0, Y := 0 } ∧ res.bestScore = F64.fin (-1) ∧ res.evals = [] :=
  ⟨by decide, by decide, by decide,
    templateMatch_template_too_large 5 tinyFrame sampleTemplate 16 24 (by decide) (by decide)
      (by decide)⟩

/-- C4 fails on the one-pixel frame and the 2x2 sample template: `templateMatch` yields a
match result, the position `(0, 0)` with the score `-1`, and not an error. -/
theorem templateMatch_oversized_returns_result :
    (tinyFrame.Bounds.Dx < sampleTemplate.Bounds.Dx ∨
      tinyFrame.Bounds.Dy < sampleTemplate.Bounds.Dy) ∧
    templateMatch 5 tinyFrame sampleTemplate 16 24 =
      some { bestLoc := { X := 0, Y := 0 }, bestScore := F64.fin (-1), evals := [] } :=
  ⟨by decide,
    templateMatch_oversized 5 tinyFrame sampleTemplate 16 24 (by decide) (by decide)
      (by decide)⟩

theorem forLoop_zero_step_none {σ : Type} (cond : Int → Bool) (body : Int → σ → Option σ)
    (i : Int) (st : σ) (hcond : cond i = true) (hbody : body i st = some st ∨ body i st = none) :
    ∀ fuel : Nat, forLoop cond 0 body fuel i st = none := by
  intro fuel
  induction fuel with
  | zero => rfl
  | succ f ih =>
    rcases hbody with h | h
    · simp only [forLoop, hcond, if_true, h, Option.some_bind, add_zero]
      exact ih
    · simp only [forLoop, hcond, if_true, h, Option.none_bind]

/-- With the stride 0 and a template that is wider than the frame and not taller, the
outer loop of the coarse pass never ends: no amount of fuel gives a result. -/
theorem templateMatch_zero_stride_diverges (fuel : Nat) (r : Int) :
    templateMatch fuel sampleFrame wideTemplate 0 r = none := by
  have h : coarsePass fuel sampleFrame wideTemplate 0 = none := by
    unfold coarsePass
    apply forLoop_zero_step_none
    · decide
    · cases fuel with
      | zero => right; rfl
      | succ f =>
        left
        have hc : ¬ (sampleFrame.Bounds.Min.X ≤
            sampleFrame.Bounds.Max.X - wideTemplate.Bounds.Dx) := by decide
        simp only [forLoop, hc, decide_False, Bool.false_eq_true, if_false]
  simp only [templateMatch, h, Option.none_bind]

/-! ## Capture failure -/

theorem findColorInArea_capture_error (fuel : Nat) (config : Config) (scr : Screen)
    (err : String) (hcap : scr.capture = Except.error err) :
    findColorInArea fuel config scr =
      some ([Effect.status { Message := "Ошибка захвата экрана: " ++ err, Level := "error" }],
        (false, 0)) := by
  simp only [findColorInArea, hcap]

theorem findAndClickImage_capture_error (fuel : Nat) (imagePath : String) (config : Config)
    (scr : Screen) (load : String → Except String Image) (err : String)
    (hcap : scr.capture = Except.error err) :
    findAndClickImage fuel imagePath config scr load =
      some ([Effect.logPrintf ("Ошибка захвата экрана: " ++ err ++ "\n")], false) := by
  simp only [findAndClickImage, hcap]

/-! ## Template matcher: termination, consistency, exhaustive search -/

/-- The value of `templateMatch` for a stride of at least one does not depend on the
fuel. -/
theorem templateMatch_value (fuel : Nat) (img template : Image) (s r : Int) (hs : 1 ≤ s)
    (hfuel : fuelBound img template < fuel) :
    templateMatch fuel img template s r = some (matchResult img template s r) :=
  templateMatch_eq fuel img template s r _ _ (coarsePass_eq fuel img template s hs hfuel)
    (refineSearch_eq fuel img template _ r hfuel)

/-- C16: for every frame, template, stride `s >= 1` and radius, `templateMatch`
terminates: there is one result that every amount of fuel above `fuelBound` yields (each
loop makes at most that many passes). The bound on the stride is needed: with stride 0
and the wide template no amount of fuel yields a result. -/
theorem templateMatch_terminates (img template : Image) (s r : Int) (hs : 1 ≤ s) :
    (∃ res : Search, ∀ fuel : Nat, fuelBound img template < fuel →
      templateMatch fuel img template s r = some res) ∧
    (∀ fuel : Nat, templateMatch fuel sampleFrame wideTemplate 0 r = none) :=
  ⟨⟨_, fun fuel hfuel => templateMatch_value fuel img template s r hs hfuel⟩,
    fun fuel => templateMatch_zero_stride_diverges fuel r⟩

/-- C16, on the sample frame and template with stride 16 and the radius -3. -/
theorem templateMatch_terminates_witness :
    (1 : Int) ≤ 16 ∧
    ((∃ res : Search, ∀ fuel : Nat, fuelBound sampleFrame sampleTemplate < fuel →
      templateMatch fuel sampleFrame sampleTemplate 16 (-3) = some res) ∧
    (∀ fuel : Nat, templateMatch fuel sampleFrame wideTemplate 0 (-3) = none)) :=
  ⟨by decide, templateMatch_terminates sampleFrame sampleTemplate 16 (-3) (by decide)⟩

theorem compareRegion_scoreQ (fuel : Nat) (img template : Image) (p : Point)
    (hx : 0 < template.Bounds.Dx) (hy : 0 < template.Bounds.Dy)
    (hfuel : fuelBound img template < fuel) :
    compareRegion fuel img template p.X p.Y = some (F64.fin (scoreQ img template p)) := by
  rw [compareRegion_eq fuel img template p.X p.Y (fuelBound_dx img template fuel hfuel)
    (fuelBound_dy img template fuel hfuel)]
  exact congrArg some (scoreAt_fin img template p hx hy)

theorem coarseGrid_ne_nil (img template : Image) (s : Int) (hs : 1 ≤ s)
    (hfitx : template.Bounds.Dx ≤ img.Bounds.Dx) (hfity : template.Bounds.Dy ≤ img.Bounds.Dy) :
    coarseGrid img template s ≠ [] := by
  have hmem : img.Bounds.Min ∈ coarseGrid img template s := by
    rw [mem_coarseGrid img template s hs]
    refine ⟨⟨0, 0, by simp, by simp⟩, le_refl _, ?_, le_refl _, ?_⟩
    · unfold Rectangle.Dx at hfitx ⊢; omega
    · unfold Rectangle.Dy at hfity ⊢; omega
  exact List.ne_nil_of_mem hmem

/-- The coarse result for a non-empty template that fits: a position of the grid with the
highest score, the first such in row-major order. -/
theorem coarseResult_spec (img template : Image) (s : Int)
    (hx : 0 < template.Bounds.Dx) (hy : 0 < template.Bounds.Dy)
    (hfitx : template.Bounds.Dx ≤ img.Bounds.Dx) (hfity : template.Bounds.Dy ≤ img.Bounds.Dy)
    (hs : 1 ≤ s) :
    (coarseResult img template s).bestLoc ∈ coarseGrid img template s ∧
    (coarseResult img template s).bestScore =
      F64.fin (scoreQ img template (coarseResult img template s).bestLoc) ∧
    ∀ p ∈ coarseGrid img template s,
      scoreQ img template p ≤ scoreQ img template (coarseResult img template s).bestLoc ∧
      (scoreQ img template p = scoreQ img template (coarseResult img template s).bestLoc →
        RowMajorLE (coarseResult img template s).bestLoc p) :=
  (search_spec img template hx hy (coarseGrid img template s)
    { bestLoc := { X := 0, Y := 0 }, bestScore := F64.fin (-1), evals := [] } rfl rfl
    (coarseGrid_sorted img template s hs)).2.2
    (coarseGrid_ne_nil img template s hs hfitx hfity)

/-- The refinement result for a non-empty template: either no position was scored and
the score is `-1`, or the result is a scored position with its score. -/
theorem refineResult_spec (img template : Image) (center : Point) (r : Int)
    (hx : 0 < template.Bounds.Dx) (hy : 0 < template.Bounds.Dy) :
    (refineResult img template center r).bestScore = F64.fin (-1) ∨
    ((refineResult img template center r).bestLoc ∈ refineGrid img template center r ∧
      (refineResult img template center r).bestScore =
        F64.fin (scoreQ img template (refineResult img template center r).bestLoc)) := by
  obtain ⟨_, h2, h3⟩ := search_spec img template hx hy (refineGrid img template center r)
    { bestLoc := center, bestScore := F64.fin (-1), evals := [] } rfl rfl
    (refineGrid_sorted img template center r)
  by_cases hnil : refineGrid img template center r = []
  · exact Or.inl (h2 hnil).2
  · exact Or.inr ⟨(h3 hnil).1, (h3 hnil).2.1⟩

/-- C17: for a non-empty template that fits in the frame, a stride of at least one, any
radius and enough fuel, `templateMatch` returns a position at which the template lies
inside the frame together with the value of `compareRegion` at that position. -/
theorem templateMatch_consistent (fuel : Nat) (img template : Image) (s r : Int)
    (hx : 0 < template.Bounds.Dx) (hy : 0 < template.Bounds.Dy)
    (hfitx : template.Bounds.Dx ≤ img.Bounds.Dx) (hfity : template.Bounds.Dy ≤ img.Bounds.Dy)
    (hs : 1 ≤ s) (hfuel : fuelBound img template < fuel) :
    ∃ res : Search, templateMatch fuel img template s r = some res ∧
      Fits img template res.bestLoc ∧
      compareRegion fuel img template res.bestLoc.X res.bestLoc.Y = some res.bestScore := by
  refine ⟨_, templateMatch_value fuel img template s r hs hfuel, ?_⟩
  obtain ⟨hc1, hc2, _⟩ := coarseResult_spec img template s hx hy hfitx hfity hs
  have hq := (scoreQ_bounds img template (coarseResult img template s).bestLoc.X
    (coarseResult img template s).bestLoc.Y hx hy).1
  unfold matchResult
  split
  · next hgt =>
    rcases refineResult_spec img template (coarseResult img template s).bestLoc r hx hy with
      h | ⟨h1, h2⟩
    · rw [h, hc2] at hgt
      simp only [F64.gt, F64.lt, decide_eq_true_eq] at hgt
      have : (0 : ℚ) ≤ scoreQ img template (coarseResult img template s).bestLoc := hq
      linarith
    · refine ⟨(refineGrid_fits img template _ r _ h1), ?_⟩
      simp only
      rw [h2]
      exact compareRegion_scoreQ fuel img template _ hx hy hfuel
  · refine ⟨((mem_coarseGrid img template s hs _).mp hc1).2, ?_⟩
    simp only
    rw [hc2]
    exact compareRegion_scoreQ fuel img template _ hx hy hfuel

/-- C17, on the sample frame and template with stride 2 and radius 1. -/
theorem templateMatch_consistent_witness :
    0 < sampleTemplate.Bounds.Dx ∧ 0 < sampleTemplate.Bounds.Dy ∧
    sampleTemplate.Bounds.Dx ≤ sampleFrame.Bounds.Dx ∧
    sampleTemplate.Bounds.Dy ≤ sampleFrame.Bounds.Dy ∧ (1 : Int) ≤ 2 ∧
    fuelBound sampleFrame sampleTemplate < 11 ∧
    ∃ res : Search, templateMatch 11 sampleFrame sampleTemplate 2 1 = some res ∧
      Fits sampleFrame sampleTemplate res.bestLoc ∧
      compareRegion 11 sampleFrame sampleTemplate res.bestLoc.X res.bestLoc.Y =
        some res.bestScore :=
  ⟨by decide, by decide, by decide, by decide, by decide, by decide,
    templateMatch_consistent 11 sampleFrame sampleTemplate 2 1 (by decide) (by decide)
      (by decide) (by decide) (by decide) (by decide)⟩

theorem mem_coarseGrid_one (img template : Image) (p : Point) :
    p ∈ coarseGrid img template 1 ↔ Fits img template p := by
  rw [mem_coarseGrid img template 1 (le_refl _)]
  constructor
  · exact fun h => h.2
  · intro h
    refine ⟨⟨(p.X - img.Bounds.Min.X).toNat, (p.Y - img.Bounds.Min.Y).toNat, ?_, ?_⟩, h⟩
    · have := h.1; omega
    · have := h.2.2.1; omega

/-- C18: with the coarse stride 1, for a non-empty template that fits in the frame, any
radius and enough fuel, `templateMatch` returns the result of its coarse pass (the
refinement changes nothing), and this is the exhaustive optimum: the highest value of
`compareRegion` over all positions at which the template lies inside the frame, at the
first position in row-major order that attains it. -/
theorem templateMatch_stride_one_exhaustive (fuel : Nat) (img template : Image) (r : Int)
    (hx : 0 < template.Bounds.Dx) (hy : 0 < template.Bounds.Dy)
    (hfitx : template.Bounds.Dx ≤ img.Bounds.Dx) (hfity : template.Bounds.Dy ≤ img.Bounds.Dy)
    (hfuel : fuelBound img template < fuel) :
    ∃ res coarse : Search, templateMatch fuel img template 1 r = some res ∧
      coarsePass fuel img template 1 = some coarse ∧
      res.bestLoc = coarse.bestLoc ∧ res.bestScore = coarse.bestScore ∧
      Fits img template res.bestLoc ∧
      compareRegion fuel img template res.bestLoc.X res.bestLoc.Y = some res.bestScore ∧
      ∀ p : Point, Fits img template p →
        ∃ sc, compareRegion fuel img template p.X p.Y = some sc ∧
          F64.le sc res.bestScore = true ∧ (sc = res.bestScore → RowMajorLE res.bestLoc p) := by
  obtain ⟨hc1, hc2, hc3⟩ := coarseResult_spec img template 1 hx hy hfitx hfity (le_refl _)
  have hgt : F64.gt (refineResult img template (coarseResult img template 1).bestLoc r).bestScore
      (coarseResult img template 1).bestScore = false := by
    have hq := (scoreQ_bounds img template (coarseResult img template 1).bestLoc.X
      (coarseResult img template 1).bestLoc.Y hx hy).1
    have hq' : (0 : ℚ) ≤ scoreQ img template (coarseResult img template 1).bestLoc := hq
    rcases refineResult_spec img template (coarseResult img template 1).bestLoc r hx hy with
      h | ⟨h1, h2⟩
    · rw [h, hc2]
      simp only [F64.gt, F64.lt, decide_eq_false_iff_not, not_lt]
      linarith
    · rw [h2, hc2]
      simp only [F64.gt, F64.lt, decide_eq_false_iff_not, not_lt]
      exact (hc3 _ ((mem_coarseGrid_one img template _).mpr
        (refineGrid_fits img template _ r _ h1))).1
  have hres : matchResult img template 1 r =
      { bestLoc := (coarseResult img template 1).bestLoc,
        bestScore := (coarseResult img template 1).bestScore,
        evals := (coarseResult img template 1).evals ++
          (refineResult img template (coarseResult img template 1).bestLoc r).evals } := by
    unfold matchResult
    rw [hgt]
    rfl
  refine ⟨_, _, templateMatch_value fuel img template 1 r (le_refl _) hfuel,
    coarsePass_eq fuel img template 1 (le_refl _) hfuel, ?_⟩
  rw [hres]
  refine ⟨rfl, rfl, (mem_coarseGrid_one img template _).mp hc1, ?_, ?_⟩
  · show compareRegion fuel img template (coarseResult img template 1).bestLoc.X
      (coarseResult img template 1).bestLoc.Y = some (coarseResult img template 1).bestScore
    rw [hc2]
    exact compareRegion_scoreQ fuel img template _ hx hy hfuel
  · intro p hp
    refine ⟨_, compareRegion_scoreQ fuel img template p hx hy hfuel, ?_, ?_⟩
    · show F64.le (F64.fin (scoreQ img template p)) (coarseResult img template 1).bestScore = true
      rw [hc2]
      simp only [F64.le, decide_eq_true_eq]
      exact (hc3 p ((mem_coarseGrid_one img template p).mpr hp)).1
    · show F64.fin (scoreQ img template p) = (coarseResult img template 1).bestScore →
        RowMajorLE (coarseResult img template 1).bestLoc p
      rw [hc2]
      intro heq
      exact (hc3 p ((mem_coarseGrid_one img template p).mpr hp)).2 (F64.fin.inj heq)

/-- C18, on the sample frame and template with radius 24. -/
theorem templateMatch_stride_one_exhaustive_witness :
    0 < sampleTemplate.Bounds.Dx ∧ 0 < sampleTemplate.Bounds.Dy ∧
    sampleTemplate.Bounds.Dx ≤ sampleFrame.Bounds.Dx ∧
    sampleTemplate.Bounds.Dy ≤ sampleFrame.Bounds.Dy ∧
    fuelBound sampleFrame sampleTemplate < 11 ∧
    ∃ res coarse : Search, templateMatch 11 sampleFrame sampleTemplate 1 24 = some res ∧
      coarsePass 11 sampleFrame sampleTemplate 1 = some coarse ∧
      res.bestLoc = coarse.bestLoc ∧ res.bestScore = coarse.bestScore ∧
      Fits sampleFrame sampleTemplate res.bestLoc ∧
      compareRegion 11 sampleFrame sampleTemplate res.bestLoc.X res.bestLoc.Y =
        some res.bestScore ∧
      ∀ p : Point, Fits sampleFrame sampleTemplate p →
        ∃ sc, compareRegion 11 sampleFrame sampleTemplate p.X p.Y = some sc ∧
          F64.le sc res.bestScore = true ∧ (sc = res.bestScore → RowMajorLE res.bestLoc p) :=
  ⟨by decide, by decide, by decide, by decide, by decide,
    templateMatch_stride_one_exhaustive 11 sampleFrame sampleTemplate 24 (by decide) (by decide)
      (by decide) (by decide) (by decide)⟩

/-- C10 fails for a radius at the top of the Go `int`s: around the centre `(20, 20)` of
the black frame, with the one-pixel black template and the radius `2^63 - 1`, the sums
`center.X + radius` and `center.Y + radius` wrap around to negative values, the window
is empty, and `refineSearch` returns the centre with score `-1` after no call of
`compareRegion`. Yet the centre itself is within the radius, the template lies inside the
frame there, and `compareRegion` gives 1 there. -/
theorem refineSearch_radius_overflow :
    refineSearch 105 blackFrame blackDot { X := 20, Y := 20 } 9223372036854775807 =
      some { bestLoc := { X := 20, Y := 20 }, bestScore := F64.fin (-1), evals := [] } ∧
    |(20 : Int) - 20| ≤ 9223372036854775807 ∧
    Fits blackFrame blackDot { X := 20, Y := 20 } ∧
    compareRegion 105 blackFrame blackDot 20 20 = some (F64.fin 1) := by
  have hgrid : refineGrid blackFrame blackDot { X := 20, Y := 20 } 9223372036854775807 = [] := by
    unfold refineGrid
    rw [stride_eq_nil _ _ 1 (by decide)]
    exact grid_nil_left _
  have hr := refineSearch_eq 105 blackFrame blackDot { X := 20, Y := 20 } 9223372036854775807
    (by decide)
  rw [hgrid, foldl_pick_nil] at hr
  have hone : scoreQ blackFrame blackDot { X := 20, Y := 20 } = 1 :=
    (scoreQ_eq_one_iff blackFrame blackDot _ (by decide) (by decide)).mpr
      (fun _ _ _ _ => ⟨rfl, rfl, rfl⟩)
  have hc := compareRegion_scoreQ 105 blackFrame blackDot { X := 20, Y := 20 } (by decide)
    (by decide) (by decide)
  rw [hone] at hc
  exact ⟨hr, by decide, by decide, hc⟩

/-! ## Image lookup and the cycle of `Run` -/

theorem findAndClickImage_load_error (fuel : Nat) (imagePath : String) (config : Config)
    (scr : Screen) (load : String → Except String Image) (screen : Image) (err : String)
    (hcap : scr.capture = Except.ok screen) (hload : load imagePath = Except.error err) :
    findAndClickImage fuel imagePath config scr load =
      some ([Effect.logPrintf
        ("Ошибка загрузки изображения " ++ imagePath ++ ": " ++ err ++ "\n")], false) := by
  simp only [findAndClickImage, hcap, hload]

theorem findAndClickImage_match (fuel : Nat) (imagePath : String) (config : Config)
    (scr : Screen) (load : String → Except String Image) (screen template : Image)
    (res : Search) (hcap : scr.capture = Except.ok screen)
    (hload : load imagePath = Except.ok template)
    (hm : templateMatch fuel screen template config.SearchScale config.RefineRadius = some res) :
    findAndClickImage fuel imagePath config scr load =
      some (if F64.ge res.bestScore config.MatchThreshold then
        ([Effect.move (res.bestLoc.X + Int.tdiv template.Bounds.Dx 2)
            (res.bestLoc.Y + Int.tdiv template.Bounds.Dy 2),
          Effect.sleep (50 * 1000000), Effect.click,
          Effect.status
            { Message := "  Клик: X=" ++
                toString (res.bestLoc.X + Int.tdiv template.Bounds.Dx 2) ++ ", Y=" ++
                toString (res.bestLoc.Y + Int.tdiv template.Bounds.Dy 2) ++
                " (точность: " ++ fmtF0 (F64.mul res.bestScore (F64.fin 100)) ++ "%)",
              Level := "info" }], true)
      else ([], false)) := by
  simp only [findAndClickImage, hcap, hload, hm, Option.map_some']

theorem findAndClickImage_returns (fuel : Nat) (imagePath : String) (config : Config)
    (scr : Screen) (load : String → Except String Image) (hs : 1 ≤ config.SearchScale)
    (hfuel : ∀ screen template : Image, scr.capture = Except.ok screen →
      load imagePath = Except.ok template → fuelBound screen template < fuel) :
    ∃ r : List Effect × Bool, findAndClickImage fuel imagePath config scr load = some r := by
  cases hcap : scr.capture with
  | error err => exact ⟨_, findAndClickImage_capture_error fuel imagePath config scr load err hcap⟩
  | ok screen =>
    cases hload : load imagePath with
    | error err =>
      exact ⟨_, findAndClickImage_load_error fuel imagePath config scr load screen err hcap hload⟩
    | ok template =>
      exact ⟨_, findAndClickImage_match fuel imagePath config scr load screen template _ hcap
        hload (templateMatch_value fuel screen template config.SearchScale config.RefineRadius
          hs (hfuel screen template hcap hload))⟩

theorem roundHalfEven_intCast (n : Int) : roundHalfEven (n : ℚ) = n := by
  have h : Rat.floor (n : ℚ) = n := by
    rw [Rat.floor_def']
    simp
  simp [roundHalfEven, h]

theorem fmtF0_full_score : fmtF0 (F64.mul (F64.fin 1) (F64.fin 100)) = "100" := by
  have h : ((1 : ℚ) * 100) = ((100 : Int) : ℚ) := by norm_num
  simp only [fmtF0, F64.mul, h, roundHalfEven_intCast]
  decide

theorem templateMatch_tiny :
    ∃ res : Search, templateMatch 30 tinyFrame blackDot 16 24 = some res ∧
      res.bestScore = F64.fin 1 ∧ res.bestLoc = { X := 0, Y := 0 } := by
  have hmem : ({ X := 0, Y := 0 } : Point) ∈ coarseGrid tinyFrame blackDot 16 :=
    (mem_coarseGrid tinyFrame blackDot 16 (by decide) _).mpr
      ⟨⟨0, 0, by decide, by decide⟩, by decide⟩
  obtain ⟨res, h1, h2, h3, _, _⟩ := templateMatch_copy 30 tinyFrame blackDot 16 24
    { X := 0, Y := 0 } (by decide) (by decide) (by decide) (by decide) hmem
    (fun _ _ _ _ => ⟨rfl, rfl, rfl⟩)
  refine ⟨res, h1, h2, ?_⟩
  have hfit := ((mem_coarseGrid tinyFrame blackDot 16 (by decide) _).mp h3).2
  have hb : tinyFrame.Bounds = { Min := { X := 0, Y := 0 }, Max := { X := 1, Y := 1 } } := rfl
  have hd : blackDot.Bounds = { Min := { X := 0, Y := 0 }, Max := { X := 1, Y := 1 } } := rfl
  unfold Fits at hfit
  rw [hb, hd] at hfit
  simp only [Rectangle.Dx, Rectangle.Dy] at hfit
  generalize res.bestLoc = p at hfit
  obtain ⟨x, y⟩ := p
  dsimp only at hfit
  have hx : x = 0 := by omega
  have hy : y = 0 := by omega
  rw [hx, hy]

theorem findAndClickImage_tiny (imagePath : String) :
    findAndClickImage 30 imagePath DefaultConfig tinyScreen (fun _ => Except.ok blackDot) =
      some ([Effect.move 0 0, Effect.sleep 50000000, Effect.click,
        Effect.status { Message := "  Клик: X=0, Y=0 (точность: 100%)", Level := "info" }],
        true) := by
  obtain ⟨res, h1, h2, h3⟩ := templateMatch_tiny
  have hge : F64.ge (F64.fin 1) DefaultConfig.MatchThreshold = true := by
    simp only [DefaultConfig, F64.ge, F64.le, decide_eq_true_eq]
    norm_num
  rw [findAndClickImage_match 30 imagePath DefaultConfig tinyScreen _ tinyFrame blackDot res
    rfl rfl h1, h2, h3, hge, if_pos rfl, fmtF0_full_score]
  rfl

theorem findAndClickImage_load_congr (fuel : Nat) (imagePath : String) (config : Config)
    (scr : Screen) (load load2 : String → Except String Image)
    (h : load2 imagePath = load imagePath) :
    findAndClickImage fuel imagePath config scr load2 =
      findAndClickImage fuel imagePath config scr load := by
  simp only [findAndClickImage, h]

theorem enoughFuel_goodEnv : EnoughFuel 3100 DefaultConfig goodEnv := by
  refine ⟨by decide, ?_⟩
  intro path screen template hc hl
  have hscreen : scenarioFrame = screen := Except.ok.inj hc
  subst hscreen
  by_cases hp : path = "Good.png"
  · have hl2 : (Except.ok blackDot : Except String Image) = Except.ok template := by
      have h := hl
      simp only [goodEnv, hp, if_true] at h
      exact h
    have ht := Except.ok.inj hl2
    subst ht
    decide
  · have h := hl
    simp only [goodEnv, hp, if_false] at h
    cases h

theorem findColorInArea_returns (fuel : Nat) (config : Config) (scr : Screen)
    (hlow : -9223372036854775808 ≤ config.ColorY1)
    (hhigh : config.ColorY2 < 9223372036854775807)
    (hrows : (config.ColorY2 - config.ColorY1 + 1).toNat < fuel) :
    ∃ r : List Effect × (Bool × Int), findColorInArea fuel config scr = some r := by
  cases hcap : scr.capture with
  | error err => exact ⟨_, findColorInArea_capture_error fuel config scr err hcap⟩
  | ok img =>
    have hfun : findColorInArea fuel config scr =
        (findColorLoop config scr.bounds img (hexToRGB config.TargetColor).1
          (hexToRGB config.TargetColor).2.1 (hexToRGB config.TargetColor).2.2 fuel
          config.ColorY1).map fun res => ([], res) := by
      simp only [findColorInArea, hcap]
    rcases findColorLoop_spec config scr.bounds img hlow hhigh fuel config.ColorY1 (le_refl _)
      hrows with ⟨y, _, _, _, h⟩ | ⟨_, h⟩
    · exact ⟨_, by rw [hfun, h]; rfl⟩
    · exact ⟨_, by rw [hfun, h]; rfl⟩

/-- A cycle whose colour sampling does not end has sent its announcement only. -/
theorem runCycle_sample_stuck (fuel : Nat) (config : Config) (env : CycleEnv) (iteration : Int)
    (hsample : findColorInArea fuel config env.sampleScreen = none) :
    runCycle fuel config env iteration =
      { effects := [Effect.status
          { Message := "=== Итерация #" ++ toString iteration ++ " ===", Level := "info" }],
        finished := false } := by
  simp only [runCycle, hsample]

/-- A cycle whose image lookup does not end has sent the announcement, the events of the
sampling, the colour event and the event naming the image, and nothing more. -/
theorem runCycle_lookup_stuck (fuel : Nat) (config : Config) (env : CycleEnv)
    (iteration : Int) (sampleEffects : List Effect) (found : Bool) (foundY : Int)
    (hsample : findColorInArea fuel config env.sampleScreen =
      some (sampleEffects, (found, foundY)))
    (hlook : findAndClickImage fuel (if found then config.GoodImagePath else config.BadImagePath)
      config env.matchScreen env.load = none) :
    runCycle fuel config env iteration =
      { effects := [Effect.status
            { Message := "=== Итерация #" ++ toString iteration ++ " ===", Level := "info" }] ++
          sampleEffects ++
          [Effect.status
            (if found then
              { Message := "✓ Цвет #" ++ fmt06X config.TargetColor ++ " найден на Y=" ++
                  toString foundY, Level := "success" }
            else
              { Message := "✗ Цвет #" ++ fmt06X config.TargetColor ++ " не найден",
                Level := "warning" }),
           Effect.status
            { Message := "→ Ищу изображение: " ++
                (if found then config.GoodImagePath else config.BadImagePath),
              Level := "info" }],
        finished := false } := by
  cases found with
  | true =>
    simp only [if_true] at hlook
    simp only [runCycle, hsample, hlook, if_true]
  | false =>
    simp only [Bool.false_eq_true, if_false] at hlook
    simp only [runCycle, hsample, hlook, Bool.false_eq_true, if_false]

/-- The effects of one cycle, given the outcome of the colour sampling and of the single
image lookup that follows it. -/
theorem runCycle_lookup (fuel : Nat) (config : Config) (env : CycleEnv) (iteration : Int)
    (sampleEffects : List Effect) (found : Bool) (foundY : Int) (effects : List Effect)
    (clicked : Bool)
    (hsample : findColorInArea fuel config env.sampleScreen =
      some (sampleEffects, (found, foundY)))
    (hlook : findAndClickImage fuel (if found then config.GoodImagePath else config.BadImagePath)
      config env.matchScreen env.load = some (effects, clicked)) :
    runCycle fuel config env iteration =
      { effects := [Effect.status
            { Message := "=== Итерация #" ++ toString iteration ++ " ===", Level := "info" }] ++
          sampleEffects ++
          [Effect.status
            (if found then
              { Message := "✓ Цвет #" ++ fmt06X config.TargetColor ++ " найден на Y=" ++
                  toString foundY, Level := "success" }
            else
              { Message := "✗ Цвет #" ++ fmt06X config.TargetColor ++ " не найден",
                Level := "warning" }),
           Effect.status
            { Message := "→ Ищу изображение: " ++
                (if found then config.GoodImagePath else config.BadImagePath),
              Level := "info" }] ++
          effects ++
          [Effect.status
            (if clicked then
              { Message := "✓ Изображение " ++
                  (if found then config.GoodImagePath else config.BadImagePath) ++
                  " найдено и кликнуто", Level := "success" }
            else
              { Message := "✗ Изображение " ++
                  (if found then config.GoodImagePath else config.BadImagePath) ++
                  " не найдено", Level := "error" }),
           Effect.sleep (wrap64 (config.LoopDelay * 1000000000))],
        finished := true } := by
  cases found with
  | true =>
    simp only [if_true] at hlook
    simp only [runCycle, hsample, hlook, if_true]
    cases clicked <;> simp
  | false =>
    simp only [Bool.false_eq_true, if_false] at hlook
    simp only [runCycle, hsample, hlook, Bool.false_eq_true, if_false]
    cases clicked <;> simp

/-! ## C11: the image lookup and its events -/

/-- C11 (amended): on a captured screen, with a stride of at least one and enough fuel,
`findAndClickImage` returns; it reports a click if and only if the image loads and the
score of `templateMatch` is at least `MatchThreshold`. In that case its effects are exactly
the pointer move to `(loc.X + Dx/2, loc.Y + Dy/2)` (truncating division), the 50 ms pause,
the click, and one event of level "info" carrying these coordinates and the score as a
percentage. Otherwise its only effect, if any, is a log line: no pointer action, no event.
The cycle of `Run` that made the lookup then emits, right after these effects, the
success-level event naming the image if a click was reported and the error-level event
that the image was not found if not, followed by the delay, and the cycle finishes. -/
theorem findAndClickImage_click (fuel : Nat) (imagePath : String) (config : Config)
    (scr : Screen) (load : String → Except String Image) (screen : Image)
    (hcap : scr.capture = Except.ok screen) (hs : 1 ≤ config.SearchScale)
    (hfuel : ∀ template : Image, load imagePath = Except.ok template →
      fuelBound screen template < fuel) :
    ∃ (effects : List Effect) (clicked : Bool),
      findAndClickImage fuel imagePath config scr load = some (effects, clicked) ∧
      (clicked = true ↔ ∃ (template : Image) (res : Search),
        load imagePath = Except.ok template ∧
        templateMatch fuel screen template config.SearchScale config.RefineRadius = some res ∧
        F64.ge res.bestScore config.MatchThreshold = true) ∧
      (∀ (template : Image) (res : Search), load imagePath = Except.ok template →
        templateMatch fuel screen template config.SearchScale config.RefineRadius = some res →
        F64.ge res.bestScore config.MatchThreshold = true →
        effects =
          [Effect.move (res.bestLoc.X + Int.tdiv template.Bounds.Dx 2)
            (res.bestLoc.Y + Int.tdiv template.Bounds.Dy 2),
           Effect.sleep (50 * 1000000), Effect.click,
           Effect.status
            { Message := "  Клик: X=" ++
                toString (res.bestLoc.X + Int.tdiv template.Bounds.Dx 2) ++ ", Y=" ++
                toString (res.bestLoc.Y + Int.tdiv template.Bounds.Dy 2) ++
                " (точность: " ++ fmtF0 (F64.mul res.bestScore (F64.fin 100)) ++ "%)",
              Level := "info" }]) ∧
      (clicked = false → ∀ e ∈ effects, ∃ text : String, e = Effect.logPrintf text) ∧
      (∀ (env : CycleEnv) (iteration : Int) (sampleEffects : List Effect) (found : Bool)
        (foundY : Int), env.matchScreen = scr → env.load = load →
        findColorInArea fuel config env.sampleScreen = some (sampleEffects, (found, foundY)) →
        imagePath = (if found then config.GoodImagePath else config.BadImagePath) →
        ∃ before : List Effect, runCycle fuel config env iteration =
          { effects := before ++ effects ++
              [Effect.status
                (if clicked then
                  { Message := "✓ Изображение " ++ imagePath ++ " найдено и кликнуто",
                    Level := "success" }
                else
                  { Message := "✗ Изображение " ++ imagePath ++ " не найдено",
                    Level := "error" }),
               Effect.sleep (wrap64 (config.LoopDelay * 1000000000))],
            finished := true }) := by
  have hcycle : ∀ (effects : List Effect) (clicked : Bool),
      findAndClickImage fuel imagePath config scr load = some (effects, clicked) →
      ∀ (env : CycleEnv) (iteration : Int) (sampleEffects : List Effect) (found : Bool)
        (foundY : Int), env.matchScreen = scr → env.load = load →
        findColorInArea fuel config env.sampleScreen = some (sampleEffects, (found, foundY)) →
        imagePath = (if found then config.GoodImagePath else config.BadImagePath) →
        ∃ before : List Effect, runCycle fuel config env iteration =
          { effects := before ++ effects ++
              [Effect.status
                (if clicked then
                  { Message := "✓ Изображение " ++ imagePath ++ " найдено и кликнуто",
                    Level := "success" }
                else
                  { Message := "✗ Изображение " ++ imagePath ++ " не найдено",
                    Level := "error" }),
               Effect.sleep (wrap64 (config.LoopDelay * 1000000000))],
            finished := true } := by
    intro effects clicked hlook env iteration sampleEffects found foundY hscr hload hsample hpath
    subst hscr hload
    rw [hpath] at hlook
    rw [runCycle_lookup fuel config env iteration sampleEffects found foundY effects clicked
      hsample hlook, hpath]
    exact ⟨_, rfl⟩
  cases hload : load imagePath with
  | error err =>
    have hlook := findAndClickImage_load_error fuel imagePath config scr load screen err hcap
      hload
    refine ⟨_, false, hlook, ?_, ?_, ?_, hcycle _ _ hlook⟩
    · constructor
      · intro h
        cases h
      · rintro ⟨template, _, h, _⟩
        cases h
    · intro template _ h
      cases h
    · intro _ e he
      exact ⟨_, List.mem_singleton.mp he⟩
  | ok template =>
    have hm := templateMatch_value fuel screen template config.SearchScale config.RefineRadius
      hs (hfuel template hload)
    have hlook := findAndClickImage_match fuel imagePath config scr load screen template _ hcap
      hload hm
    by_cases hge : F64.ge (matchResult screen template config.SearchScale
      config.RefineRadius).bestScore config.MatchThreshold = true
    · rw [if_pos hge] at hlook
      refine ⟨_, true, hlook, ?_, ?_, ?_, hcycle _ _ hlook⟩
      · exact ⟨fun _ => ⟨template, _, rfl, hm, hge⟩, fun _ => rfl⟩
      · intro template2 res h1 h2 _
        cases h1
        rw [hm] at h2
        cases h2
        rfl
      · intro h
        cases h
    · rw [if_neg hge] at hlook
      refine ⟨_, false, hlook, ?_, ?_, ?_, hcycle _ _ hlook⟩
      · constructor
        · intro h
          cases h
        · rintro ⟨template2, res, h1, h2, h3⟩
          cases h1
          rw [hm] at h2
          cases h2
          exact absurd h3 hge
      · intro template2 res h1 h2 h3
        cases h1
        rw [hm] at h2
        cases h2
        exact absurd h3 hge
      · intro _ e he
        cases he

/-- C11 (amended), on the one-pixel display with the one-pixel template, looked up as
"bad.png" under `DefaultConfig`. -/
theorem findAndClickImage_click_witness :
    tinyScreen.capture = Except.ok tinyFrame ∧ 1 ≤ DefaultConfig.SearchScale ∧
    (∀ template : Image, (fun _ : String => (Except.ok blackDot : Except String Image))
        "bad.png" = Except.ok template → fuelBound tinyFrame template < 30) ∧
    ∃ (effects : List Effect) (clicked : Bool),
      findAndClickImage 30 "bad.png" DefaultConfig tinyScreen (fun _ => Except.ok blackDot) =
        some (effects, clicked) ∧
      (clicked = true ↔ ∃ (template : Image) (res : Search),
        (fun _ : String => (Except.ok blackDot : Except String Image)) "bad.png" =
          Except.ok template ∧
        templateMatch 30 tinyFrame template DefaultConfig.SearchScale
          DefaultConfig.RefineRadius = some res ∧
        F64.ge res.bestScore DefaultConfig.MatchThreshold = true) ∧
      (∀ (template : Image) (res : Search),
        (fun _ : String => (Except.ok blackDot : Except String Image)) "bad.png" =
          Except.ok template →
        templateMatch 30 tinyFrame template DefaultConfig.SearchScale
          DefaultConfig.RefineRadius = some res →
        F64.ge res.bestScore DefaultConfig.MatchThreshold = true →
        effects =
          [Effect.move (res.bestLoc.X + Int.tdiv template.Bounds.Dx 2)
            (res.bestLoc.Y + Int.tdiv template.Bounds.Dy 2),
           Effect.sleep (50 * 1000000), Effect.click,
           Effect.status
            { Message := "  Клик: X=" ++
                toString (res.bestLoc.X + Int.tdiv template.Bounds.Dx 2) ++ ", Y=" ++
                toString (res.bestLoc.Y + Int.tdiv template.Bounds.Dy 2) ++
                " (точность: " ++ fmtF0 (F64.mul res.bestScore (F64.fin 100)) ++ "%)",
              Level := "info" }]) ∧
      (clicked = false → ∀ e ∈ effects, ∃ text : String, e = Effect.logPrintf text) ∧
      (∀ (env : CycleEnv) (iteration : Int) (sampleEffects : List Effect) (found : Bool)
        (foundY : Int), env.matchScreen = tinyScreen →
        env.load = (fun _ => Except.ok blackDot) →
        findColorInArea 30 DefaultConfig env.sampleScreen =
          some (sampleEffects, (found, foundY)) →
        "bad.png" =
          (if found then DefaultConfig.GoodImagePath else DefaultConfig.BadImagePath) →
        ∃ before : List Effect, runCycle 30 DefaultConfig env iteration =
          { effects := before ++ effects ++
              [Effect.status
                (if clicked then
                  { Message := "✓ Изображение " ++ "bad.png" ++ " найдено и кликнуто",
                    Level := "success" }
                else
                  { Message := "✗ Изображение " ++ "bad.png" ++ " не найдено",
                    Level := "error" }),
               Effect.sleep (wrap64 (DefaultConfig.LoopDelay * 1000000000))],
            finished := true }) :=
  ⟨rfl, by decide,
    fun template h => by
      have ht := Except.ok.inj h
      subst ht
      decide,
    findAndClickImage_click 30 "bad.png" DefaultConfig tinyScreen (fun _ => Except.ok blackDot)
      tinyFrame rfl (by decide)
      (fun template h => by
        have ht := Except.ok.inj h
        subst ht
        decide)⟩

/-- C11 as stated fails: on the one-pixel display the lookup of "bad.png" clicks at
`(0, 0)` with score 1, and the event that carries the coordinates and the percentage has
level "info"; the only success-level event of the cycle names the image and carries
neither coordinates nor score. -/
theorem findAndClickImage_click_event_is_info :
    findAndClickImage 30 "bad.png" DefaultConfig tinyScreen (fun _ => Except.ok blackDot) =
      some ([Effect.move 0 0, Effect.sleep 50000000, Effect.click,
        Effect.status { Message := "  Клик: X=0, Y=0 (точность: 100%)", Level := "info" }],
        true) ∧
    runCycle 30 DefaultConfig clickEnv 1 =
      { effects :=
          [Effect.status { Message := "=== Итерация #1 ===", Level := "info" },
           Effect.status { Message := "✗ Цвет #77604B не найден", Level := "warning" },
           Effect.status { Message := "→ Ищу изображение: bad.png", Level := "info" },
           Effect.move 0 0, Effect.sleep 50000000, Effect.click,
           Effect.status { Message := "  Клик: X=0, Y=0 (точность: 100%)", Level := "info" },
           Effect.status
            { Message := "✓ Изображение bad.png найдено и кликнуто", Level := "success" },
           Effect.sleep 1000000000],
        finished := true } := by
  have hsample : findColorInArea 30 DefaultConfig clickEnv.sampleScreen =
      some ([], (false, 0)) := by decide
  refine ⟨findAndClickImage_tiny "bad.png", ?_⟩
  rw [runCycle_lookup 30 DefaultConfig clickEnv 1 [] false 0 _ true hsample
    (findAndClickImage_tiny _)]
  decide

/-! ## C7: a cycle whose capture fails -/

/-- C7 fails on the code. In a cycle whose capture for the colour sampling fails while
the capture for the image lookup succeeds, `Run` sends the capture error, takes the
"colour not found" branch, matches the template of "bad.png" against the screen and
clicks it: template matching is attempted, and a click is made, in a cycle whose capture
failed. In a cycle in which both captures fail, two error-level events are sent, not
one. -/
theorem runCycle_capture_failure_clicks :
    flickerEnv.sampleScreen.capture = Except.error "no display" ∧
    runCycle 30 DefaultConfig flickerEnv 1 =
      { effects :=
          [Effect.status { Message := "=== Итерация #1 ===", Level := "info" },
           Effect.status { Message := "Ошибка захвата экрана: no display", Level := "error" },
           Effect.status { Message := "✗ Цвет #77604B не найден", Level := "warning" },
           Effect.status { Message := "→ Ищу изображение: bad.png", Level := "info" },
           Effect.move 0 0, Effect.sleep 50000000, Effect.click,
           Effect.status { Message := "  Клик: X=0, Y=0 (точность: 100%)", Level := "info" },
           Effect.status
            { Message := "✓ Изображение bad.png найдено и кликнуто", Level := "success" },
           Effect.sleep 1000000000],
        finished := true } ∧
    failedEnv.sampleScreen.capture = Except.error "no display" ∧
    failedEnv.matchScreen.capture = Except.error "no display" ∧
    (runCycle 30 DefaultConfig failedEnv 1).finished = true ∧
    errorEvents (runCycle 30 DefaultConfig failedEnv 1).effects = 2 := by
  refine ⟨rfl, ?_, rfl, rfl, by decide, by decide⟩
  rw [runCycle_lookup 30 DefaultConfig flickerEnv 1 _ false 0 _ true
    (findColorInArea_capture_error 30 DefaultConfig _ "no display" rfl)
    (findAndClickImage_tiny _)]
  decide

/-! ## C12: the branch of a cycle -/

theorem scenario_lookup :
    findAndClickImage 3100 "Good.png" DefaultConfig goodEnv.matchScreen goodEnv.load =
      some ([Effect.move 0 0, Effect.sleep 50000000, Effect.click,
        Effect.status { Message := "  Клик: X=0, Y=0 (точность: 100%)", Level := "info" }],
        true) := by
  have hmem : ∀ p : Point, p ∈ coarseGrid scenarioFrame blackDot 16 ↔
      (∃ i j : Nat, p.X = scenarioFrame.Bounds.Min.X + i * 16 ∧
        p.Y = scenarioFrame.Bounds.Min.Y + j * 16) ∧ Fits scenarioFrame blackDot p :=
    fun p => mem_coarseGrid scenarioFrame blackDot 16 (by decide) p
  have h00 : ({ X := 0, Y := 0 } : Point) ∈ coarseGrid scenarioFrame blackDot 16 :=
    (hmem _).mpr ⟨⟨0, 0, by decide, by decide⟩, by decide⟩
  have hid : RegionIdentical scenarioFrame blackDot { X := 0, Y := 0 } := by
    intro ty tx hty htx
    have hty0 : ty = 0 := by
      have h : (ty : Int) < 1 := hty
      omega
    have htx0 : tx = 0 := by
      have h : (tx : Int) < 1 := htx
      omega
    subst hty0 htx0
    decide
  obtain ⟨res, h1, h2, h3, _, h5⟩ := templateMatch_copy 3100 scenarioFrame blackDot 16 24
    { X := 0, Y := 0 } (by decide) (by decide) (by decide) (by decide) h00 hid
  have hloc : res.bestLoc = { X := 0, Y := 0 } := by
    have hfit := ((hmem _).mp h3).2
    have hle := h5 _ h00 hid
    have hb : scenarioFrame.Bounds.Min = { X := 0, Y := 0 } := rfl
    unfold Fits at hfit
    rw [hb] at hfit
    unfold RowMajorLE at hle
    generalize res.bestLoc = p at hfit hle
    obtain ⟨x, y⟩ := p
    dsimp only at hfit hle
    have hx : x = 0 := by omega
    have hy : y = 0 := by omega
    rw [hx, hy]
  have hge : F64.ge (F64.fin 1) DefaultConfig.MatchThreshold = true := by
    simp only [DefaultConfig, F64.ge, F64.le, decide_eq_true_eq]
    norm_num
  rw [findAndClickImage_match 3100 "Good.png" DefaultConfig goodEnv.matchScreen goodEnv.load
    scenarioFrame blackDot res rfl rfl h1, h2, hloc, hge, if_pos rfl, fmtF0_full_score]
  rfl

/-- C12: in every cycle of `Run`, let the colour sampler return `(found, foundY)`. The
cycle then sends the colour event, of level "success" with the text of `foundY` when
`found` and of level "warning" when not, and makes one image lookup, of `GoodImagePath`
when `found` and of `BadImagePath` when not. If that lookup returns, its effects, the
result event and the delay follow and the cycle finishes; if it does not, nothing more is
sent. The image files enter the cycle only through the path looked up: changing what any
other path holds, the other image included, changes nothing. -/
theorem runCycle_branch (fuel : Nat) (config : Config) (env : CycleEnv) (iteration : Int)
    (sampleEffects : List Effect) (found : Bool) (foundY : Int)
    (hsample : findColorInArea fuel config env.sampleScreen =
      some (sampleEffects, (found, foundY))) :
    (∀ (effects : List Effect) (clicked : Bool),
      findAndClickImage fuel (if found then config.GoodImagePath else config.BadImagePath)
        config env.matchScreen env.load = some (effects, clicked) →
      runCycle fuel config env iteration =
        { effects := [Effect.status
              { Message := "=== Итерация #" ++ toString iteration ++ " ===",
                Level := "info" }] ++
            sampleEffects ++
            [Effect.status
              (if found then
                { Message := "✓ Цвет #" ++ fmt06X config.TargetColor ++ " найден на Y=" ++
                    toString foundY, Level := "success" }
              else
                { Message := "✗ Цвет #" ++ fmt06X config.TargetColor ++ " не найден",
                  Level := "warning" }),
             Effect.status
              { Message := "→ Ищу изображение: " ++
                  (if found then config.GoodImagePath else config.BadImagePath),
                Level := "info" }] ++
            effects ++
            [Effect.status
              (if clicked then
                { Message := "✓ Изображение " ++
                    (if found then config.GoodImagePath else config.BadImagePath) ++
                    " найдено и кликнуто", Level := "success" }
              else
                { Message := "✗ Изображение " ++
                    (if found then config.GoodImagePath else config.BadImagePath) ++
                    " не найдено", Level := "error" }),
             Effect.sleep (wrap64 (config.LoopDelay * 1000000000))],
          finished := true }) ∧
    (findAndClickImage fuel (if found then config.GoodImagePath else config.BadImagePath)
        config env.matchScreen env.load = none →
      runCycle fuel config env iteration =
        { effects := [Effect.status
              { Message := "=== Итерация #" ++ toString iteration ++ " ===",
                Level := "info" }] ++
            sampleEffects ++
            [Effect.status
              (if found then
                { Message := "✓ Цвет #" ++ fmt06X config.TargetColor ++ " найден на Y=" ++
                    toString foundY, Level := "success" }
              else
                { Message := "✗ Цвет #" ++ fmt06X config.TargetColor ++ " не найден",
                  Level := "warning" }),
             Effect.status
              { Message := "→ Ищу изображение: " ++
                  (if found then config.GoodImagePath else config.BadImagePath),
                Level := "info" }],
          finished := false }) ∧
    ∀ load2 : String → Except String Image,
      load2 (if found then config.GoodImagePath else config.BadImagePath) =
        env.load (if found then config.GoodImagePath else config.BadImagePath) →
      runCycle fuel config
          { sampleScreen := env.sampleScreen, matchScreen := env.matchScreen, load := load2 }
          iteration =
        runCycle fuel config env iteration := by
  refine ⟨fun effects clicked hlook =>
      runCycle_lookup fuel config env iteration sampleEffects found foundY effects clicked
        hsample hlook,
    fun hlook =>
      runCycle_lookup_stuck fuel config env iteration sampleEffects found foundY hsample hlook,
    ?_⟩
  intro load2 h
  have hcongr := findAndClickImage_load_congr fuel
    (if found then config.GoodImagePath else config.BadImagePath) config env.matchScreen
    env.load load2 h
  cases hlook : findAndClickImage fuel
      (if found then config.GoodImagePath else config.BadImagePath) config env.matchScreen
      env.load with
  | none =>
    rw [runCycle_lookup_stuck fuel config env iteration sampleEffects found foundY hsample
      hlook]
    exact runCycle_lookup_stuck fuel config
      { sampleScreen := env.sampleScreen, matchScreen := env.matchScreen, load := load2 }
      iteration sampleEffects found foundY hsample (hcongr.trans hlook)
  | some r =>
    obtain ⟨effects, clicked⟩ := r
    rw [runCycle_lookup fuel config env iteration sampleEffects found foundY effects clicked
      hsample hlook]
    exact runCycle_lookup fuel config
      { sampleScreen := env.sampleScreen, matchScreen := env.matchScreen, load := load2 }
      iteration sampleEffects found foundY effects clicked hsample (hcongr.trans hlook)

/-- C12 on the scenario of the spec: target `0x77604B`, tolerance 10, column 11, rows 420
to 440, and a frame whose pixel `(11, 430)` is `(0x78, 0x61, 0x4C)`, all others black. The
sampler returns row 430; the cycle emits the success event ending in "430", looks up
"Good.png", finds it at `(0, 0)` and clicks. -/
theorem runCycle_branch_witness :
    findColorInArea 3100 DefaultConfig goodEnv.sampleScreen = some ([], (true, 430)) ∧
    findAndClickImage 3100 "Good.png" DefaultConfig goodEnv.matchScreen goodEnv.load =
      some ([Effect.move 0 0, Effect.sleep 50000000, Effect.click,
        Effect.status { Message := "  Клик: X=0, Y=0 (точность: 100%)", Level := "info" }],
        true) ∧
    runCycle 3100 DefaultConfig goodEnv 1 =
      { effects :=
          [Effect.status { Message := "=== Итерация #1 ===", Level := "info" },
           Effect.status { Message := "✓ Цвет #77604B найден на Y=430", Level := "success" },
           Effect.status { Message := "→ Ищу изображение: Good.png", Level := "info" },
           Effect.move 0 0, Effect.sleep 50000000, Effect.click,
           Effect.status { Message := "  Клик: X=0, Y=0 (точность: 100%)", Level := "info" },
           Effect.status
            { Message := "✓ Изображение Good.png найдено и кликнуто", Level := "success" },
           Effect.sleep 1000000000],
        finished := true } := by
  have hsample : findColorInArea 3100 DefaultConfig goodEnv.sampleScreen =
      some ([], (true, 430)) := by decide
  have hcycle := (runCycle_branch 3100 DefaultConfig goodEnv 1 [] true 430 hsample).1 _ _
    scenario_lookup
  refine ⟨hsample, scenario_lookup, ?_⟩
  rw [hcycle]
  decide

/-! ## C13 and C15: the cycles of one run -/

/-- Every cycle begins with the announcement of its index. -/
theorem runCycle_head (fuel : Nat) (config : Config) (env : CycleEnv) (iteration : Int) :
    ∃ rest : List Effect, (runCycle fuel config env iteration).effects =
      Effect.status
        { Message := "=== Итерация #" ++ toString iteration ++ " ===", Level := "info" } ::
        rest := by
  cases hsample : findColorInArea fuel config env.sampleScreen with
  | none =>
    rw [runCycle_sample_stuck fuel config env iteration hsample]
    exact ⟨_, rfl⟩
  | some r =>
    obtain ⟨sampleEffects, found, foundY⟩ := r
    cases hlook : findAndClickImage fuel
        (if found then config.GoodImagePath else config.BadImagePath) config env.matchScreen
        env.load with
    | none =>
      rw [runCycle_lookup_stuck fuel config env iteration sampleEffects found foundY hsample
        hlook]
      exact ⟨_, rfl⟩
    | some q =>
      obtain ⟨effects, clicked⟩ := q
      rw [runCycle_lookup fuel config env iteration sampleEffects found foundY effects clicked
        hsample hlook]
      exact ⟨_, rfl⟩

/-- A cycle that finishes ends with the `time.Sleep` of the delay. -/
theorem runCycle_finished_sleep (fuel : Nat) (config : Config) (env : CycleEnv)
    (iteration : Int) (hfin : (runCycle fuel config env iteration).finished = true) :
    ∃ body : List Effect, (runCycle fuel config env iteration).effects =
      body ++ [Effect.sleep (wrap64 (config.LoopDelay * 1000000000))] := by
  cases hsample : findColorInArea fuel config env.sampleScreen with
  | none =>
    rw [runCycle_sample_stuck fuel config env iteration hsample] at hfin
    cases hfin
  | some r =>
    obtain ⟨sampleEffects, found, foundY⟩ := r
    cases hlook : findAndClickImage fuel
        (if found then config.GoodImagePath else config.BadImagePath) config env.matchScreen
        env.load with
    | none =>
      rw [runCycle_lookup_stuck fuel config env iteration sampleEffects found foundY hsample
        hlook] at hfin
      cases hfin
    | some q =>
      obtain ⟨effects, clicked⟩ := q
      rw [runCycle_lookup fuel config env iteration sampleEffects found foundY effects clicked
        hsample hlook]
      refine ⟨[Effect.status
            { Message := "=== Итерация #" ++ toString iteration ++ " ===", Level := "info" }] ++
          sampleEffects ++
          [Effect.status
            (if found then
              { Message := "✓ Цвет #" ++ fmt06X config.TargetColor ++ " найден на Y=" ++
                  toString foundY, Level := "success" }
            else
              { Message := "✗ Цвет #" ++ fmt06X config.TargetColor ++ " не найден",
                Level := "warning" }),
           Effect.status
            { Message := "→ Ищу изображение: " ++
                (if found then config.GoodImagePath else config.BadImagePath),
              Level := "info" }] ++
          effects ++
          [Effect.status
            (if clicked then
              { Message := "✓ Изображение " ++
                  (if found then config.GoodImagePath else config.BadImagePath) ++
                  " найдено и кликнуто", Level := "success" }
            else
              { Message := "✗ Изображение " ++
                  (if found then config.GoodImagePath else config.BadImagePath) ++
                  " не найдено", Level := "error" })], ?_⟩
      simp

/-- With a row range inside the Go `int`s, a stride of at least one and enough fuel, a
cycle finishes. -/
theorem runCycle_finishes (fuel : Nat) (config : Config) (env : CycleEnv) (iteration : Int)
    (hlow : -9223372036854775808 ≤ config.ColorY1)
    (hhigh : config.ColorY2 < 9223372036854775807)
    (hs : 1 ≤ config.SearchScale) (hfuel : EnoughFuel fuel config env) :
    (runCycle fuel config env iteration).finished = true := by
  obtain ⟨⟨sampleEffects, found, foundY⟩, hsample⟩ :=
    findColorInArea_returns fuel config env.sampleScreen hlow hhigh hfuel.1
  obtain ⟨⟨effects, clicked⟩, hlook⟩ := findAndClickImage_returns fuel
    (if found then config.GoodImagePath else config.BadImagePath) config env.matchScreen
    env.load hs (hfuel.2 _)
  rw [runCycle_lookup fuel config env iteration sampleEffects found foundY effects clicked
    hsample hlook]

theorem runPass_halt (fuel : Nat) (config : Config) (w : World) (st : RunState)
    (h : st.returned = true ∨ st.stuck = true) : runPass fuel config w st = st := by
  rcases h with h | h <;> simp [runPass, h]

theorem runPass_done (fuel : Nat) (config : Config) (w : World) (st : RunState)
    (hret : st.returned = false) (hstuck : st.stuck = false)
    (hdone : w.done st.pass = true) :
    runPass fuel config w st =
      { pass := st.pass + 1, iteration := st.iteration,
        effects := st.effects ++
          [Effect.status { Message := "Автоматизация остановлена", Level := "info" }],
        returned := true, stuck := false } := by
  simp [runPass, hret, hstuck, hdone]

theorem runPass_live (fuel : Nat) (config : Config) (w : World) (st : RunState)
    (hret : st.returned = false) (hstuck : st.stuck = false)
    (hdone : w.done st.pass = false) :
    runPass fuel config w st =
      { pass := st.pass + 1, iteration := st.iteration + 1,
        effects := st.effects ++
          (runCycle fuel config (w.env st.pass) (st.iteration + 1)).effects,
        returned := false,
        stuck := !(runCycle fuel config (w.env st.pass) (st.iteration + 1)).finished } := by
  simp [runPass, hret, hstuck, hdone]

/-- What holds of `Run` after any number of passes: the counter is the number `m` of
cycles begun, the effects are those of the cycles `1..m` in order, followed by the final
event if `Run` has returned; a run that has neither returned nor got stuck has made a
finished cycle at every pass. -/
theorem Run_inv (fuel : Nat) (config : Config) (w : World) :
    ∀ n : Nat, ∃ m : Nat,
      (Run fuel config w n).iteration = (m : Int) ∧ m ≤ n ∧
      (Run fuel config w n).effects =
        ((List.range m).map fun k =>
          (runCycle fuel config (w.env k) ((k : Int) + 1)).effects).flatten ++
        (if (Run fuel config w n).returned then
          [Effect.status { Message := "Автоматизация остановлена", Level := "info" }]
        else []) ∧
      ((Run fuel config w n).returned = false → (Run fuel config w n).stuck = false →
        (Run fuel config w n).pass = m ∧ m = n ∧
        ∀ k < n, (runCycle fuel config (w.env k) ((k : Int) + 1)).finished = true) ∧
      ((∀ k < n, w.done k = false) → (Run fuel config w n).returned = false) ∧
      ((∀ k < n, (runCycle fuel config (w.env k) ((k : Int) + 1)).finished = true) →
        (Run fuel config w n).stuck = false) := by
  intro n
  induction n with
  | zero =>
    exact ⟨0, rfl, le_refl _, rfl, fun _ _ => ⟨rfl, rfl, fun k hk => absurd hk (Nat.not_lt_zero k)⟩,
      fun _ => rfl, fun _ => rfl⟩
  | succ n ih =>
    obtain ⟨m, h1, h2, h3, h4, h5, h6⟩ := ih
    have hrun : Run fuel config w (n + 1) = runPass fuel config w (Run fuel config w n) := rfl
    generalize Run fuel config w n = st at h1 h3 h4 h5 h6 hrun
    cases hret : st.returned with
    | true =>
      rw [runPass_halt fuel config w st (Or.inl hret)] at hrun
      rw [hrun]
      refine ⟨m, h1, Nat.le_succ_of_le h2, h3, fun h => ?_, fun h => ?_, fun h => ?_⟩
      · rw [hret] at h
        cases h
      · exact h5 fun k hk => h k (Nat.lt_succ_of_lt hk)
      · exact h6 fun k hk => h k (Nat.lt_succ_of_lt hk)
    | false =>
      cases hstuck : st.stuck with
      | true =>
        rw [runPass_halt fuel config w st (Or.inr hstuck)] at hrun
        rw [hrun]
        refine ⟨m, h1, Nat.le_succ_of_le h2, h3, fun _ h => ?_, fun _ => hret, fun h => ?_⟩
        · rw [hstuck] at h
          cases h
        · exact h6 fun k hk => h k (Nat.lt_succ_of_lt hk)
      | false =>
        obtain ⟨hpass, hmn, hfin⟩ := h4 hret hstuck
        subst hmn
        rw [hret] at h3
        simp only [Bool.false_eq_true, if_false, List.append_nil] at h3
        cases hdone : w.done st.pass with
        | true =>
          rw [runPass_done fuel config w st hret hstuck hdone] at hrun
          rw [hrun]
          refine ⟨m, h1, Nat.le_succ _, ?_, fun h => ?_, fun h => ?_, fun _ => rfl⟩
          · simp only [if_true, h3]
          · simp at h
          · have := h m (Nat.lt_succ_self m)
            rw [hpass] at hdone
            rw [hdone] at this
            cases this
        | false =>
          rw [runPass_live fuel config w st hret hstuck hdone] at hrun
          rw [hrun]
          refine ⟨m + 1, by simp only [h1]; push_cast; rfl, le_refl _, ?_, ?_, fun _ => rfl, ?_⟩
          · simp only [Bool.false_eq_true, if_false, List.append_nil, h3, hpass, h1,
              List.range_succ, List.map_append, List.flatten_append, List.map_cons,
              List.map_nil, List.flatten_cons, List.flatten_nil]
          · intro _ hs
            simp only [Bool.not_eq_false', hpass, h1] at hs
            refine ⟨by simp only [hpass], rfl, fun k hk => ?_⟩
            rcases Nat.lt_succ_iff_lt_or_eq.mp hk with hlt | heq
            · exact hfin k hlt
            · rw [heq]
              exact hs
          · intro h
            have := h m (Nat.lt_succ_self m)
            simp only [hpass, h1, this, Bool.not_true]

/-- C13: in one call of `Run`, observed after any number `n` of passes, for every
configuration: the counter of `Run` is the number `m` of cycles begun, the effects of the
run are the effects of the cycles with the indices `1, 2, ..., m` in this order (followed
by the final event if `Run` has returned), and the cycle with index `k + 1` begins with
the info-level event "=== Итерация #(k+1) ===". The index thus starts at 1 and grows by
exactly 1 from cycle to cycle. When the context is not done at the first `n` selects and
every cycle finishes, `m = n`: every pass makes a cycle. -/
theorem Run_cycle_index (fuel : Nat) (config : Config) (w : World) (n : Nat) :
    ∃ m : Nat,
      (Run fuel config w n).iteration = (m : Int) ∧ m ≤ n ∧
      (Run fuel config w n).effects =
        ((List.range m).map fun k =>
          (runCycle fuel config (w.env k) ((k : Int) + 1)).effects).flatten ++
        (if (Run fuel config w n).returned then
          [Effect.status { Message := "Автоматизация остановлена", Level := "info" }]
        else []) ∧
      (∀ k : Nat, ∃ rest : List Effect,
        (runCycle fuel config (w.env k) ((k : Int) + 1)).effects =
          Effect.status
            { Message := "=== Итерация #" ++ toString ((k : Int) + 1) ++ " ===",
              Level := "info" } :: rest) ∧
      ((∀ k < n, w.done k = false) →
        (∀ k < n, (runCycle fuel config (w.env k) ((k : Int) + 1)).finished = true) →
        m = n) := by
  obtain ⟨m, h1, h2, h3, h4, h5, h6⟩ := Run_inv fuel config w n
  exact ⟨m, h1, h2, h3, fun k => runCycle_head fuel config (w.env k) ((k : Int) + 1),
    fun hlive hfin => (h4 (h5 hlive) (h6 hfin)).2.1⟩

/-- C13 on three passes of the scenario run: all three make a cycle. -/
theorem Run_cycle_index_witness :
    (∀ k < 3, goodWorld.done k = false) ∧
    (∀ k < 3, (runCycle 3100 DefaultConfig (goodWorld.env k) ((k : Int) + 1)).finished = true) ∧
    (Run 3100 DefaultConfig goodWorld 3).iteration = 3 ∧
    (Run 3100 DefaultConfig goodWorld 3).effects =
      ((List.range 3).map fun k =>
        (runCycle 3100 DefaultConfig (goodWorld.env k) ((k : Int) + 1)).effects).flatten ++
      (if (Run 3100 DefaultConfig goodWorld 3).returned then
        [Effect.status { Message := "Автоматизация остановлена", Level := "info" }]
      else []) ∧
    ∀ k : Nat, ∃ rest : List Effect,
      (runCycle 3100 DefaultConfig (goodWorld.env k) ((k : Int) + 1)).effects =
        Effect.status
          { Message := "=== Итерация #" ++ toString ((k : Int) + 1) ++ " ===",
            Level := "info" } :: rest := by
  have hlive : ∀ k < 3, goodWorld.done k = false := fun _ _ => rfl
  have hfin : ∀ k < 3,
      (runCycle 3100 DefaultConfig (goodWorld.env k) ((k : Int) + 1)).finished = true :=
    fun k _ => runCycle_finishes 3100 DefaultConfig (goodWorld.env k) _ (by decide) (by decide)
      (by decide) enoughFuel_goodEnv
  obtain ⟨m, h1, _, h3, h4, h5⟩ := Run_cycle_index 3100 DefaultConfig goodWorld 3
  have hm : m = 3 := h5 hlive hfin
  subst hm
  exact ⟨hlive, hfin, h1, h3, h4⟩

/-- C15 (amended): let the context be not done at the first `n + 1` selects of `Run` and
done at the next one, and let the run be in the delay of cycle `n + 1` (it has not got
stuck before), as when cancellation is signalled during that delay. For a `LoopDelay`
whose nanoseconds fit a `time.Duration`, the delay is not cut short: after `n + 1` passes
the effects of the run end with the `time.Sleep` of the full `LoopDelay` seconds and the
run has not returned; only the pass after that sleep finds the context done, emits the
final info-level event "Автоматизация остановлена" and returns. -/
theorem Run_cancel_after_full_sleep (fuel : Nat) (config : Config) (w : World) (n : Nat)
    (hdelay : InInt64 (config.LoopDelay * 1000000000))
    (hlive : ∀ k < n + 1, w.done k = false)
    (hsleep : (Run fuel config w (n + 1)).stuck = false)
    (hdone : w.done (n + 1) = true) :
    ∃ before : List Effect,
      Run fuel config w (n + 1) =
        { pass := n + 1, iteration := ((n + 1 : Nat) : Int),
          effects := before ++ [Effect.sleep (config.LoopDelay * 1000000000)],
          returned := false, stuck := false } ∧
      Run fuel config w (n + 2) =
        { pass := n + 2, iteration := ((n + 1 : Nat) : Int),
          effects := before ++
            [Effect.sleep (config.LoopDelay * 1000000000),
             Effect.status { Message := "Автоматизация остановлена", Level := "info" }],
          returned := true, stuck := false } := by
  obtain ⟨m, h1, _, h3, h4, h5, _⟩ := Run_inv fuel config w (n + 1)
  have hret := h5 hlive
  obtain ⟨hpass, hm, hfin⟩ := h4 hret hsleep
  subst hm
  obtain ⟨body, hbody⟩ := runCycle_finished_sleep fuel config (w.env n) ((n : Int) + 1)
    (hfin n (Nat.lt_succ_self n))
  rw [wrap64_eq _ hdelay] at hbody
  rw [hret] at h3
  simp only [Bool.false_eq_true, if_false, List.append_nil, List.range_succ, List.map_append,
    List.flatten_append, List.map_cons, List.map_nil, List.flatten_cons, List.flatten_nil,
    hbody, ← List.append_assoc] at h3
  have hstate : Run fuel config w (n + 1) =
      { pass := n + 1, iteration := ((n + 1 : Nat) : Int),
        effects := (((List.range n).map fun k =>
          (runCycle fuel config (w.env k) ((k : Int) + 1)).effects).flatten ++ body) ++
          [Effect.sleep (config.LoopDelay * 1000000000)],
        returned := false, stuck := false } := by
    cases hst : Run fuel config w (n + 1) with
    | mk p i e r t =>
      rw [hst] at h1 h3 hret hsleep hpass
      simp only at h1 h3 hret hsleep hpass
      rw [h1, h3, hret, hsleep, hpass]
  refine ⟨_, hstate, ?_⟩
  show runPass fuel config w (Run fuel config w (n + 1)) = _
  rw [hstate, runPass_done fuel config w _ rfl rfl hdone]
  simp only [List.append_assoc, List.singleton_append]

/-- C15 (amended) on the scenario run cancelled during the delay of its first cycle. -/
theorem Run_cancel_after_full_sleep_witness :
    InInt64 (DefaultConfig.LoopDelay * 1000000000) ∧
    (∀ k < 0 + 1, stopWorld.done k = false) ∧
    (Run 3100 DefaultConfig stopWorld (0 + 1)).stuck = false ∧
    stopWorld.done (0 + 1) = true ∧
    ∃ before : List Effect,
      Run 3100 DefaultConfig stopWorld (0 + 1) =
        { pass := 0 + 1, iteration := ((0 + 1 : Nat) : Int),
          effects := before ++ [Effect.sleep (DefaultConfig.LoopDelay * 1000000000)],
          returned := false, stuck := false } ∧
      Run 3100 DefaultConfig stopWorld (0 + 2) =
        { pass := 0 + 2, iteration := ((0 + 1 : Nat) : Int),
          effects := before ++
            [Effect.sleep (DefaultConfig.LoopDelay * 1000000000),
             Effect.status { Message := "Автоматизация остановлена", Level := "info" }],
          returned := true, stuck := false } := by
  have hstuck : (Run 3100 DefaultConfig stopWorld (0 + 1)).stuck = false := by
    obtain ⟨_, _, _, _, _, _, h6⟩ := Run_inv 3100 DefaultConfig stopWorld (0 + 1)
    exact h6 fun k _ => runCycle_finishes 3100 DefaultConfig (stopWorld.env k) _ (by decide)
      (by decide) (by decide) enoughFuel_goodEnv
  exact ⟨by decide, by decide, hstuck, by decide,
    Run_cancel_after_full_sleep 3100 DefaultConfig stopWorld 0 (by decide) (by decide) hstuck
      (by decide)⟩

/-- C15 as stated fails: with `LoopDelay` of one second and the context cancelled during
the delay of the first cycle, the run has not returned after that cycle, whose last
effect is the sleep of the whole second; the final event comes only after it. -/
theorem Run_sleep_not_interrupted :
    cancelWorld.done 0 = false ∧ cancelWorld.done 1 = true ∧
    Run 30 DefaultConfig cancelWorld 1 =
      { pass := 1, iteration := 1,
        effects :=
          [Effect.status { Message := "=== Итерация #1 ===", Level := "info" },
           Effect.status { Message := "Ошибка захвата экрана: no display", Level := "error" },
           Effect.status { Message := "✗ Цвет #77604B не найден", Level := "warning" },
           Effect.status { Message := "→ Ищу изображение: bad.png", Level := "info" },
           Effect.logPrintf "Ошибка захвата экрана: no display\n",
           Effect.status { Message := "✗ Изображение bad.png не найдено", Level := "error" },
           Effect.sleep 1000000000],
        returned := false, stuck := false } ∧
    Run 30 DefaultConfig cancelWorld 2 =
      { pass := 2, iteration := 1,
        effects :=
          [Effect.status { Message := "=== Итерация #1 ===", Level := "info" },
           Effect.status { Message := "Ошибка захвата экрана: no display", Level := "error" },
           Effect.status { Message := "✗ Цвет #77604B не найден", Level := "warning" },
           Effect.status { Message := "→ Ищу изображение: bad.png", Level := "info" },
           Effect.logPrintf "Ошибка захвата экрана: no display\n",
           Effect.status { Message := "✗ Изображение bad.png не найдено", Level := "error" },
           Effect.sleep 1000000000,
           Effect.status { Message := "Автоматизация остановлена", Level := "info" }],
        returned := true, stuck := false } := by
  refine ⟨rfl, rfl, by decide, by decide⟩

/-! ## C14: the START handler of the controller -/

theorem append_ne_of_head (a b : String) (c d : Char) (as bs : List Char)
    (ha : a.data = c :: as) (hb : b.data = d :: bs) (hcd : c ≠ d) (t : String) :
    a ++ t ≠ b := by
  intro h
  have h2 := congrArg String.data h
  rw [String.data_append, ha, hb] at h2
  simp only [List.cons_append, List.cons.injEq] at h2
  exact hcd h2.1

theorem controls_running (r : App) (ed : Editors) (h : r.running = true) :
    r.controls true false ed = r := by
  simp [App.controls, h]

theorem controls_idle (a : App) (ed : Editors) (h : a.running = false) :
    a.controls true false ed = (a.applySettings ed).startAutomation := by
  simp [App.controls, h]

theorem applySettings_runs (a : App) (ed : Editors) :
    (a.applySettings ed).runs = a.runs ∧ (a.applySettings ed).running = a.running ∧
    (a.applySettings ed).cancelFn = a.cancelFn := ⟨rfl, rfl, rfl⟩

theorem applySettings_announcements (a : App) (ed : Editors) :
    startAnnouncements (a.applySettings ed).events = startAnnouncements a.events := by
  cases hsave : ed.saveError <;>
    simp [App.applySettings, startAnnouncements, hsave, List.countP_append, List.countP_cons,
      isStartAnnouncement]

theorem startAutomation_announcements (a : App) :
    startAnnouncements a.startAutomation.events = startAnnouncements a.events + 1 := by
  have h1 : ∀ t : String, "Область поиска: X=" ++ t ≠ "=== ЗАПУСК АВТОМАТИЗАЦИИ ===" :=
    append_ne_of_head _ _ _ _ _ _ rfl rfl (by decide)
  have h2 : ∀ t : String, "Целевой цвет: #" ++ t ≠ "=== ЗАПУСК АВТОМАТИЗАЦИИ ===" :=
    append_ne_of_head _ _ _ _ _ _ rfl rfl (by decide)
  have h3 : ∀ t : String, "Изображения: Good=" ++ t ≠ "=== ЗАПУСК АВТОМАТИЗАЦИИ ===" :=
    append_ne_of_head _ _ _ _ _ _ rfl rfl (by decide)
  have h4 : ∀ t : String, "Интервал проверки: " ++ t ≠ "=== ЗАПУСК АВТОМАТИЗАЦИИ ===" :=
    append_ne_of_head _ _ _ _ _ _ rfl rfl (by decide)
  simp [App.startAutomation, startAnnouncements, List.countP_append, List.countP_cons,
    isStartAnnouncement, String.append_assoc, h1, h2, h3, h4]

theorem startAutomation_activeRuns (a : App) :
    activeRuns a.startAutomation = activeRuns a + 1 := by
  simp [App.startAutomation, activeRuns, List.filter_append]

theorem cancel_active (runs : List Launched) :
    ∀ (ctx : Nat) (r : Launched), runs[ctx]? = some r → r.cancelled = false →
      ((cancel ctx runs).filter fun r => !r.cancelled).length + 1 =
        (runs.filter fun r => !r.cancelled).length := by
  induction runs with
  | nil =>
    intro ctx r h _
    simp at h
  | cons x xs ih =>
    intro ctx r h hr
    cases ctx with
    | zero =>
      simp only [List.getElem?_cons_zero, Option.some.injEq] at h
      subst h
      simp [cancel, List.filter_cons, hr]
    | succ n =>
      simp only [List.getElem?_cons_succ] at h
      have := ih n r h hr
      cases hx : x.cancelled <;> simp [cancel, List.filter_cons, hx] <;> omega

theorem newApp_tracked (loaded : Except String Config) : (NewApp loaded).Tracked := by
  cases loaded <;> exact ⟨rfl, fun h => by cases h⟩

theorem startAutomation_tracked (a : App) (ed : Editors) (hidle : a.running = false)
    (h : a.Tracked) : ((a.applySettings ed).startAutomation).Tracked := by
  have h0 : activeRuns a = 0 := by
    have := h.1
    rw [hidle] at this
    exact this
  have h1 : activeRuns (a.applySettings ed) = 0 := h0
  refine ⟨?_, fun _ => ⟨(a.applySettings ed).runs.length,
    { config := (a.applySettings ed).config, cancelled := false }, rfl, ?_, rfl⟩⟩
  · rw [startAutomation_activeRuns, h1]
    rfl
  · simp [App.startAutomation]

theorem stopAutomation_tracked (a : App) (hrun : a.running = true) (h : a.Tracked) :
    a.stopAutomation.Tracked := by
  obtain ⟨ctx, r, hc, hget, hr⟩ := h.2 hrun
  have h1 : activeRuns a = 1 := by
    have := h.1
    rw [hrun] at this
    exact this
  have h2 := cancel_active a.runs ctx r hget hr
  have hruns : a.stopAutomation.runs = cancel ctx a.runs := by
    simp only [App.stopAutomation, hc]
  refine ⟨?_, fun h3 => by cases h3⟩
  show activeRuns a.stopAutomation = 0
  unfold activeRuns at h1 ⊢
  rw [hruns]
  omega

theorem controls_tracked (a : App) (startClicked stopClicked : Bool) (ed : Editors)
    (h : a.Tracked) : (a.controls startClicked stopClicked ed).Tracked := by
  have hfirst : (if (startClicked && !a.running) = true then
      (a.applySettings ed).startAutomation else a).Tracked := by
    by_cases hc : (startClicked && !a.running) = true
    · rw [if_pos hc]
      simp only [Bool.and_eq_true, Bool.not_eq_true'] at hc
      exact startAutomation_tracked a ed hc.2 h
    · rw [if_neg hc]
      exact h
  unfold App.controls
  simp only
  generalize (if (startClicked && !a.running) = true then
    (a.applySettings ed).startAutomation else a) = a1 at hfirst ⊢
  by_cases hd : (stopClicked && a1.running) = true
  · rw [if_pos hd]
    have hd2 : stopClicked = true ∧ a1.running = true := by simpa using hd
    exact stopAutomation_tracked _ hd2.2 hfirst
  · rw [if_neg hd]
    exact hfirst

theorem frames_tracked (fs : List Frame) : ∀ a : App, a.Tracked → (a.frames fs).Tracked := by
  induction fs with
  | nil =>
    intro a h
    exact h
  | cons f fs ih =>
    intro a h
    exact ih _ (controls_tracked a f.startClicked f.stopClicked f.editors h)

/-- C14: a frame in which START reports a click while the controller is running leaves
the controller unchanged: no settings applied, no goroutine of `Run` started, no event
sent. Hence, in any state `a` that the controller reaches from `NewApp` through frames of
START and STOP clicks, two START clicks in a row give the state of the first one: it is
running, exactly one goroutine of `Run` has a context that is not cancelled, and the
events hold one start announcement more than those of `a` if `a` was idle, none more if
`a` was running. -/
theorem controls_start_while_running (loaded : Except String Config) (fs : List Frame)
    (ed1 ed2 : Editors) :
    (∀ (r : App) (ed : Editors), r.running = true → r.controls true false ed = r) ∧
    ∀ a b : App, a = (NewApp loaded).frames fs →
      b = (a.controls true false ed1).controls true false ed2 →
      b = a.controls true false ed1 ∧ b.running = true ∧ activeRuns b = 1 ∧
      startAnnouncements b.events =
        startAnnouncements a.events + (if a.running then 0 else 1) ∧
      (a.running = true → b = a) := by
  refine ⟨controls_running, ?_⟩
  intro a b ha hb
  have ht : a.Tracked := by
    rw [ha]
    exact frames_tracked fs _ (newApp_tracked loaded)
  cases hrun : a.running with
  | false =>
    have hfirst := controls_idle a ed1 hrun
    have hsecond := controls_running ((a.applySettings ed1).startAutomation) ed2 rfl
    rw [hfirst, hsecond] at hb
    have htc := startAutomation_tracked a ed1 hrun ht
    refine ⟨by rw [hb, hfirst], by rw [hb]; rfl, ?_, ?_, fun h => by cases h⟩
    · rw [hb, htc.1]
      rfl
    · rw [hb, startAutomation_announcements, applySettings_announcements]
      rfl
  | true =>
    have hfirst := controls_running a ed1 hrun
    rw [hfirst, controls_running a ed2 hrun] at hb
    refine ⟨by rw [hb, hfirst], by rw [hb, hrun], ?_, ?_, fun _ => hb⟩
    · rw [hb, ht.1, hrun]
      rfl
    · rw [hb]
      rfl

/-- C14 on the controller of `DefaultConfig`, started and stopped once and then started
twice in a row. -/
theorem controls_start_while_running_witness :
    (((NewApp (Except.ok DefaultConfig)).frames
        [{ startClicked := true, stopClicked := false, editors := noEdits },
         { startClicked := false, stopClicked := true, editors := noEdits },
         { startClicked := true, stopClicked := false, editors := someEdits }]).running =
      true) ∧
    ((NewApp (Except.ok DefaultConfig)).frames
        [{ startClicked := true, stopClicked := false, editors := noEdits },
         { startClicked := false, stopClicked := true, editors := noEdits },
         { startClicked := true, stopClicked := false, editors := someEdits }]).controls
        true false noEdits =
      (NewApp (Except.ok DefaultConfig)).frames
        [{ startClicked := true, stopClicked := false, editors := noEdits },
         { startClicked := false, stopClicked := true, editors := noEdits },
         { startClicked := true, stopClicked := false, editors := someEdits }] ∧
    activeRuns
      ((((NewApp (Except.ok DefaultConfig)).frames
        [{ startClicked := true, stopClicked := false, editors := noEdits },
         { startClicked := false, stopClicked := true, editors := noEdits }]).controls
        true false someEdits).controls true false noEdits) = 1 :=
  ⟨rfl,
    (controls_start_while_running (Except.ok DefaultConfig) [] noEdits noEdits).1 _ noEdits rfl,
    ((controls_start_while_running (Except.ok DefaultConfig)
      [{ startClicked := true, stopClicked := false, editors := noEdits },
       { startClicked := false, stopClicked := true, editors := noEdits }]
      someEdits noEdits).2 _ _ rfl rfl).2.2.1⟩

end ColorSeeker
